import Mathlib

/-!
# SUQS quest state: status derivation and resolve barrier

A shallow embedding of `Source/SUQS/Private/SuqsQuestState.cpp`.

* The quest object becomes the record `USuqsQuestState`; every member function
  becomes a function from the state before the call to the state after it.
* The back-pointer `Progression` is split in two: the answers the controller
  gives (`USuqsProgression`: barrier policy and gate registry) are a parameter
  of each operation, and the calls the quest makes on it are appended to the
  field `ProgressionCalls`, oldest first.
* `TimeRemaining` and `DeltaTime` are floats in the source.  Only subtraction,
  `max` with zero and comparison with zero are applied to them.  They are
  embedded as integers counting units of 2^-149 s, the spacing of the smallest
  binary32 values, so that every finite binary32 value is such an integer; `max`
  and the comparison are exact on them.  `Tick` subtracts exactly; `TickWith`
  is the same function with the subtraction as a parameter, and `Binary32Sub`
  is the subtraction of the machine, which rounds.
* `Conditions` is a `uint32` bit mask; it is a natural number here and is only
  ever masked and compared with zero, so no wrap-around can occur.
* `CurrentObjectiveIndex` and the loop counter of the rescan are `int`.  The
  counter stays below `Objectives.Num()`, itself an `int`, so it never wraps;
  the index is an integer here (-1 for "none") and the counter a natural number.
* `ActiveBranches` and `DefaultActiveBranches` are finite sets of names.
* The objective and task collaborators are not part of the source file.  The
  quest only reads an objective's branch and aggregate state; what a collaborator
  call does to that state is a parameter (`ObjectiveCollaborator`) or is modelled
  from the specification, and a change of state calls back into the rescan.
* `FastTaskLookup` is an association list with one pair per identifier; a stored
  value is a task pointer and may be null.  `TMap::FindChecked` asserts that
  the key is present: the task operations return `Except ContractViolation`.
* `GetDescription` returns a reference to one of two members of the definition;
  it is given both as that member and as the text.
-/

namespace SUQS

/-! ## Data model -/

/-- Identifiers (`FName`).  The value `NAME_None` is the one `FName::IsNone` recognises. -/
abbrev FName := Nat

/-- The "no name" identifier. -/
def NAME_None : FName := 0

/-- `FName::IsNone`. -/
def IsNone (Name : FName) : Bool := Name == NAME_None

/-- Quest status enumeration. -/
inductive ESuqsQuestStatus where
  | Incomplete
  | Completed
  | Failed
  | Unavailable
  deriving DecidableEq, Repr

/-- Modelled from the spec: the objective collaborator (`SuqsObjectiveState.h` is not among the
sources) "exposes aggregate incomplete/completed/failed state"; these are its three states. -/
inductive ESuqsObjectiveStatus where
  | Incomplete
  | Completed
  | Failed
  deriving DecidableEq, Repr

/-- Modelled from the spec: the enumeration declarations are not among the sources; the spec
records that the label `ESuqsObjectiveStatus::Failed`, used as a case label in `ChangeStatus`,
is numerically aliased with the quest status `Failed`.  This is the quest status that label
selects. -/
def ObjectiveFailedLabel : ESuqsQuestStatus := ESuqsQuestStatus.Failed

/-- Modelled from the spec: an objective instance as the quest sees it, "aggregate
incomplete/completed/failed state, a branch identifier". -/
structure USuqsObjectiveState where
  Branch : FName
  Status : ESuqsObjectiveStatus
  deriving DecidableEq, Repr

/-- `USuqsObjectiveState::IsIncomplete`. -/
def USuqsObjectiveState.IsIncomplete (Obj : USuqsObjectiveState) : Bool :=
  Obj.Status == ESuqsObjectiveStatus.Incomplete

/-- `USuqsObjectiveState::IsCompleted`. -/
def USuqsObjectiveState.IsCompleted (Obj : USuqsObjectiveState) : Bool :=
  Obj.Status == ESuqsObjectiveStatus.Completed

/-- `USuqsObjectiveState::IsFailed`. -/
def USuqsObjectiveState.IsFailed (Obj : USuqsObjectiveState) : Bool :=
  Obj.Status == ESuqsObjectiveStatus.Failed

/-- `USuqsObjectiveState::GetBranch`. -/
def USuqsObjectiveState.GetBranch (Obj : USuqsObjectiveState) : FName := Obj.Branch

/-- The conditions a resolve barrier can require. -/
inductive ESuqsResolveBarrierCondition where
  | Time
  | Gate
  | Explicit
  deriving DecidableEq, Repr

/-- Modelled from the spec: the bit each condition occupies in `Conditions` ("bitset of
required conditions ∈ {Time, Gate, Explicit}"); the declaration is not among the sources, the
three conditions are given three distinct single bits. -/
def ESuqsResolveBarrierCondition.mask : ESuqsResolveBarrierCondition → Nat
  | ESuqsResolveBarrierCondition.Time => 1
  | ESuqsResolveBarrierCondition.Gate => 2
  | ESuqsResolveBarrierCondition.Explicit => 4

/-- The resolve barrier record. -/
structure FSuqsResolveBarrierStateData where
  Conditions : Nat
  TimeRemaining : Int
  Gate : FName
  bGrantedExplicitly : Bool
  bPending : Bool
  deriving DecidableEq, Repr

/-- Display text (`FText`). -/
abbrev FText := String

/-- Modelled from the spec: an objective definition of the static quest definition, whose
declaration is not among the sources: the branch of the objective and the identifiers of its
tasks. -/
structure FSuqsObjective where
  Branch : FName
  Tasks : List FName
  deriving DecidableEq, Repr

/-- The static quest definition, as far as the quest state reads it. -/
structure FSuqsQuest where
  DefaultActiveBranches : Finset FName
  Objectives : List FSuqsObjective := []
  DescriptionWhenActive : FText := ""
  DescriptionWhenCompleted : FText := ""
  deriving DecidableEq

/-- Modelled from the spec: a task instance as the quest sees it, whose declaration is not
among the sources: it has an identifier and belongs to the objective at `ObjectiveIndex`. -/
structure USuqsTaskState where
  Identifier : FName
  ObjectiveIndex : Nat
  deriving DecidableEq, Repr

/-- The calls the quest makes on its `Progression` back-pointer. -/
inductive ProgressionCall where
  | RaiseCurrentObjectiveChanged
  | RaiseQuestCompleted
  | RaiseQuestFailed
  | RaiseQuestReset
  | ProcessQuestStatusChange
  | GetResolveBarrierForQuest (Status : ESuqsQuestStatus)
  deriving DecidableEq, Repr

/-- The answers of the progression controller: its barrier policy and its gate registry. -/
structure USuqsProgression where
  GetResolveBarrierForQuest : FSuqsQuest → ESuqsQuestStatus → FSuqsResolveBarrierStateData
  IsGateOpen : FName → Bool

/-- Modelled from the spec: the objective collaborator's `tick(dt)` and
`notifyGateOpened(name)`, whose code is not among the sources.  Each yields the aggregate state
the objective has after the call. -/
structure ObjectiveCollaborator where
  Tick : USuqsObjectiveState → Int → ESuqsObjectiveStatus
  NotifyGateOpened : USuqsObjectiveState → FName → ESuqsObjectiveStatus

/-- The quest instance. -/
structure USuqsQuestState where
  QuestDefinition : FSuqsQuest
  Objectives : List USuqsObjectiveState
  CurrentObjectiveIndex : Int
  ActiveBranches : Finset FName
  ResolveBarrier : FSuqsResolveBarrierStateData
  Status : ESuqsQuestStatus
  ProgressionCalls : List ProgressionCall
  FastTaskLookup : List (FName × Option USuqsTaskState) := []
  deriving DecidableEq

/-- Modelled from the spec: the task collaborator's operations, whose code is not among the
sources.  A mutating operation is given the task it is called on and the quest at the time of
the call and yields its result and the quest after the call (the task's own logic propagates
up to the objective and the quest); a query yields its answer. -/
structure TaskCollaborator where
  Complete : USuqsTaskState → USuqsQuestState → Bool × USuqsQuestState
  Resolve : USuqsTaskState → USuqsQuestState → USuqsQuestState
  Fail : USuqsTaskState → USuqsQuestState → USuqsQuestState
  Progress : USuqsTaskState → Int → USuqsQuestState → Int × USuqsQuestState
  IsIncomplete : USuqsTaskState → Bool
  IsCompleted : USuqsTaskState → Bool
  IsFailed : USuqsTaskState → Bool
  Reset : USuqsTaskState → USuqsQuestState → USuqsQuestState

/-- The failure of a checked operation: `TMap::FindChecked` asserts that the key is present. -/
inductive ContractViolation where
  | FindChecked (Key : FName)
  deriving DecidableEq, Repr

/-! ## Operations -/

/-- `TMap::Find` on an association list with one pair per key: the value stored under the key,
if any.  A stored value is a task pointer, which may be null (`none`). -/
def TMapFind (Map : List (FName × Option USuqsTaskState)) (Key : FName) :
    Option (Option USuqsTaskState) :=
  match Map with
  | [] => none
  | Pair :: Rest => if Pair.1 = Key then some Pair.2 else TMapFind Rest Key

/-- `TMap::Add`: the value is stored under the key, replacing a value stored under it before. -/
def TMapAdd (Map : List (FName × Option USuqsTaskState)) (Key : FName)
    (Value : Option USuqsTaskState) : List (FName × Option USuqsTaskState) :=
  match Map with
  | [] => [(Key, Value)]
  | Pair :: Rest => if Pair.1 = Key then (Key, Value) :: Rest else Pair :: TMapAdd Rest Key Value

/-- `USuqsQuestState::GetTask`: `FastTaskLookup.FindChecked(Identifier)`. -/
def GetTask (q : USuqsQuestState) (Identifier : FName) :
    Except ContractViolation (Option USuqsTaskState) :=
  match TMapFind q.FastTaskLookup Identifier with
  | none => Except.error (ContractViolation.FindChecked Identifier)
  | some T => Except.ok T

/-- `USuqsQuestState::CompleteTask`. -/
def CompleteTask (C : TaskCollaborator) (q : USuqsQuestState) (TaskID : FName) :
    Except ContractViolation (Bool × USuqsQuestState) :=
  match GetTask q TaskID with
  | Except.error e => Except.error e
  | Except.ok (some T) => Except.ok (C.Complete T q)
  | Except.ok none => Except.ok (false, q)

/-- `USuqsQuestState::ResolveTask`. -/
def ResolveTask (C : TaskCollaborator) (q : USuqsQuestState) (TaskID : FName) :
    Except ContractViolation USuqsQuestState :=
  match GetTask q TaskID with
  | Except.error e => Except.error e
  | Except.ok (some T) => Except.ok (C.Resolve T q)
  | Except.ok none => Except.ok q

/-- `USuqsQuestState::FailTask`. -/
def FailTask (C : TaskCollaborator) (q : USuqsQuestState) (TaskID : FName) :
    Except ContractViolation USuqsQuestState :=
  match GetTask q TaskID with
  | Except.error e => Except.error e
  | Except.ok (some T) => Except.ok (C.Fail T q)
  | Except.ok none => Except.ok q

/-- `USuqsQuestState::ProgressTask`. -/
def ProgressTask (C : TaskCollaborator) (q : USuqsQuestState) (TaskID : FName) (Delta : Int) :
    Except ContractViolation (Int × USuqsQuestState) :=
  match GetTask q TaskID with
  | Except.error e => Except.error e
  | Except.ok (some T) => Except.ok (C.Progress T Delta q)
  | Except.ok none => Except.ok (0, q)

/-- `USuqsQuestState::IsTaskIncomplete`. -/
def IsTaskIncomplete (C : TaskCollaborator) (q : USuqsQuestState) (TaskID : FName) :
    Except ContractViolation Bool :=
  match GetTask q TaskID with
  | Except.error e => Except.error e
  | Except.ok (some T) => Except.ok (C.IsIncomplete T)
  | Except.ok none => Except.ok false

/-- `USuqsQuestState::IsTaskCompleted`. -/
def IsTaskCompleted (C : TaskCollaborator) (q : USuqsQuestState) (TaskID : FName) :
    Except ContractViolation Bool :=
  match GetTask q TaskID with
  | Except.error e => Except.error e
  | Except.ok (some T) => Except.ok (C.IsCompleted T)
  | Except.ok none => Except.ok false

/-- `USuqsQuestState::IsTaskFailed`. -/
def IsTaskFailed (C : TaskCollaborator) (q : USuqsQuestState) (TaskID : FName) :
    Except ContractViolation Bool :=
  match GetTask q TaskID with
  | Except.error e => Except.error e
  | Except.ok (some T) => Except.ok (C.IsFailed T)
  | Except.ok none => Except.ok false

/-- `USuqsQuestState::ResetTask`. -/
def ResetTask (C : TaskCollaborator) (q : USuqsQuestState) (TaskID : FName) :
    Except ContractViolation USuqsQuestState :=
  match GetTask q TaskID with
  | Except.error e => Except.error e
  | Except.ok (some T) => Except.ok (C.Reset T q)
  | Except.ok none => Except.ok q

/-- The two texts of the quest definition `GetDescription` can return a reference to. -/
inductive DescriptionMember where
  | DescriptionWhenActive
  | DescriptionWhenCompleted
  deriving DecidableEq, Repr

/-- The text a member reference stands for. -/
def FSuqsQuest.Text (Def : FSuqsQuest) : DescriptionMember → FText
  | DescriptionMember.DescriptionWhenActive => Def.DescriptionWhenActive
  | DescriptionMember.DescriptionWhenCompleted => Def.DescriptionWhenCompleted

/-- `USuqsQuestState::GetDescription`, as the member of the definition whose reference is
returned. -/
def GetDescriptionMember (q : USuqsQuestState) : DescriptionMember :=
  match q.Status with
  | ESuqsQuestStatus.Completed =>
    if q.QuestDefinition.DescriptionWhenCompleted.isEmpty then
      DescriptionMember.DescriptionWhenActive
    else DescriptionMember.DescriptionWhenCompleted
  | _ => DescriptionMember.DescriptionWhenActive

/-- `USuqsQuestState::GetDescription`, as the text returned. -/
def GetDescription (q : USuqsQuestState) : FText :=
  q.QuestDefinition.Text (GetDescriptionMember q)

/-- `USuqsQuestState::IsCompleted`. -/
def IsCompleted (q : USuqsQuestState) : Bool := q.Status == ESuqsQuestStatus.Completed

/-- `USuqsQuestState::IsFailed`. -/
def IsFailed (q : USuqsQuestState) : Bool := q.Status == ESuqsQuestStatus.Failed

/-- Records one call on `Progression`. -/
def Raise (q : USuqsQuestState) (c : ProgressionCall) : USuqsQuestState :=
  { q with ProgressionCalls := q.ProgressionCalls ++ [c] }

/-- `USuqsQuestState::IsBranchActive`. -/
def IsBranchActive (q : USuqsQuestState) (Branch : FName) : Bool :=
  if IsNone Branch then true
  else decide (Branch ∈ q.ActiveBranches)

/-- `USuqsQuestState::IsResolveBlockedOn`. -/
def IsResolveBlockedOn (q : USuqsQuestState) (Barrier : ESuqsResolveBarrierCondition) : Bool :=
  q.ResolveBarrier.bPending && decide ((q.ResolveBarrier.Conditions &&& Barrier.mask) > 0)

/-- `USuqsQuestState::IsResolveBlocked`. -/
def IsResolveBlocked (q : USuqsQuestState) : Bool :=
  (IsCompleted q || IsFailed q) && decide (q.ResolveBarrier.Conditions > 0) &&
    q.ResolveBarrier.bPending

/-- The value of the local `bCleared` of `MaybeNotifyStatusChange` when the function reaches
its final test: it starts as `true` and the three required conditions are looked at in turn. -/
def bCleared (P : USuqsProgression) (q : USuqsQuestState) : Bool :=
  let bCleared0 := true
  let bCleared1 :=
    if IsResolveBlockedOn q ESuqsResolveBarrierCondition.Time then
      (if q.ResolveBarrier.TimeRemaining > 0 then false else bCleared0)
    else bCleared0
  let bCleared2 :=
    if IsResolveBlockedOn q ESuqsResolveBarrierCondition.Gate then
      (if !P.IsGateOpen q.ResolveBarrier.Gate then false else bCleared1)
    else bCleared1
  if IsResolveBlockedOn q ESuqsResolveBarrierCondition.Explicit then
    q.ResolveBarrier.bGrantedExplicitly
  else bCleared2

/-- `USuqsQuestState::MaybeNotifyStatusChange`. -/
def MaybeNotifyStatusChange (P : USuqsProgression) (q : USuqsQuestState) : USuqsQuestState :=
  if !q.ResolveBarrier.bPending then q
  else if !IsCompleted q && !IsFailed q then q
  else if bCleared P q then
    let q1 := Raise q ProgressionCall.ProcessQuestStatusChange
    { q1 with ResolveBarrier := { q1.ResolveBarrier with bPending := false } }
  else q

/-- `USuqsQuestState::QueueStatusChangeNotification`. -/
def QueueStatusChangeNotification (P : USuqsProgression) (q : USuqsQuestState) :
    USuqsQuestState :=
  let q1 := Raise q (ProgressionCall.GetResolveBarrierForQuest q.Status)
  let q2 := { q1 with ResolveBarrier := P.GetResolveBarrierForQuest q1.QuestDefinition q1.Status }
  MaybeNotifyStatusChange P q2

/-- `USuqsQuestState::ChangeStatus`. -/
def ChangeStatus (P : USuqsProgression) (q : USuqsQuestState) (NewStatus : ESuqsQuestStatus) :
    USuqsQuestState :=
  if q.Status ≠ NewStatus then
    let q1 := { q with Status := NewStatus }
    let q2 :=
      if NewStatus = ESuqsQuestStatus.Completed then Raise q1 ProgressionCall.RaiseQuestCompleted
      else if NewStatus = ObjectiveFailedLabel then Raise q1 ProgressionCall.RaiseQuestFailed
      else if NewStatus = ESuqsQuestStatus.Incomplete then Raise q1 ProgressionCall.RaiseQuestReset
      else q1
    QueueStatusChangeNotification P q2
  else q

/-- `USuqsQuestState::OverrideStatus`. -/
def OverrideStatus (P : USuqsProgression) (q : USuqsQuestState)
    (OverrideStatus : ESuqsQuestStatus) : USuqsQuestState :=
  ChangeStatus P q OverrideStatus

/-- The scanning loop of `NotifyObjectiveStatusChanged`: `Objs` are the objectives
from index `i` on, `ObjectivesFailed` is the flag so far; the result is
the final `CurrentObjectiveIndex` and `ObjectivesFailed`. -/
def ScanObjectives (q : USuqsQuestState) :
    List USuqsObjectiveState → Nat → Bool → Int × Bool
  | [], _, ObjectivesFailed => (-1, ObjectivesFailed)
  | Obj :: Objs, i, ObjectivesFailed =>
    if IsBranchActive q Obj.GetBranch then
      if Obj.IsIncomplete then ((i : Int), ObjectivesFailed)
      else if Obj.IsFailed then ScanObjectives q Objs (i + 1) true
      else ScanObjectives q Objs (i + 1) ObjectivesFailed
    else ScanObjectives q Objs (i + 1) ObjectivesFailed

/-- `USuqsQuestState::NotifyObjectiveStatusChanged` (the rescan). -/
def NotifyObjectiveStatusChanged (P : USuqsProgression) (q : USuqsQuestState) :
    USuqsQuestState :=
  let PrevObjIndex := q.CurrentObjectiveIndex
  let Scan := ScanObjectives q q.Objectives 0 false
  let q1 := { q with CurrentObjectiveIndex := Scan.1 }
  let ObjectivesFailed := Scan.2
  if ObjectivesFailed then ChangeStatus P q1 ESuqsQuestStatus.Failed
  else if q1.CurrentObjectiveIndex = -1 then ChangeStatus P q1 ESuqsQuestStatus.Completed
  else
    let q2 := ChangeStatus P q1 ESuqsQuestStatus.Incomplete
    if PrevObjIndex ≠ q2.CurrentObjectiveIndex then
      Raise q2 ProgressionCall.RaiseCurrentObjectiveChanged
    else q2

/-- `USuqsQuestState::GetCurrentObjective`. -/
def GetCurrentObjective (q : USuqsQuestState) : Option USuqsObjectiveState :=
  if q.CurrentObjectiveIndex ≥ 0 ∧ q.CurrentObjectiveIndex < (q.Objectives.length : Int) then
    q.Objectives[q.CurrentObjectiveIndex.toNat]?
  else none

/-- Modelled from the spec: the objective collaborator's change of aggregate state, whose code
is not among the sources.  The objective at index `i` takes the state `NewStatus`; when that is
a change it calls back into its quest, which rescans ("the task instance's own completion logic
is expected to propagate up and eventually call back into" the status derivation). -/
def ObjectiveChangeStatus (P : USuqsProgression) (q : USuqsQuestState) (i : Nat)
    (NewStatus : ESuqsObjectiveStatus) : USuqsQuestState :=
  match q.Objectives[i]? with
  | none => q
  | some Obj =>
    if Obj.Status ≠ NewStatus then
      NotifyObjectiveStatusChanged P
        { q with Objectives := q.Objectives.set i { Obj with Status := NewStatus } }
    else q

/-- Modelled from the spec: the objective collaborator's `reset()`, whose code is not among the
sources: the objective at index `i` returns to the incomplete state, notifying "on change". -/
def ObjectiveReset (P : USuqsProgression) (q : USuqsQuestState) (i : Nat) : USuqsQuestState :=
  ObjectiveChangeStatus P q i ESuqsObjectiveStatus.Incomplete

/-- Modelled from the spec: the objective collaborator's `tick(dt)` applied to the objective at
index `i`, whose code is not among the sources; the collaborator decides the resulting state. -/
def ObjectiveTick (P : USuqsProgression) (O : ObjectiveCollaborator) (q : USuqsQuestState)
    (i : Nat) (DeltaTime : Int) : USuqsQuestState :=
  match q.Objectives[i]? with
  | none => q
  | some Obj => ObjectiveChangeStatus P q i (O.Tick Obj DeltaTime)

/-- Modelled from the spec: the objective collaborator's `notifyGateOpened(name)` applied to the
objective at index `i`, whose code is not among the sources; the collaborator decides the
resulting state. -/
def ObjectiveNotifyGateOpened (P : USuqsProgression) (O : ObjectiveCollaborator)
    (q : USuqsQuestState) (i : Nat) (GateName : FName) : USuqsQuestState :=
  match q.Objectives[i]? with
  | none => q
  | some Obj => ObjectiveChangeStatus P q i (O.NotifyGateOpened Obj GateName)

/-- `USuqsQuestState::Tick`, the difference `TimeRemaining - DeltaTime` taken exactly; `TickWith`
below takes the subtraction as a parameter. -/
def Tick (P : USuqsProgression) (O : ObjectiveCollaborator) (q : USuqsQuestState)
    (DeltaTime : Int) : USuqsQuestState :=
  let q1 :=
    if IsResolveBlockedOn q ESuqsResolveBarrierCondition.Time then
      { q with ResolveBarrier :=
          { q.ResolveBarrier with
            TimeRemaining := max (q.ResolveBarrier.TimeRemaining - DeltaTime) 0 } }
    else q
  let q2 :=
    match GetCurrentObjective q1 with
    | some _ => ObjectiveTick P O q1 q1.CurrentObjectiveIndex.toNat DeltaTime
    | none => q1
  MaybeNotifyStatusChange P q2

/-- `USuqsQuestState::SetBranchActive`. -/
def SetBranchActive (P : USuqsProgression) (q : USuqsQuestState) (Branch : FName)
    (bActive : Bool) : USuqsQuestState :=
  if IsNone Branch then q
  else
    let Step : USuqsQuestState × Bool :=
      if bActive then
        if Branch ∉ q.ActiveBranches then
          ({ q with ActiveBranches := insert Branch q.ActiveBranches }, true)
        else (q, false)
      else
        ({ q with ActiveBranches := q.ActiveBranches.erase Branch },
          decide (Branch ∈ q.ActiveBranches))
    if Step.2 then NotifyObjectiveStatusChanged P Step.1 else Step.1

/-- `USuqsQuestState::ResetBranches`. -/
def ResetBranches (P : USuqsProgression) (q : USuqsQuestState) : USuqsQuestState :=
  if q.ActiveBranches ≠ q.QuestDefinition.DefaultActiveBranches then
    NotifyObjectiveStatusChanged P
      { q with ActiveBranches := q.QuestDefinition.DefaultActiveBranches }
  else q

/-- `USuqsQuestState::Reset`. -/
def Reset (P : USuqsProgression) (q : USuqsQuestState) : USuqsQuestState :=
  let q1 := (List.range q.Objectives.length).foldl (fun s i => ObjectiveReset P s i) q
  ResetBranches P q1

/-- `USuqsQuestState::Resolve`. -/
def Resolve (P : USuqsProgression) (q : USuqsQuestState) : USuqsQuestState :=
  MaybeNotifyStatusChange P
    { q with ResolveBarrier := { q.ResolveBarrier with bGrantedExplicitly := true } }

/-- `USuqsQuestState::SetResolveBarrier`. -/
def SetResolveBarrier (P : USuqsProgression) (q : USuqsQuestState)
    (Barrier : FSuqsResolveBarrierStateData) : USuqsQuestState :=
  MaybeNotifyStatusChange P { q with ResolveBarrier := Barrier }

/-- `USuqsQuestState::NotifyGateOpened`. -/
def NotifyGateOpened (P : USuqsProgression) (O : ObjectiveCollaborator) (q : USuqsQuestState)
    (GateName : FName) : USuqsQuestState :=
  let q1 := (List.range q.Objectives.length).foldl
    (fun s i => ObjectiveNotifyGateOpened P O s i GateName) q
  if IsResolveBlockedOn q1 ESuqsResolveBarrierCondition.Gate
      && q1.ResolveBarrier.Gate == GateName then
    MaybeNotifyStatusChange P q1
  else q1

/-- Modelled from the spec: `USuqsObjectiveState::Initialise`, whose code is not among the
sources: the objective instance created from an objective definition is on the branch of the
definition and incomplete. -/
def NewObjective (ObjDef : FSuqsObjective) : USuqsObjectiveState :=
  { Branch := ObjDef.Branch, Status := ESuqsObjectiveStatus.Incomplete }

/-- Modelled from the spec: the task instances an objective allocates at its initialisation,
whose code is not among the sources: one per task identifier of the definition. -/
def NewTasks (ObjDef : FSuqsObjective) (ObjectiveIndex : Nat) : List USuqsTaskState :=
  ObjDef.Tasks.map (fun Id => { Identifier := Id, ObjectiveIndex := ObjectiveIndex })

/-- The loop of `USuqsQuestState::Initialise` over the objective definitions: each objective
instance is added to `Objectives` and each of its tasks to `FastTaskLookup`. -/
def InitialiseObjectives (q : USuqsQuestState) : List FSuqsObjective → USuqsQuestState
  | [] => q
  | ObjDef :: Rest =>
    let Tasks := NewTasks ObjDef q.Objectives.length
    let q1 := { q with Objectives := q.Objectives ++ [NewObjective ObjDef] }
    let q2 := { q1 with
      FastTaskLookup :=
        Tasks.foldl (fun Map Task => TMapAdd Map Task.Identifier (some Task)) q1.FastTaskLookup }
    InitialiseObjectives q2 Rest

/-- `USuqsQuestState::Initialise`, run on the quest object `q`. -/
def Initialise (P : USuqsProgression) (q : USuqsQuestState) (Def : FSuqsQuest) :
    USuqsQuestState :=
  let q1 := { q with
    QuestDefinition := Def,
    Status := ESuqsQuestStatus.Incomplete,
    FastTaskLookup := [],
    ActiveBranches := ∅ }
  let q2 := InitialiseObjectives q1 Def.Objectives
  NotifyObjectiveStatusChanged P (ResetBranches P q2)

/-- The number of low bits a natural number has beyond its 24 leading ones: the number of
halvings that bring `n` below 2^24.  `Fuel` bounds the halvings and `n` itself is always
enough. -/
def DroppedBits : Nat → Nat → Nat
  | 0, _ => 0
  | Fuel + 1, n => if n < 2 ^ 24 then 0 else DroppedBits Fuel (n / 2) + 1

/-- Rounding of a natural number to 24 significant bits, to nearest, ties to even: the
rounding of binary32, whose significand has 24 bits, on magnitudes counted in units of
2^-149. -/
def Round24 (n : Nat) : Nat :=
  let Shift := DroppedBits n n
  if Shift = 0 then n
  else
    let Kept := n / 2 ^ Shift
    let Dropped := n % 2 ^ Shift
    let Half := 2 ^ (Shift - 1)
    let Rounded :=
      if Dropped > Half then Kept + 1
      else if Dropped < Half then Kept
      else if Kept % 2 = 0 then Kept else Kept + 1
    Rounded * 2 ^ Shift

/-- The `float` subtraction of `Tick` (`ResolveBarrier.TimeRemaining - DeltaTime`) on finite
binary32 values counted in units of 2^-149 s: the exact difference, rounded to 24 significant
bits.  (A difference beyond the largest binary32 value, which the machine turns into an
infinity, does not arise from a remaining time and a time step that are not negative.) -/
def Binary32Sub (a b : Int) : Int :=
  if a - b ≥ 0 then (Round24 (a - b).toNat : Int) else -(Round24 (b - a).toNat : Int)

/-- `USuqsQuestState::Tick` with the subtraction `ResolveBarrier.TimeRemaining - DeltaTime`
as the parameter `Sub`.  With `Binary32Sub` it is the tick of the machine, with the exact
subtraction it is `Tick`. -/
def TickWith (Sub : Int → Int → Int) (P : USuqsProgression) (O : ObjectiveCollaborator)
    (q : USuqsQuestState) (DeltaTime : Int) : USuqsQuestState :=
  let q1 :=
    if IsResolveBlockedOn q ESuqsResolveBarrierCondition.Time then
      { q with ResolveBarrier :=
          { q.ResolveBarrier with
            TimeRemaining := max (Sub q.ResolveBarrier.TimeRemaining DeltaTime) 0 } }
    else q
  let q2 :=
    match GetCurrentObjective q1 with
    | some _ => ObjectiveTick P O q1 q1.CurrentObjectiveIndex.toNat DeltaTime
    | none => q1
  MaybeNotifyStatusChange P q2

/-- A sequence of ticks with the given time steps, first tick first. -/
def RunTicksWith (Sub : Int → Int → Int) (P : USuqsProgression) (O : ObjectiveCollaborator)
    (q : USuqsQuestState) (Deltas : List Int) : USuqsQuestState :=
  Deltas.foldl (fun s DeltaTime => TickWith Sub P O s DeltaTime) q

/-- The calls through which the barrier of a quest gets evaluated. -/
inductive BarrierCall where
  | Tick (DeltaTime : Int)
  | Resolve
  | NotifyGateOpened (GateName : FName)
  | MaybeNotifyStatusChange

/-- Whether the call is `Resolve`. -/
def BarrierCall.isResolve : BarrierCall → Bool
  | BarrierCall.Resolve => true
  | _ => false

/-- One call on the quest, made while the controller answers as `c.1` does. -/
def RunCall (O : ObjectiveCollaborator) (q : USuqsQuestState)
    (c : USuqsProgression × BarrierCall) : USuqsQuestState :=
  match c.2 with
  | BarrierCall.Tick DeltaTime => Tick c.1 O q DeltaTime
  | BarrierCall.Resolve => Resolve c.1 q
  | BarrierCall.NotifyGateOpened GateName => NotifyGateOpened c.1 O q GateName
  | BarrierCall.MaybeNotifyStatusChange => MaybeNotifyStatusChange c.1 q

/-- A sequence of calls on the quest, first call first. -/
def RunCalls (O : ObjectiveCollaborator) (q : USuqsQuestState)
    (cs : List (USuqsProgression × BarrierCall)) : USuqsQuestState :=
  cs.foldl (RunCall O) q

/-! ## Vocabulary of the statements -/

/-- The objective at index `i` exists, is on an active branch and is incomplete. -/
def ActiveIncompleteAt (q : USuqsQuestState) (i : Nat) : Bool :=
  match q.Objectives[i]? with
  | some Obj => IsBranchActive q Obj.GetBranch && Obj.IsIncomplete
  | none => false

/-- The objective at index `i` exists, is on an active branch and is failed. -/
def ActiveFailedAt (q : USuqsQuestState) (i : Nat) : Bool :=
  match q.Objectives[i]? with
  | some Obj => IsBranchActive q Obj.GetBranch && Obj.IsFailed
  | none => false

/-- The calls made on the controller between the state `q` and the later state `r`. -/
def NewCalls (q r : USuqsQuestState) : List ProgressionCall :=
  r.ProgressionCalls.drop q.ProgressionCalls.length

/-- The status the rescan derives from the objectives and the active branches (the three-way
test that follows the scanning loop of `NotifyObjectiveStatusChanged`). -/
def DerivedStatus (q : USuqsQuestState) : ESuqsQuestStatus :=
  if (ScanObjectives q q.Objectives 0 false).2 = true then ESuqsQuestStatus.Failed
  else if (ScanObjectives q q.Objectives 0 false).1 = -1 then ESuqsQuestStatus.Completed
  else ESuqsQuestStatus.Incomplete

/-- The objective is unbranched or its branch is among the default active branches of the
quest definition. -/
def OnDefaultBranch (q : USuqsQuestState) (Obj : USuqsObjectiveState) : Bool :=
  IsNone Obj.GetBranch || decide (Obj.GetBranch ∈ q.QuestDefinition.DefaultActiveBranches)

/-- Relates the quest `q` before a reset to a later state `s`: the calls made on the
controller have only grown, and if the status has gone from another status to `Incomplete`,
the growth contains `RaiseQuestReset` and the barrier query for `Incomplete`, and the stored
barrier is the record the controller returns for `Incomplete`. -/
def ReturnTrace (P : USuqsProgression) (q s : USuqsQuestState) : Prop :=
  ∃ l : List ProgressionCall, s.ProgressionCalls = q.ProgressionCalls ++ l ∧
    (q.Status ≠ ESuqsQuestStatus.Incomplete → s.Status = ESuqsQuestStatus.Incomplete →
      ProgressionCall.RaiseQuestReset ∈ l ∧
      ProgressionCall.GetResolveBarrierForQuest ESuqsQuestStatus.Incomplete ∈ l ∧
      s.ResolveBarrier =
        P.GetResolveBarrierForQuest q.QuestDefinition ESuqsQuestStatus.Incomplete)

/-- The state `s` reached from `q` when `Reset` has reset the objectives at the indices below
`k`: those objectives are incomplete and the others are as in `q`, branches and definition are
untouched, a status that was the derived one still is, and `ReturnTrace` holds. -/
def ResetPrefix (P : USuqsProgression) (q : USuqsQuestState) (k : Nat)
    (s : USuqsQuestState) : Prop :=
  (∀ j : Nat, s.Objectives[j]? =
    (q.Objectives[j]?).map
      (fun Obj => if j < k then { Obj with Status := ESuqsObjectiveStatus.Incomplete } else Obj)) ∧
  s.ActiveBranches = q.ActiveBranches ∧
  s.QuestDefinition = q.QuestDefinition ∧
  (q.Status = DerivedStatus q → s.Status = DerivedStatus s) ∧
  ReturnTrace P q s

/-- The current objective index is -1 or the index of an objective of the quest. -/
def IndexValid (q : USuqsQuestState) : Prop :=
  q.CurrentObjectiveIndex = -1 ∨
    (0 ≤ q.CurrentObjectiveIndex ∧ q.CurrentObjectiveIndex < (q.Objectives.length : Int))

/-- Every value stored in the task index is a task, not a null pointer, and is stored under
its own identifier. -/
def WellKeyed (Map : List (FName × Option USuqsTaskState)) : Prop :=
  ∀ (Key : FName) (Value : Option USuqsTaskState), TMapFind Map Key = some Value →
    ∃ T : USuqsTaskState, Value = some T ∧ T.Identifier = Key

/-- The remaining time a time barrier that starts at `r` has after the ticks `Deltas` if every
one of them has left it above zero, each tick taking it from `r` to `Sub r d`; `none` as soon
as a tick has brought it to zero or below. -/
def RemainingWhileBlocked (Sub : Int → Int → Int) : Int → List Int → Option Int
  | r, [] => some r
  | r, d :: ds => if 0 < Sub r d then RemainingWhileBlocked Sub (Sub r d) ds else none

/-- The lifecycle event `ChangeStatus` raises on a genuine transition to `NewStatus`, as a list:
one event for `Completed`, `Failed` and `Incomplete`, none for `Unavailable` (the `default`
label of the `switch`). -/
def LifecycleCalls : ESuqsQuestStatus → List ProgressionCall
  | ESuqsQuestStatus.Completed => [ProgressionCall.RaiseQuestCompleted]
  | ESuqsQuestStatus.Failed => [ProgressionCall.RaiseQuestFailed]
  | ESuqsQuestStatus.Incomplete => [ProgressionCall.RaiseQuestReset]
  | ESuqsQuestStatus.Unavailable => []

/-- The state a quest is in once its barrier has cleared: `ProcessQuestStatusChange` has been
called once more and the pending flag is down. -/
def Cleared (q : USuqsQuestState) : USuqsQuestState :=
  { q with
    ResolveBarrier := { q.ResolveBarrier with bPending := false },
    ProgressionCalls := q.ProgressionCalls ++ [ProgressionCall.ProcessQuestStatusChange] }

/-- The collaborator leaves the aggregate state of every objective of `q` as it is, whatever
the tick or the gate. -/
def Quiet (O : ObjectiveCollaborator) (q : USuqsQuestState) : Prop :=
  ∀ Obj ∈ q.Objectives,
    (∀ DeltaTime : Int, O.Tick Obj DeltaTime = Obj.Status) ∧
    (∀ GateName : FName, O.NotifyGateOpened Obj GateName = Obj.Status)

/-- A collaborator that never changes the state of an objective. -/
def QuietCollaborator : ObjectiveCollaborator :=
  { Tick := fun Obj _ => Obj.Status, NotifyGateOpened := fun Obj _ => Obj.Status }

/-! ## Sample data -/

/-- A barrier record that requires nothing and is pending. -/
def OpenBarrier : FSuqsResolveBarrierStateData :=
  { Conditions := 0, TimeRemaining := 0, Gate := NAME_None, bGrantedExplicitly := false,
    bPending := true }

/-- A controller whose policy requires no condition for any status and whose gates are all
closed. -/
def PlainProgression : USuqsProgression :=
  { GetResolveBarrierForQuest := fun _ _ => OpenBarrier, IsGateOpen := fun _ => false }

/-- A quest definition without default branches. -/
def PlainQuest : FSuqsQuest := { DefaultActiveBranches := ∅ }

/-- A freshly created quest over the given objectives: status `Incomplete`, no current
objective yet, no active branch, barrier not pending, nothing raised. -/
def FreshQuest (Objs : List USuqsObjectiveState) : USuqsQuestState :=
  { QuestDefinition := PlainQuest, Objectives := Objs, CurrentObjectiveIndex := -1,
    ActiveBranches := ∅,
    ResolveBarrier := { OpenBarrier with bPending := false },
    Status := ESuqsQuestStatus.Incomplete, ProgressionCalls := [] }

/-- A controller with the policy of `PlainProgression` in whose registry exactly the gate
`g` is open. -/
def ProgressionWithGate (g : FName) : USuqsProgression :=
  { GetResolveBarrierForQuest := fun _ _ => OpenBarrier, IsGateOpen := fun n => n == g }

/-- A failed quest without objectives whose pending barrier requires Time and Gate: 5 time
units remain and the gate is gate 3. -/
def TimeGateQuest : USuqsQuestState :=
  { FreshQuest [] with
    Status := ESuqsQuestStatus.Failed,
    ResolveBarrier := { Conditions := 3, TimeRemaining := 5, Gate := 3,
                        bGrantedExplicitly := false, bPending := true } }

/-- A controller whose policy demands an explicit resolve for every status, with all gates
closed. -/
def ExplicitProgression : USuqsProgression :=
  { GetResolveBarrierForQuest := fun _ _ =>
      { Conditions := 4, TimeRemaining := 0, Gate := NAME_None, bGrantedExplicitly := false,
        bPending := true },
    IsGateOpen := fun _ => false }

/-- A failed quest with a single unbranched objective, which has failed. -/
def FailedQuest : USuqsQuestState :=
  { FreshQuest [{ Branch := NAME_None, Status := ESuqsObjectiveStatus.Failed }] with
    Status := ESuqsQuestStatus.Failed }

/-- A quest definition with two unbranched objectives of one task each and no default
branch. -/
def TwoObjectives : FSuqsQuest :=
  { PlainQuest with
    Objectives := [{ Branch := NAME_None, Tasks := [11] }, { Branch := NAME_None, Tasks := [12] }] }

/-- The quest of `TwoObjectives` right after its initialisation. -/
def TwoObjectivesStarted : USuqsQuestState :=
  Initialise PlainProgression (FreshQuest []) TwoObjectives

/-- The time of `n` seconds, in units of 2^-149 s. -/
def Seconds (n : Nat) : Int := (n : Int) * 2 ^ 149

/-- The binary32 value nearest to 0.2 s, which is 13421773 * 2^-26 s, in units of 2^-149 s. -/
def FifthOfSecond : Int := 13421773 * 2 ^ 123

/-- A failed quest without objectives whose pending barrier requires Time only, with the
remaining time `T`. -/
def TimeQuest (T : Int) : USuqsQuestState :=
  { FreshQuest [] with
    Status := ESuqsQuestStatus.Failed,
    ResolveBarrier := { Conditions := 1, TimeRemaining := T, Gate := NAME_None,
                        bGrantedExplicitly := false, bPending := true } }

/-- A quest definition whose first objective is on branch 7 and whose second objective is
unbranched; branch 7 is not a default branch. -/
def BranchedQuest : FSuqsQuest :=
  { PlainQuest with
    Objectives := [{ Branch := 7, Tasks := [11] }, { Branch := NAME_None, Tasks := [12] }] }

/-- A completed quest without objectives whose pending barrier requires an explicit resolve
only, not granted yet. -/
def ExplicitQuest : USuqsQuestState :=
  { FreshQuest [] with
    Status := ESuqsQuestStatus.Completed,
    ResolveBarrier := { Conditions := 4, TimeRemaining := 0, Gate := NAME_None,
                        bGrantedExplicitly := false, bPending := true } }

/-- A completed quest without objectives whose pending barrier requires gate 3 only. -/
def GateQuest : USuqsQuestState :=
  { FreshQuest [] with
    Status := ESuqsQuestStatus.Completed,
    ResolveBarrier := { Conditions := 2, TimeRemaining := 0, Gate := 3,
                        bGrantedExplicitly := false, bPending := true } }

/-- A task collaborator whose mutating operations leave the quest as it is, that completes and
progresses every task successfully and answers every query with "incomplete". -/
def PlainTasks : TaskCollaborator :=
  { Complete := fun _ q => (true, q),
    Resolve := fun _ q => q,
    Fail := fun _ q => q,
    Progress := fun _ Delta q => (Delta, q),
    IsIncomplete := fun _ => true,
    IsCompleted := fun _ => false,
    IsFailed := fun _ => false,
    Reset := fun _ q => q }

/-! ## Frame and unfolding lemmas -/

theorem MaybeNotifyStatusChange_frame (P : USuqsProgression) (q : USuqsQuestState) :
    (MaybeNotifyStatusChange P q).Objectives = q.Objectives ∧
    (MaybeNotifyStatusChange P q).ActiveBranches = q.ActiveBranches ∧
    (MaybeNotifyStatusChange P q).CurrentObjectiveIndex = q.CurrentObjectiveIndex ∧
    (MaybeNotifyStatusChange P q).Status = q.Status ∧
    (MaybeNotifyStatusChange P q).QuestDefinition = q.QuestDefinition := by
  unfold MaybeNotifyStatusChange
  split_ifs <;> simp [Raise]

theorem ChangeStatus_frame (P : USuqsProgression) (q : USuqsQuestState)
    (s : ESuqsQuestStatus) :
    (ChangeStatus P q s).Objectives = q.Objectives ∧
    (ChangeStatus P q s).ActiveBranches = q.ActiveBranches ∧
    (ChangeStatus P q s).CurrentObjectiveIndex = q.CurrentObjectiveIndex ∧
    (ChangeStatus P q s).Status = s ∧
    (ChangeStatus P q s).QuestDefinition = q.QuestDefinition := by
  unfold ChangeStatus
  by_cases h : q.Status = s
  · simp [h]
  · simp only [ne_eq, h, not_false_eq_true, if_true, QueueStatusChangeNotification]
    refine ⟨?_, ?_, ?_, ?_, ?_⟩
    · rw [(MaybeNotifyStatusChange_frame P _).1]
      split_ifs <;> simp [Raise]
    · rw [(MaybeNotifyStatusChange_frame P _).2.1]
      split_ifs <;> simp [Raise]
    · rw [(MaybeNotifyStatusChange_frame P _).2.2.1]
      split_ifs <;> simp [Raise]
    · rw [(MaybeNotifyStatusChange_frame P _).2.2.2.1]
      split_ifs <;> simp [Raise]
    · rw [(MaybeNotifyStatusChange_frame P _).2.2.2.2]
      split_ifs <;> simp [Raise]

/-- The index found by the scanning loop: either none, and then no active objective of the
scanned list is incomplete, or the position of the first active incomplete one. -/
theorem ScanObjectives_index (q : USuqsQuestState) :
    ∀ (Objs : List USuqsObjectiveState) (i : Nat) (f : Bool),
      ((ScanObjectives q Objs i f).1 = -1 ∧
        ∀ (j : Nat) (Obj : USuqsObjectiveState), Objs[j]? = some Obj →
          IsBranchActive q Obj.GetBranch = true → Obj.IsIncomplete = false) ∨
      (∃ (k : Nat) (Obj : USuqsObjectiveState),
        (ScanObjectives q Objs i f).1 = ((i + k : Nat) : Int) ∧ Objs[k]? = some Obj ∧
        IsBranchActive q Obj.GetBranch = true ∧ Obj.IsIncomplete = true ∧
        ∀ j : Nat, j < k → ∀ Obj2 : USuqsObjectiveState, Objs[j]? = some Obj2 →
          IsBranchActive q Obj2.GetBranch = true → Obj2.IsIncomplete = false) := by
  intro Objs
  induction Objs with
  | nil =>
    intro i f
    left
    simp [ScanObjectives]
  | cons Obj Objs ih =>
    intro i f
    by_cases ha : IsBranchActive q Obj.GetBranch = true
    · by_cases hi : Obj.IsIncomplete = true
      · right
        refine ⟨0, Obj, ?_, ?_, ha, hi, ?_⟩
        · simp [ScanObjectives, ha, hi]
        · simp
        · intro j hj
          omega
      · have key : ∀ g, (ScanObjectives q (Obj :: Objs) i f).1 =
            (ScanObjectives q Objs (i + 1) (if Obj.IsFailed then true else g)).1 ∨
            (ScanObjectives q (Obj :: Objs) i f).1 = (ScanObjectives q Objs (i + 1) f).1 := by
          intro g
          by_cases hf : Obj.IsFailed = true
          · left
            simp [ScanObjectives, ha, hi, hf]
          · right
            simp [ScanObjectives, ha, hi, hf]
        have hstep : ∃ g, (ScanObjectives q (Obj :: Objs) i f).1 =
            (ScanObjectives q Objs (i + 1) g).1 := by
          rcases key f with h | h
          · exact ⟨_, h⟩
          · exact ⟨_, h⟩
        obtain ⟨g, hg⟩ := hstep
        rcases ih (i + 1) g with ⟨h1, h2⟩ | ⟨k, Obj2, h1, h2, h3, h4, h5⟩
        · left
          refine ⟨by rw [hg]; exact h1, ?_⟩
          intro j Obj2 hj hact
          cases j with
          | zero =>
            simp at hj
            subst hj
            simpa using hi
          | succ j =>
            simp at hj
            exact h2 j Obj2 hj hact
        · right
          refine ⟨k + 1, Obj2, ?_, by simpa using h2, h3, h4, ?_⟩
          · rw [hg, h1]
            congr 1
            omega
          · intro j hj Obj3 hj3 hact
            cases j with
            | zero =>
              simp at hj3
              subst hj3
              simpa using hi
            | succ j =>
              simp at hj3
              exact h5 j (by omega) Obj3 hj3 hact
    · have hg : (ScanObjectives q (Obj :: Objs) i f).1 =
          (ScanObjectives q Objs (i + 1) f).1 := by
        simp [ScanObjectives, ha]
      rcases ih (i + 1) f with ⟨h1, h2⟩ | ⟨k, Obj2, h1, h2, h3, h4, h5⟩
      · left
        refine ⟨by rw [hg]; exact h1, ?_⟩
        intro j Obj2 hj hact
        cases j with
        | zero =>
          simp at hj
          subst hj
          exact absurd hact ha
        | succ j =>
          simp at hj
          exact h2 j Obj2 hj hact
      · right
        refine ⟨k + 1, Obj2, ?_, by simpa using h2, h3, h4, ?_⟩
        · rw [hg, h1]
          congr 1
          omega
        · intro j hj Obj3 hj3 hact
          cases j with
          | zero =>
            simp at hj3
            subst hj3
            exact absurd hact ha
          | succ j =>
            simp at hj3
            exact h5 j (by omega) Obj3 hj3 hact

/-- The failure flag computed by the scanning loop: it is raised exactly when it was raised on
entry or some active failed objective of the scanned list comes before every active
incomplete one. -/
theorem ScanObjectives_failed (q : USuqsQuestState) :
    ∀ (Objs : List USuqsObjectiveState) (i : Nat) (f : Bool),
      (ScanObjectives q Objs i f).2 = true ↔
        (f = true ∨ ∃ (j : Nat) (Obj : USuqsObjectiveState), Objs[j]? = some Obj ∧
          IsBranchActive q Obj.GetBranch = true ∧ Obj.IsFailed = true ∧
          ∀ k : Nat, k < j → ∀ Obj2 : USuqsObjectiveState, Objs[k]? = some Obj2 →
            IsBranchActive q Obj2.GetBranch = true → Obj2.IsIncomplete = false) := by
  intro Objs
  induction Objs with
  | nil =>
    intro i f
    simp [ScanObjectives]
  | cons Obj Objs ih =>
    intro i f
    have shift : ∀ (hhead : IsBranchActive q Obj.GetBranch = true → Obj.IsIncomplete = false)
        (hnf : ¬ (IsBranchActive q Obj.GetBranch = true ∧ Obj.IsFailed = true)),
        ((∃ (j : Nat) (Obj1 : USuqsObjectiveState), (Obj :: Objs)[j]? = some Obj1 ∧
          IsBranchActive q Obj1.GetBranch = true ∧ Obj1.IsFailed = true ∧
          ∀ k : Nat, k < j → ∀ Obj2 : USuqsObjectiveState, (Obj :: Objs)[k]? = some Obj2 →
            IsBranchActive q Obj2.GetBranch = true → Obj2.IsIncomplete = false) ↔
        (∃ (j : Nat) (Obj1 : USuqsObjectiveState), Objs[j]? = some Obj1 ∧
          IsBranchActive q Obj1.GetBranch = true ∧ Obj1.IsFailed = true ∧
          ∀ k : Nat, k < j → ∀ Obj2 : USuqsObjectiveState, Objs[k]? = some Obj2 →
            IsBranchActive q Obj2.GetBranch = true → Obj2.IsIncomplete = false)) := by
      intro hhead hnf
      constructor
      · rintro ⟨j, Obj1, h1, h2, h3, h4⟩
        cases j with
        | zero =>
          simp at h1
          subst h1
          exact absurd ⟨h2, h3⟩ hnf
        | succ j =>
          refine ⟨j, Obj1, by simpa using h1, h2, h3, ?_⟩
          intro k hk Obj2 hk2 hact
          exact h4 (k + 1) (by omega) Obj2 (by simpa using hk2) hact
      · rintro ⟨j, Obj1, h1, h2, h3, h4⟩
        refine ⟨j + 1, Obj1, by simpa using h1, h2, h3, ?_⟩
        intro k hk Obj2 hk2 hact
        cases k with
        | zero =>
          simp at hk2
          subst hk2
          exact hhead hact
        | succ k =>
          exact h4 k (by omega) Obj2 (by simpa using hk2) hact
    by_cases ha : IsBranchActive q Obj.GetBranch = true
    · by_cases hi : Obj.IsIncomplete = true
      · have hnf : Obj.IsFailed = false := by
          simp only [USuqsObjectiveState.IsIncomplete, USuqsObjectiveState.IsFailed,
            beq_iff_eq] at hi ⊢
          simp [hi]
        simp only [ScanObjectives, ha, hi, if_true]
        constructor
        · intro h
          exact Or.inl h
        · rintro (h | ⟨j, Obj1, h1, h2, h3, h4⟩)
          · exact h
          · exfalso
            cases j with
            | zero =>
              simp at h1
              subst h1
              simp [hnf] at h3
            | succ j =>
              have := h4 0 (by omega) Obj (by simp) ha
              simp [hi] at this
      · by_cases hf : Obj.IsFailed = true
        · simp only [ScanObjectives, ha, hi, hf, if_true]
          constructor
          · intro _
            right
            refine ⟨0, Obj, by simp, ha, hf, ?_⟩
            intro k hk
            omega
          · intro _
            exact (ih (i + 1) true).2 (Or.inl rfl)
        · have hsc : (ScanObjectives q (Obj :: Objs) i f).2 =
              (ScanObjectives q Objs (i + 1) f).2 := by
            simp [ScanObjectives, ha, hi, hf]
          rw [hsc, ih (i + 1) f, shift (fun _ => by simpa using hi) (fun h => hf h.2)]
    · have hsc : (ScanObjectives q (Obj :: Objs) i f).2 =
          (ScanObjectives q Objs (i + 1) f).2 := by
        simp [ScanObjectives, ha]
      rw [hsc, ih (i + 1) f, shift (fun h => absurd h ha) (fun h => ha h.1)]

/-- What the rescan leaves alone, and what it computes. -/
theorem NotifyObjectiveStatusChanged_frame (P : USuqsProgression) (q : USuqsQuestState) :
    (NotifyObjectiveStatusChanged P q).Objectives = q.Objectives ∧
    (NotifyObjectiveStatusChanged P q).ActiveBranches = q.ActiveBranches ∧
    (NotifyObjectiveStatusChanged P q).QuestDefinition = q.QuestDefinition ∧
    (NotifyObjectiveStatusChanged P q).CurrentObjectiveIndex =
      (ScanObjectives q q.Objectives 0 false).1 ∧
    (NotifyObjectiveStatusChanged P q).Status =
      (if (ScanObjectives q q.Objectives 0 false).2 = true then ESuqsQuestStatus.Failed
       else if (ScanObjectives q q.Objectives 0 false).1 = -1 then ESuqsQuestStatus.Completed
       else ESuqsQuestStatus.Incomplete) := by
  unfold NotifyObjectiveStatusChanged
  simp only []
  split_ifs with h1 h2 h3 <;>
    simp [Raise, (ChangeStatus_frame P _ _).1, (ChangeStatus_frame P _ _).2.1,
      (ChangeStatus_frame P _ _).2.2.1, (ChangeStatus_frame P _ _).2.2.2.1,
      (ChangeStatus_frame P _ _).2.2.2.2]

/-- Branch activity only depends on the active-branch set. -/
theorem IsBranchActive_congr (q r : USuqsQuestState) (h : r.ActiveBranches = q.ActiveBranches)
    (Branch : FName) : IsBranchActive r Branch = IsBranchActive q Branch := by
  simp [IsBranchActive, h]

theorem ActiveIncompleteAt_congr (q r : USuqsQuestState)
    (h : r.ActiveBranches = q.ActiveBranches) (ho : r.Objectives = q.Objectives) (i : Nat) :
    ActiveIncompleteAt r i = ActiveIncompleteAt q i := by
  simp only [ActiveIncompleteAt, ho]
  cases q.Objectives[i]? with
  | none => rfl
  | some Obj => simp [IsBranchActive_congr q r h]

theorem ActiveIncompleteAt_eq_true (q : USuqsQuestState) (i : Nat) :
    ActiveIncompleteAt q i = true ↔ ∃ Obj : USuqsObjectiveState, q.Objectives[i]? = some Obj ∧
      IsBranchActive q Obj.GetBranch = true ∧ Obj.IsIncomplete = true := by
  unfold ActiveIncompleteAt
  cases q.Objectives[i]? with
  | none => simp
  | some Obj => simp

theorem ActiveIncompleteAt_eq_false (q : USuqsQuestState) (i : Nat) :
    ActiveIncompleteAt q i = false ↔ ∀ Obj : USuqsObjectiveState, q.Objectives[i]? = some Obj →
      IsBranchActive q Obj.GetBranch = true → Obj.IsIncomplete = false := by
  unfold ActiveIncompleteAt
  cases q.Objectives[i]? with
  | none => simp
  | some Obj => simp

theorem ActiveFailedAt_eq_true (q : USuqsQuestState) (i : Nat) :
    ActiveFailedAt q i = true ↔ ∃ Obj : USuqsObjectiveState, q.Objectives[i]? = some Obj ∧
      IsBranchActive q Obj.GetBranch = true ∧ Obj.IsFailed = true := by
  unfold ActiveFailedAt
  cases q.Objectives[i]? with
  | none => simp
  | some Obj => simp

/-- The index the rescan stores, in terms of the objectives of the quest. -/
theorem scan_index_cases (q : USuqsQuestState) :
    ((ScanObjectives q q.Objectives 0 false).1 = -1 ∧ ∀ j : Nat, ActiveIncompleteAt q j = false) ∨
    (∃ i : Nat, (ScanObjectives q q.Objectives 0 false).1 = (i : Int) ∧
      ActiveIncompleteAt q i = true ∧ ∀ j : Nat, j < i → ActiveIncompleteAt q j = false) := by
  rcases ScanObjectives_index q q.Objectives 0 false with ⟨h1, h2⟩ | ⟨k, Obj, h1, h2, h3, h4, h5⟩
  · left
    refine ⟨h1, fun j => ?_⟩
    rw [ActiveIncompleteAt_eq_false]
    exact h2 j
  · right
    refine ⟨k, by simpa using h1, ?_, fun j hj => ?_⟩
    · rw [ActiveIncompleteAt_eq_true]
      exact ⟨Obj, h2, h3, h4⟩
    · rw [ActiveIncompleteAt_eq_false]
      exact h5 j hj

/-- The failure flag of the rescan, in terms of the objectives of the quest. -/
theorem scan_failed_iff (q : USuqsQuestState) :
    (ScanObjectives q q.Objectives 0 false).2 = true ↔
      ∃ j : Nat, ActiveFailedAt q j = true ∧ ∀ k : Nat, k < j → ActiveIncompleteAt q k = false := by
  rw [ScanObjectives_failed]
  constructor
  · rintro (h | ⟨j, Obj, h1, h2, h3, h4⟩)
    · exact absurd h (by simp)
    · refine ⟨j, ?_, fun k hk => ?_⟩
      · rw [ActiveFailedAt_eq_true]
        exact ⟨Obj, h1, h2, h3⟩
      · rw [ActiveIncompleteAt_eq_false]
        exact h4 k hk
  · rintro ⟨j, h1, h2⟩
    rw [ActiveFailedAt_eq_true] at h1
    obtain ⟨Obj, h3, h4, h5⟩ := h1
    right
    refine ⟨j, Obj, h3, h4, h5, fun k hk => ?_⟩
    have := h2 k hk
    rw [ActiveIncompleteAt_eq_false] at this
    exact this

/-! ## The rescan: current objective and derived status -/

/-- C1: after the rescan the current objective index is either -1, and then no objective on an
active branch is incomplete, or it is the index of an objective that is on an active branch
and incomplete while no objective at a lower index is both active and incomplete. -/
theorem C1_current_is_first_active_incomplete (P : USuqsProgression) (q : USuqsQuestState) :
    ((NotifyObjectiveStatusChanged P q).CurrentObjectiveIndex = -1 ∧
      ∀ j : Nat, ActiveIncompleteAt (NotifyObjectiveStatusChanged P q) j = false) ∨
    (∃ i : Nat, (NotifyObjectiveStatusChanged P q).CurrentObjectiveIndex = (i : Int) ∧
      ActiveIncompleteAt (NotifyObjectiveStatusChanged P q) i = true ∧
      ∀ j : Nat, j < i → ActiveIncompleteAt (NotifyObjectiveStatusChanged P q) j = false) := by
  obtain ⟨ho, hb, _, hidx, _⟩ := NotifyObjectiveStatusChanged_frame P q
  simp only [ActiveIncompleteAt_congr q _ hb ho, hidx]
  exact scan_index_cases q

theorem ActiveIncompleteAt_of_length_le (q : USuqsQuestState) (j : Nat)
    (h : q.Objectives.length ≤ j) : ActiveIncompleteAt q j = false := by
  simp [ActiveIncompleteAt, List.getElem?_eq_none h]

theorem ActiveFailedAt_of_length_le (q : USuqsQuestState) (j : Nat)
    (h : q.Objectives.length ≤ j) : ActiveFailedAt q j = false := by
  simp [ActiveFailedAt, List.getElem?_eq_none h]

/-- C2: evaluation of the rescan on a quest whose first objective is unbranched and incomplete
and whose second objective is unbranched and failed.  The scan stops at the first objective,
the failed one is never looked at: the status is `Incomplete`, not `Failed`. -/
theorem C2_failed_behind_incomplete_is_missed :
    ActiveFailedAt
      (FreshQuest [{ Branch := NAME_None, Status := ESuqsObjectiveStatus.Incomplete },
        { Branch := NAME_None, Status := ESuqsObjectiveStatus.Failed }]) 1 = true ∧
    (NotifyObjectiveStatusChanged PlainProgression
      (FreshQuest [{ Branch := NAME_None, Status := ESuqsObjectiveStatus.Incomplete },
        { Branch := NAME_None, Status := ESuqsObjectiveStatus.Failed }])).Status
      = ESuqsQuestStatus.Incomplete ∧
    (NotifyObjectiveStatusChanged PlainProgression
      (FreshQuest [{ Branch := NAME_None, Status := ESuqsObjectiveStatus.Incomplete },
        { Branch := NAME_None, Status := ESuqsObjectiveStatus.Failed }])).CurrentObjectiveIndex
      = 0 := by
  decide

/-- C3: when an active failed objective (index `j`) comes before the first active incomplete
objective (index `i`), the rescan sets the status to `Failed` and still makes `i` the current
objective index. -/
theorem C3_failed_before_current (P : USuqsProgression) (q : USuqsQuestState) (i j : Nat)
    (hj : ActiveFailedAt q j = true) (hji : j < i)
    (hi : ActiveIncompleteAt q i = true)
    (hfirst : ∀ k : Nat, k < i → ActiveIncompleteAt q k = false) :
    (NotifyObjectiveStatusChanged P q).Status = ESuqsQuestStatus.Failed ∧
    (NotifyObjectiveStatusChanged P q).CurrentObjectiveIndex = (i : Int) := by
  obtain ⟨_, _, _, hidx, hst⟩ := NotifyObjectiveStatusChanged_frame P q
  have hfail : (ScanObjectives q q.Objectives 0 false).2 = true :=
    (scan_failed_iff q).2 ⟨j, hj, fun k hk => hfirst k (by omega)⟩
  refine ⟨by rw [hst, if_pos hfail], ?_⟩
  rw [hidx]
  rcases scan_index_cases q with ⟨_, h2⟩ | ⟨i2, h1, h2, h3⟩
  · rw [h2 i] at hi
    exact absurd hi (by simp)
  · rw [h1]
    rcases Nat.lt_trichotomy i2 i with h | h | h
    · rw [hfirst i2 h] at h2
      exact absurd h2 (by simp)
    · rw [h]
    · rw [h3 i h] at hi
      exact absurd hi (by simp)

/-- The hypotheses of C3 hold of a quest with a failed objective followed by an incomplete
one, both unbranched. -/
theorem C3_failed_before_current_witness :
    (NotifyObjectiveStatusChanged PlainProgression
      (FreshQuest [{ Branch := NAME_None, Status := ESuqsObjectiveStatus.Failed },
        { Branch := NAME_None, Status := ESuqsObjectiveStatus.Incomplete }])).Status
      = ESuqsQuestStatus.Failed ∧
    (NotifyObjectiveStatusChanged PlainProgression
      (FreshQuest [{ Branch := NAME_None, Status := ESuqsObjectiveStatus.Failed },
        { Branch := NAME_None, Status := ESuqsObjectiveStatus.Incomplete }])).CurrentObjectiveIndex
      = ((1 : Nat) : Int) :=
  C3_failed_before_current PlainProgression
    (FreshQuest [{ Branch := NAME_None, Status := ESuqsObjectiveStatus.Failed },
      { Branch := NAME_None, Status := ESuqsObjectiveStatus.Incomplete }]) 1 0
    (by decide) (by decide) (by decide) (by decide)

/-- C4: when no objective on an active branch is incomplete and none is failed (in particular
when there is no objective at all, or every objective is on an inactive branch), the rescan
sets the status to `Completed` and the current objective index to -1. -/
theorem C4_nothing_pending_is_completed (P : USuqsProgression) (q : USuqsQuestState)
    (hinc : ∀ j : Nat, j < q.Objectives.length → ActiveIncompleteAt q j = false)
    (hfail : ∀ j : Nat, j < q.Objectives.length → ActiveFailedAt q j = false) :
    (NotifyObjectiveStatusChanged P q).Status = ESuqsQuestStatus.Completed ∧
    (NotifyObjectiveStatusChanged P q).CurrentObjectiveIndex = -1 := by
  obtain ⟨_, _, _, hidx, hst⟩ := NotifyObjectiveStatusChanged_frame P q
  have hnf : ¬ (ScanObjectives q q.Objectives 0 false).2 = true := by
    rw [scan_failed_iff]
    rintro ⟨j, h1, _⟩
    by_cases hlt : j < q.Objectives.length
    · rw [hfail j hlt] at h1
      exact absurd h1 (by simp)
    · rw [ActiveFailedAt_of_length_le q j (by omega)] at h1
      exact absurd h1 (by simp)
  have hm : (ScanObjectives q q.Objectives 0 false).1 = -1 := by
    rcases scan_index_cases q with ⟨h1, _⟩ | ⟨i, _, h2, _⟩
    · exact h1
    · by_cases hlt : i < q.Objectives.length
      · rw [hinc i hlt] at h2
        exact absurd h2 (by simp)
      · rw [ActiveIncompleteAt_of_length_le q i (by omega)] at h2
        exact absurd h2 (by simp)
  exact ⟨by rw [hst, if_neg hnf, if_pos hm], by rw [hidx, hm]⟩

/-- The hypotheses of C4 hold of a quest whose objectives, one incomplete and one failed, are
all on a branch that is not active. -/
theorem C4_nothing_pending_is_completed_witness :
    (NotifyObjectiveStatusChanged PlainProgression
      (FreshQuest [{ Branch := 7, Status := ESuqsObjectiveStatus.Incomplete },
        { Branch := 7, Status := ESuqsObjectiveStatus.Failed }])).Status
      = ESuqsQuestStatus.Completed ∧
    (NotifyObjectiveStatusChanged PlainProgression
      (FreshQuest [{ Branch := 7, Status := ESuqsObjectiveStatus.Incomplete },
        { Branch := 7, Status := ESuqsObjectiveStatus.Failed }])).CurrentObjectiveIndex = -1 :=
  C4_nothing_pending_is_completed PlainProgression
    (FreshQuest [{ Branch := 7, Status := ESuqsObjectiveStatus.Incomplete },
      { Branch := 7, Status := ESuqsObjectiveStatus.Failed }])
    (by decide) (by decide)

/-! ## The resolve barrier -/

theorem NewCalls_of_append (q r : USuqsQuestState) (l : List ProgressionCall)
    (h : r.ProgressionCalls = q.ProgressionCalls ++ l) : NewCalls q r = l := by
  simp [NewCalls, h]

/-- The barrier evaluation either clears the barrier or does nothing. -/
theorem MaybeNotifyStatusChange_eq (P : USuqsProgression) (q : USuqsQuestState) :
    MaybeNotifyStatusChange P q =
      if q.ResolveBarrier.bPending = true ∧
          (q.Status = ESuqsQuestStatus.Completed ∨ q.Status = ESuqsQuestStatus.Failed) ∧
          bCleared P q = true then Cleared q
      else q := by
  unfold MaybeNotifyStatusChange
  by_cases hp : q.ResolveBarrier.bPending = true
  · by_cases hs : q.Status = ESuqsQuestStatus.Completed ∨ q.Status = ESuqsQuestStatus.Failed
    · by_cases hc : bCleared P q = true
      · have h2 : (!IsCompleted q && !IsFailed q) = false := by
          rcases hs with h | h <;> simp [IsCompleted, IsFailed, h]
        simp [hp, hs, hc, h2, Cleared, Raise]
      · have h2 : (!IsCompleted q && !IsFailed q) = false := by
          rcases hs with h | h <;> simp [IsCompleted, IsFailed, h]
        simp [hp, hs, hc, h2]
    · have h2 : (!IsCompleted q && !IsFailed q) = true := by
        simp only [not_or] at hs
        simp [IsCompleted, IsFailed, hs.1, hs.2]
      simp [hp, hs, h2]
  · simp [hp]

/-- What the code computes for `bCleared`: when the explicit condition is required, the
explicit grant alone decides; otherwise time and gate, where required, must both be met. -/
theorem bCleared_eq (P : USuqsProgression) (q : USuqsQuestState) :
    bCleared P q =
      if IsResolveBlockedOn q ESuqsResolveBarrierCondition.Explicit = true then
        q.ResolveBarrier.bGrantedExplicitly
      else
        ((!IsResolveBlockedOn q ESuqsResolveBarrierCondition.Time ||
            decide (q.ResolveBarrier.TimeRemaining ≤ 0)) &&
          (!IsResolveBlockedOn q ESuqsResolveBarrierCondition.Gate ||
            P.IsGateOpen q.ResolveBarrier.Gate)) := by
  unfold bCleared
  by_cases he : IsResolveBlockedOn q ESuqsResolveBarrierCondition.Explicit = true
  · simp [he]
  · by_cases ht : IsResolveBlockedOn q ESuqsResolveBarrierCondition.Time = true <;>
      by_cases hg : IsResolveBlockedOn q ESuqsResolveBarrierCondition.Gate = true <;>
      by_cases hT : q.ResolveBarrier.TimeRemaining > 0 <;>
      by_cases hG : P.IsGateOpen q.ResolveBarrier.Gate = true <;>
      simp [he, ht, hg, hT, hG, not_lt.mp, le_of_lt]

/-- C5: evaluation of `MaybeNotifyStatusChange` on a completed quest whose pending barrier
requires Time and Explicit, with 5 time units remaining and the explicit grant given, and on
one whose pending barrier requires Gate and Explicit, with the gate closed and the explicit
grant given.  In both the barrier clears: `ProcessQuestStatusChange` is called and the pending
flag is dropped, although a required condition is not met. -/
theorem C5_explicit_grant_overrides_time_and_gate :
    MaybeNotifyStatusChange PlainProgression
      { FreshQuest [] with
        Status := ESuqsQuestStatus.Completed,
        ResolveBarrier := { Conditions := 5, TimeRemaining := 5, Gate := NAME_None,
                            bGrantedExplicitly := true, bPending := true } }
      = { FreshQuest [] with
        Status := ESuqsQuestStatus.Completed,
        ResolveBarrier := { Conditions := 5, TimeRemaining := 5, Gate := NAME_None,
                            bGrantedExplicitly := true, bPending := false },
        ProgressionCalls := [ProgressionCall.ProcessQuestStatusChange] } ∧
    PlainProgression.IsGateOpen 3 = false ∧
    MaybeNotifyStatusChange PlainProgression
      { FreshQuest [] with
        Status := ESuqsQuestStatus.Completed,
        ResolveBarrier := { Conditions := 6, TimeRemaining := 0, Gate := 3,
                            bGrantedExplicitly := true, bPending := true } }
      = { FreshQuest [] with
        Status := ESuqsQuestStatus.Completed,
        ResolveBarrier := { Conditions := 6, TimeRemaining := 0, Gate := 3,
                            bGrantedExplicitly := true, bPending := false },
        ProgressionCalls := [ProgressionCall.ProcessQuestStatusChange] } := by
  decide

/-! ### Quiet collaborators -/

theorem ObjectiveChangeStatus_same (P : USuqsProgression) (q : USuqsQuestState) (i : Nat)
    (Obj : USuqsObjectiveState) (h : q.Objectives[i]? = some Obj) :
    ObjectiveChangeStatus P q i Obj.Status = q := by
  simp [ObjectiveChangeStatus, h]

theorem ObjectiveTick_quiet (P : USuqsProgression) (O : ObjectiveCollaborator)
    (q : USuqsQuestState) (hO : Quiet O q) (i : Nat) (DeltaTime : Int) :
    ObjectiveTick P O q i DeltaTime = q := by
  unfold ObjectiveTick
  cases h : q.Objectives[i]? with
  | none => rfl
  | some Obj =>
    simp only []
    rw [(hO Obj (List.getElem?_mem h)).1 DeltaTime]
    exact ObjectiveChangeStatus_same P q i Obj h

theorem ObjectiveNotifyGateOpened_quiet (P : USuqsProgression) (O : ObjectiveCollaborator)
    (q : USuqsQuestState) (hO : Quiet O q) (i : Nat) (GateName : FName) :
    ObjectiveNotifyGateOpened P O q i GateName = q := by
  unfold ObjectiveNotifyGateOpened
  cases h : q.Objectives[i]? with
  | none => rfl
  | some Obj =>
    simp only []
    rw [(hO Obj (List.getElem?_mem h)).2 GateName]
    exact ObjectiveChangeStatus_same P q i Obj h

theorem foldl_fixed {α β : Type} (f : α → β → α) (a : α) (h : ∀ b, f a b = a) :
    ∀ l : List β, l.foldl f a = a := by
  intro l
  induction l with
  | nil => rfl
  | cons b l ih => simp [List.foldl, h b, ih]

/-- With a quiet collaborator a tick only decrements the barrier time and evaluates the
barrier. -/
theorem Tick_quiet (P : USuqsProgression) (O : ObjectiveCollaborator) (q : USuqsQuestState)
    (hO : Quiet O q) (DeltaTime : Int) :
    Tick P O q DeltaTime =
      MaybeNotifyStatusChange P
        (if IsResolveBlockedOn q ESuqsResolveBarrierCondition.Time = true then
          { q with ResolveBarrier :=
              { q.ResolveBarrier with
                TimeRemaining := max (q.ResolveBarrier.TimeRemaining - DeltaTime) 0 } }
        else q) := by
  unfold Tick
  simp only []
  congr 1
  split
  · apply ObjectiveTick_quiet
    intro Obj hObj
    apply hO
    split_ifs at hObj <;> simpa using hObj
  · rfl

/-- With a quiet collaborator a gate notification only evaluates the barrier, and only when the
quest is blocked on that very gate. -/
theorem NotifyGateOpened_quiet (P : USuqsProgression) (O : ObjectiveCollaborator)
    (q : USuqsQuestState) (hO : Quiet O q) (GateName : FName) :
    NotifyGateOpened P O q GateName =
      if (IsResolveBlockedOn q ESuqsResolveBarrierCondition.Gate
          && q.ResolveBarrier.Gate == GateName) = true then
        MaybeNotifyStatusChange P q
      else q := by
  unfold NotifyGateOpened
  rw [foldl_fixed _ q (fun i => ObjectiveNotifyGateOpened_quiet P O q hO i GateName)]

/-- C6: a quest in `Completed` or `Failed` status with a pending barrier requiring exactly Time
and Gate.  (1) An evaluation made while time remains or the gate is closed changes nothing.
(2) An evaluation made when no time remains and the gate is open clears the barrier.
(3) Time first: a tick that uses up the time while the gate is closed only brings the time to
zero; the later notification of the gate, now open, clears the barrier.  (4) Gate first: the
notification of the open gate while time remains changes nothing; the later tick that uses up
the time clears the barrier. -/
theorem C6_time_and_gate_in_either_order (O : ObjectiveCollaborator) (q : USuqsQuestState)
    (hs : q.Status = ESuqsQuestStatus.Completed ∨ q.Status = ESuqsQuestStatus.Failed)
    (hp : q.ResolveBarrier.bPending = true)
    (hc : q.ResolveBarrier.Conditions =
      ESuqsResolveBarrierCondition.Time.mask ||| ESuqsResolveBarrierCondition.Gate.mask)
    (hO : Quiet O q) :
    (∀ P : USuqsProgression,
      (0 < q.ResolveBarrier.TimeRemaining ∨ P.IsGateOpen q.ResolveBarrier.Gate = false) →
      MaybeNotifyStatusChange P q = q) ∧
    (∀ P : USuqsProgression,
      q.ResolveBarrier.TimeRemaining ≤ 0 → P.IsGateOpen q.ResolveBarrier.Gate = true →
      MaybeNotifyStatusChange P q = Cleared q) ∧
    (∀ (Pclosed Popen : USuqsProgression) (DeltaTime : Int),
      Pclosed.IsGateOpen q.ResolveBarrier.Gate = false →
      Popen.IsGateOpen q.ResolveBarrier.Gate = true →
      q.ResolveBarrier.TimeRemaining ≤ DeltaTime →
      Tick Pclosed O q DeltaTime =
        { q with ResolveBarrier := { q.ResolveBarrier with TimeRemaining := 0 } } ∧
      NotifyGateOpened Popen O (Tick Pclosed O q DeltaTime) q.ResolveBarrier.Gate =
        Cleared { q with ResolveBarrier := { q.ResolveBarrier with TimeRemaining := 0 } }) ∧
    (∀ (Popen : USuqsProgression) (DeltaTime : Int),
      Popen.IsGateOpen q.ResolveBarrier.Gate = true →
      0 < q.ResolveBarrier.TimeRemaining →
      q.ResolveBarrier.TimeRemaining ≤ DeltaTime →
      NotifyGateOpened Popen O q q.ResolveBarrier.Gate = q ∧
      Tick Popen O (NotifyGateOpened Popen O q q.ResolveBarrier.Gate) DeltaTime =
        Cleared { q with ResolveBarrier := { q.ResolveBarrier with TimeRemaining := 0 } }) := by
  have hT : IsResolveBlockedOn q ESuqsResolveBarrierCondition.Time = true := by
    simp only [IsResolveBlockedOn, hp, hc, ESuqsResolveBarrierCondition.mask]
    decide
  have hG : IsResolveBlockedOn q ESuqsResolveBarrierCondition.Gate = true := by
    simp only [IsResolveBlockedOn, hp, hc, ESuqsResolveBarrierCondition.mask]
    decide
  have hE : IsResolveBlockedOn q ESuqsResolveBarrierCondition.Explicit = false := by
    simp only [IsResolveBlockedOn, hp, hc, ESuqsResolveBarrierCondition.mask]
    decide
  -- the same facts for the quest whose time has been brought to `t`
  have hblocked : ∀ t : Int, ∀ c : ESuqsResolveBarrierCondition,
      IsResolveBlockedOn
        { q with ResolveBarrier := { q.ResolveBarrier with TimeRemaining := t } } c =
      IsResolveBlockedOn q c := by
    intro t c
    simp [IsResolveBlockedOn]
  have hquiet : ∀ t : Int,
      Quiet O { q with ResolveBarrier := { q.ResolveBarrier with TimeRemaining := t } } := by
    intro t Obj hObj
    exact hO Obj hObj
  have hstay : ∀ (P : USuqsProgression) (t : Int),
      (0 < t ∨ P.IsGateOpen q.ResolveBarrier.Gate = false) →
      MaybeNotifyStatusChange P
        { q with ResolveBarrier := { q.ResolveBarrier with TimeRemaining := t } } =
        { q with ResolveBarrier := { q.ResolveBarrier with TimeRemaining := t } } := by
    intro P t h
    rw [MaybeNotifyStatusChange_eq, bCleared_eq]
    simp only [hblocked, hT, hG, hE]
    rcases h with h | h
    · have : ¬ t ≤ 0 := by omega
      simp [this]
    · simp [h]
  have hclear : ∀ (P : USuqsProgression) (t : Int),
      t ≤ 0 → P.IsGateOpen q.ResolveBarrier.Gate = true →
      MaybeNotifyStatusChange P
        { q with ResolveBarrier := { q.ResolveBarrier with TimeRemaining := t } } =
        Cleared { q with ResolveBarrier := { q.ResolveBarrier with TimeRemaining := t } } := by
    intro P t h1 h2
    rw [MaybeNotifyStatusChange_eq, bCleared_eq]
    simp only [hblocked, hT, hG, hE]
    simp [h1, h2, hp, hs]
  have hself : { q with ResolveBarrier :=
      { q.ResolveBarrier with TimeRemaining := q.ResolveBarrier.TimeRemaining } } = q := rfl
  have htick : ∀ (P : USuqsProgression) (DeltaTime : Int),
      q.ResolveBarrier.TimeRemaining ≤ DeltaTime →
      Tick P O q DeltaTime = MaybeNotifyStatusChange P
        { q with ResolveBarrier := { q.ResolveBarrier with TimeRemaining := 0 } } := by
    intro P DeltaTime hle
    rw [Tick_quiet P O q hO, if_pos hT]
    have : max (q.ResolveBarrier.TimeRemaining - DeltaTime) 0 = 0 := by
      apply max_eq_right
      omega
    rw [this]
  refine ⟨?_, ?_, ?_, ?_⟩
  · intro P h
    have := hstay P q.ResolveBarrier.TimeRemaining h
    rwa [hself] at this
  · intro P h1 h2
    have := hclear P q.ResolveBarrier.TimeRemaining h1 h2
    rwa [hself] at this
  · intro Pclosed Popen DeltaTime hcl hop hle
    have h1 : Tick Pclosed O q DeltaTime =
        { q with ResolveBarrier := { q.ResolveBarrier with TimeRemaining := 0 } } := by
      rw [htick Pclosed DeltaTime hle]
      exact hstay Pclosed 0 (Or.inr hcl)
    refine ⟨h1, ?_⟩
    rw [h1, NotifyGateOpened_quiet Popen O _ (hquiet 0)]
    simp only [hblocked, hG]
    simp only [beq_self_eq_true, Bool.and_self, if_true]
    exact hclear Popen 0 (le_refl 0) hop
  · intro Popen DeltaTime hop hpos hle
    have h1 : NotifyGateOpened Popen O q q.ResolveBarrier.Gate = q := by
      rw [NotifyGateOpened_quiet Popen O q hO]
      simp only [hG, beq_self_eq_true, Bool.and_self, if_true]
      have := hstay Popen q.ResolveBarrier.TimeRemaining (Or.inl hpos)
      rwa [hself] at this
    refine ⟨h1, ?_⟩
    rw [h1, htick Popen DeltaTime hle]
    exact hclear Popen 0 (le_refl 0) hop

/-- The hypotheses of C6 hold of `TimeGateQuest`; here the two orders are run on it with a tick
of 5 time units and gate 3: each ends with exactly one `ProcessQuestStatusChange`. -/
theorem C6_time_and_gate_in_either_order_witness :
    (Tick PlainProgression QuietCollaborator TimeGateQuest 5 =
        { TimeGateQuest with
          ResolveBarrier := { TimeGateQuest.ResolveBarrier with TimeRemaining := 0 } } ∧
      NotifyGateOpened (ProgressionWithGate 3) QuietCollaborator
          (Tick PlainProgression QuietCollaborator TimeGateQuest 5) 3 =
        Cleared { TimeGateQuest with
          ResolveBarrier := { TimeGateQuest.ResolveBarrier with TimeRemaining := 0 } }) ∧
    (NotifyGateOpened (ProgressionWithGate 3) QuietCollaborator TimeGateQuest 3
        = TimeGateQuest ∧
      Tick (ProgressionWithGate 3) QuietCollaborator
          (NotifyGateOpened (ProgressionWithGate 3) QuietCollaborator TimeGateQuest 3) 5 =
        Cleared { TimeGateQuest with
          ResolveBarrier := { TimeGateQuest.ResolveBarrier with TimeRemaining := 0 } }) :=
  have h := C6_time_and_gate_in_either_order QuietCollaborator TimeGateQuest
    (by decide) (by decide) (by decide) (fun _ _ => ⟨fun _ => rfl, fun _ => rfl⟩)
  ⟨h.2.2.1 PlainProgression (ProgressionWithGate 3) 5 (by decide) (by decide) (by decide),
    h.2.2.2 (ProgressionWithGate 3) 5 (by decide) (by decide) (by decide)⟩

/-- C7 as stated fails: on a completed quest whose barrier has just cleared, a further
`Resolve` raises nothing but does change the quest state (it sets the explicit-grant flag). -/
theorem C7_resolve_after_clearing_changes_state :
    (MaybeNotifyStatusChange PlainProgression
      { FreshQuest [] with
        Status := ESuqsQuestStatus.Completed, ResolveBarrier := OpenBarrier }).ResolveBarrier.bPending
      = false ∧
    Resolve PlainProgression
      (MaybeNotifyStatusChange PlainProgression
        { FreshQuest [] with
          Status := ESuqsQuestStatus.Completed, ResolveBarrier := OpenBarrier })
      ≠ MaybeNotifyStatusChange PlainProgression
        { FreshQuest [] with
          Status := ESuqsQuestStatus.Completed, ResolveBarrier := OpenBarrier } := by
  decide

/-- C7 (amended): an evaluation of the barrier either does nothing or clears it, calling
`ProcessQuestStatusChange` once and dropping the pending flag; and once the pending flag is
down, any sequence of `Tick`, `Resolve`, `NotifyGateOpened` and direct evaluations, made with a
collaborator that changes no objective state, calls nothing on the controller and leaves the
quest as it is except for the explicit-grant flag, which `Resolve` sets. -/
theorem C7_no_refire_once_cleared (O : ObjectiveCollaborator) (q : USuqsQuestState)
    (hp : q.ResolveBarrier.bPending = false) (hO : Quiet O q)
    (cs : List (USuqsProgression × BarrierCall)) :
    (∀ (P : USuqsProgression) (q0 : USuqsQuestState),
      MaybeNotifyStatusChange P q0 = q0 ∨ MaybeNotifyStatusChange P q0 = Cleared q0) ∧
    (RunCalls O q cs).ProgressionCalls = q.ProgressionCalls ∧
    RunCalls O q cs =
      { q with ResolveBarrier :=
          { q.ResolveBarrier with
            bGrantedExplicitly :=
              q.ResolveBarrier.bGrantedExplicitly || cs.any (fun c => c.2.isResolve) } } := by
  have main : ∀ (cs : List (USuqsProgression × BarrierCall)) (q : USuqsQuestState),
      q.ResolveBarrier.bPending = false → Quiet O q →
      RunCalls O q cs =
        { q with ResolveBarrier :=
            { q.ResolveBarrier with
              bGrantedExplicitly :=
                q.ResolveBarrier.bGrantedExplicitly || cs.any (fun c => c.2.isResolve) } } := by
    intro cs
    induction cs with
    | nil =>
      intro q _ _
      simp [RunCalls]
    | cons c cs ih =>
      intro q hp hO
      have hidle : ∀ P : USuqsProgression, MaybeNotifyStatusChange P q = q := by
        intro P
        rw [MaybeNotifyStatusChange_eq]
        simp [hp]
      have hblock : ∀ b, IsResolveBlockedOn q b = false := by
        intro b
        simp [IsResolveBlockedOn, hp]
      obtain ⟨P, call⟩ := c
      cases call with
      | Tick DeltaTime =>
        have hstep : RunCall O q (P, BarrierCall.Tick DeltaTime) = q := by
          simp only [RunCall]
          rw [Tick_quiet P O q hO]
          simp [hblock, hidle]
        simp only [RunCalls, List.foldl_cons, hstep]
        have := ih q hp hO
        simp only [RunCalls] at this
        rw [this]
        simp [BarrierCall.isResolve]
      | Resolve =>
        have hstep : RunCall O q (P, BarrierCall.Resolve) =
            { q with ResolveBarrier := { q.ResolveBarrier with bGrantedExplicitly := true } } := by
          simp only [RunCall, Resolve]
          rw [MaybeNotifyStatusChange_eq]
          simp [hp]
        simp only [RunCalls, List.foldl_cons, hstep]
        have := ih { q with ResolveBarrier :=
          { q.ResolveBarrier with bGrantedExplicitly := true } } hp hO
        simp only [RunCalls] at this
        rw [this]
        simp [BarrierCall.isResolve]
      | NotifyGateOpened GateName =>
        have hstep : RunCall O q (P, BarrierCall.NotifyGateOpened GateName) = q := by
          simp only [RunCall]
          rw [NotifyGateOpened_quiet P O q hO]
          simp [hblock]
        simp only [RunCalls, List.foldl_cons, hstep]
        have := ih q hp hO
        simp only [RunCalls] at this
        rw [this]
        simp [BarrierCall.isResolve]
      | MaybeNotifyStatusChange =>
        have hstep : RunCall O q (P, BarrierCall.MaybeNotifyStatusChange) = q := by
          simp only [RunCall]
          exact hidle P
        simp only [RunCalls, List.foldl_cons, hstep]
        have := ih q hp hO
        simp only [RunCalls] at this
        rw [this]
        simp [BarrierCall.isResolve]
  refine ⟨?_, ?_, main cs q hp hO⟩
  · intro P q0
    rw [MaybeNotifyStatusChange_eq]
    split_ifs
    · exact Or.inr rfl
    · exact Or.inl rfl
  · rw [main cs q hp hO]

/-- The hypotheses of C7 hold of the quest left by a barrier that has just cleared; a tick, a
gate notification, an explicit resolve and a direct evaluation follow. -/
theorem C7_no_refire_once_cleared_witness :
    (RunCalls QuietCollaborator
      (Cleared { FreshQuest [] with
        Status := ESuqsQuestStatus.Completed, ResolveBarrier := OpenBarrier })
      [(PlainProgression, BarrierCall.Tick 2), (ProgressionWithGate 3, BarrierCall.NotifyGateOpened 3),
       (PlainProgression, BarrierCall.Resolve),
       (PlainProgression, BarrierCall.MaybeNotifyStatusChange)]).ProgressionCalls =
    [ProgressionCall.ProcessQuestStatusChange] :=
  (C7_no_refire_once_cleared QuietCollaborator
    (Cleared { FreshQuest [] with
      Status := ESuqsQuestStatus.Completed, ResolveBarrier := OpenBarrier })
    (by decide) (fun _ _ => ⟨fun _ => rfl, fun _ => rfl⟩)
    [(PlainProgression, BarrierCall.Tick 2), (ProgressionWithGate 3, BarrierCall.NotifyGateOpened 3),
     (PlainProgression, BarrierCall.Resolve),
     (PlainProgression, BarrierCall.MaybeNotifyStatusChange)]).2.1

/-! ## Status transitions -/

/-- A genuine transition stores the status, raises the lifecycle event, fetches the barrier
and evaluates it; a request for the stored status does nothing. -/
theorem ChangeStatus_eq (P : USuqsProgression) (q : USuqsQuestState) (t : ESuqsQuestStatus) :
    ChangeStatus P q t =
      if q.Status = t then q
      else MaybeNotifyStatusChange P
        { q with
          Status := t,
          ResolveBarrier := P.GetResolveBarrierForQuest q.QuestDefinition t,
          ProgressionCalls := q.ProgressionCalls ++ LifecycleCalls t ++
            [ProgressionCall.GetResolveBarrierForQuest t] } := by
  unfold ChangeStatus
  by_cases h : q.Status = t
  · simp [h]
  · simp only [ne_eq, h, not_false_eq_true, if_true, if_false, QueueStatusChangeNotification]
    congr 1
    cases t <;> simp [Raise, LifecycleCalls, ObjectiveFailedLabel]

/-- The calls a status change makes on the controller. -/
theorem ChangeStatus_calls (P : USuqsProgression) (q : USuqsQuestState)
    (t : ESuqsQuestStatus) :
    (ChangeStatus P q t).ProgressionCalls = q.ProgressionCalls ∨
    (ChangeStatus P q t).ProgressionCalls = q.ProgressionCalls ++
      (LifecycleCalls t ++ [ProgressionCall.GetResolveBarrierForQuest t]) ∨
    (ChangeStatus P q t).ProgressionCalls = q.ProgressionCalls ++
      (LifecycleCalls t ++ [ProgressionCall.GetResolveBarrierForQuest t,
        ProgressionCall.ProcessQuestStatusChange]) := by
  rw [ChangeStatus_eq]
  by_cases h : q.Status = t
  · left
    simp [h]
  · right
    rw [if_neg h, MaybeNotifyStatusChange_eq]
    split_ifs
    · right
      simp [Cleared]
    · left
      simp

/-- C10 as stated fails: overriding the status of an `Incomplete` quest with `Unavailable` is a
genuine transition, yet no lifecycle event is raised; the barrier is fetched all the same. -/
theorem C10_unavailable_raises_no_lifecycle_event :
    (FreshQuest []).Status ≠ ESuqsQuestStatus.Unavailable ∧
    NewCalls (FreshQuest [])
      (OverrideStatus PlainProgression (FreshQuest []) ESuqsQuestStatus.Unavailable)
      = [ProgressionCall.GetResolveBarrierForQuest ESuqsQuestStatus.Unavailable] := by
  decide

/-- C10 (amended): `OverrideStatus` is `ChangeStatus`.  A request for the stored status leaves
the quest as it is.  A request for another status `t` stores `t`, raises the lifecycle event of
`t` (`RaiseQuestCompleted`, `RaiseQuestFailed`, `RaiseQuestReset`; none at all for
`Unavailable`), then fetches the barrier record for `t` from the controller, stores it and
evaluates it; so the calls made are the lifecycle event, the barrier query and possibly
`ProcessQuestStatusChange`. -/
theorem C10_transition_events (P : USuqsProgression) (q : USuqsQuestState)
    (t : ESuqsQuestStatus) :
    OverrideStatus P q t = ChangeStatus P q t ∧
    (t = q.Status → ChangeStatus P q t = q) ∧
    (t ≠ q.Status →
      ChangeStatus P q t = MaybeNotifyStatusChange P
        { q with
          Status := t,
          ResolveBarrier := P.GetResolveBarrierForQuest q.QuestDefinition t,
          ProgressionCalls := q.ProgressionCalls ++ LifecycleCalls t ++
            [ProgressionCall.GetResolveBarrierForQuest t] }) ∧
    (t ≠ q.Status →
      (ChangeStatus P q t).Status = t ∧
      (NewCalls q (ChangeStatus P q t) =
          LifecycleCalls t ++ [ProgressionCall.GetResolveBarrierForQuest t] ∨
        NewCalls q (ChangeStatus P q t) =
          LifecycleCalls t ++ [ProgressionCall.GetResolveBarrierForQuest t,
            ProgressionCall.ProcessQuestStatusChange])) := by
  refine ⟨rfl, ?_, ?_, ?_⟩
  · intro h
    rw [ChangeStatus_eq, if_pos h.symm]
  · intro h
    rw [ChangeStatus_eq, if_neg (fun h2 => h h2.symm)]
  · intro h
    refine ⟨(ChangeStatus_frame P q t).2.2.2.1, ?_⟩
    rcases ChangeStatus_calls P q t with h1 | h1 | h1
    · exfalso
      rw [ChangeStatus_eq, if_neg (fun h2 => h h2.symm), MaybeNotifyStatusChange_eq] at h1
      split_ifs at h1 <;> simp [Cleared] at h1
    · exact Or.inl (NewCalls_of_append _ _ _ h1)
    · exact Or.inr (NewCalls_of_append _ _ _ h1)

/-- A genuine transition to `Failed` under a policy that requires nothing: the failure event,
the barrier query and the final notification, in this order. -/
theorem C10_transition_events_witness :
    (ChangeStatus PlainProgression (FreshQuest []) ESuqsQuestStatus.Failed).Status
      = ESuqsQuestStatus.Failed ∧
    (NewCalls (FreshQuest [])
        (ChangeStatus PlainProgression (FreshQuest []) ESuqsQuestStatus.Failed) =
      LifecycleCalls ESuqsQuestStatus.Failed ++
        [ProgressionCall.GetResolveBarrierForQuest ESuqsQuestStatus.Failed] ∨
    NewCalls (FreshQuest [])
        (ChangeStatus PlainProgression (FreshQuest []) ESuqsQuestStatus.Failed) =
      LifecycleCalls ESuqsQuestStatus.Failed ++
        [ProgressionCall.GetResolveBarrierForQuest ESuqsQuestStatus.Failed,
          ProgressionCall.ProcessQuestStatusChange]) :=
  (C10_transition_events PlainProgression (FreshQuest []) ESuqsQuestStatus.Failed).2.2.2
    (by decide)

/-! ## The current-objective notification -/

theorem LifecycleCalls_no_objective_changed (t : ESuqsQuestStatus) :
    ProgressionCall.RaiseCurrentObjectiveChanged ∉ LifecycleCalls t := by
  cases t <;> simp [LifecycleCalls]

/-- C9 as stated fails.  In a quest whose only objective, the current one, has just been
completed, the rescan ends in `Completed` and moves the index from 0 to -1; in a quest whose
first objective, the current one, has just failed, the rescan ends in `Failed` and moves the
index from 0 to 1.  Neither rescan raises `RaiseCurrentObjectiveChanged`. -/
theorem C9_index_change_without_notification :
    ((NotifyObjectiveStatusChanged PlainProgression
        { FreshQuest [{ Branch := NAME_None, Status := ESuqsObjectiveStatus.Completed }] with
          CurrentObjectiveIndex := 0 }).CurrentObjectiveIndex = -1 ∧
      (NotifyObjectiveStatusChanged PlainProgression
        { FreshQuest [{ Branch := NAME_None, Status := ESuqsObjectiveStatus.Completed }] with
          CurrentObjectiveIndex := 0 }).Status = ESuqsQuestStatus.Completed ∧
      ProgressionCall.RaiseCurrentObjectiveChanged ∉
        NewCalls
          { FreshQuest [{ Branch := NAME_None, Status := ESuqsObjectiveStatus.Completed }] with
            CurrentObjectiveIndex := 0 }
          (NotifyObjectiveStatusChanged PlainProgression
            { FreshQuest [{ Branch := NAME_None, Status := ESuqsObjectiveStatus.Completed }] with
              CurrentObjectiveIndex := 0 })) ∧
    ((NotifyObjectiveStatusChanged PlainProgression
        { FreshQuest [{ Branch := NAME_None, Status := ESuqsObjectiveStatus.Failed },
            { Branch := NAME_None, Status := ESuqsObjectiveStatus.Incomplete }] with
          CurrentObjectiveIndex := 0 }).CurrentObjectiveIndex = 1 ∧
      (NotifyObjectiveStatusChanged PlainProgression
        { FreshQuest [{ Branch := NAME_None, Status := ESuqsObjectiveStatus.Failed },
            { Branch := NAME_None, Status := ESuqsObjectiveStatus.Incomplete }] with
          CurrentObjectiveIndex := 0 }).Status = ESuqsQuestStatus.Failed ∧
      ProgressionCall.RaiseCurrentObjectiveChanged ∉
        NewCalls
          { FreshQuest [{ Branch := NAME_None, Status := ESuqsObjectiveStatus.Failed },
              { Branch := NAME_None, Status := ESuqsObjectiveStatus.Incomplete }] with
            CurrentObjectiveIndex := 0 }
          (NotifyObjectiveStatusChanged PlainProgression
            { FreshQuest [{ Branch := NAME_None, Status := ESuqsObjectiveStatus.Failed },
                { Branch := NAME_None, Status := ESuqsObjectiveStatus.Incomplete }] with
              CurrentObjectiveIndex := 0 })) := by
  decide

/-- The rescan, with the scanning loop already run. -/
theorem NotifyObjectiveStatusChanged_eq (P : USuqsProgression) (q : USuqsQuestState) :
    NotifyObjectiveStatusChanged P q =
      if (ScanObjectives q q.Objectives 0 false).2 = true then
        ChangeStatus P
          { q with CurrentObjectiveIndex := (ScanObjectives q q.Objectives 0 false).1 }
          ESuqsQuestStatus.Failed
      else if (ScanObjectives q q.Objectives 0 false).1 = -1 then
        ChangeStatus P
          { q with CurrentObjectiveIndex := (ScanObjectives q q.Objectives 0 false).1 }
          ESuqsQuestStatus.Completed
      else if q.CurrentObjectiveIndex ≠ (ScanObjectives q q.Objectives 0 false).1 then
        Raise (ChangeStatus P
          { q with CurrentObjectiveIndex := (ScanObjectives q q.Objectives 0 false).1 }
          ESuqsQuestStatus.Incomplete) ProgressionCall.RaiseCurrentObjectiveChanged
      else
        ChangeStatus P
          { q with CurrentObjectiveIndex := (ScanObjectives q q.Objectives 0 false).1 }
          ESuqsQuestStatus.Incomplete := by
  unfold NotifyObjectiveStatusChanged
  simp only [(ChangeStatus_frame P _ _).2.2.1]

/-- A status change only appends calls, none of them `RaiseCurrentObjectiveChanged`. -/
theorem ChangeStatus_appends (P : USuqsProgression) (q : USuqsQuestState)
    (t : ESuqsQuestStatus) :
    ∃ l : List ProgressionCall,
      (ChangeStatus P q t).ProgressionCalls = q.ProgressionCalls ++ l ∧
      l.count ProgressionCall.RaiseCurrentObjectiveChanged = 0 := by
  have hl := LifecycleCalls_no_objective_changed t
  rcases ChangeStatus_calls P q t with h | h | h
  · exact ⟨[], by simpa using h, rfl⟩
  · refine ⟨_, h, ?_⟩
    rw [List.count_eq_zero]
    simpa using hl
  · refine ⟨_, h, ?_⟩
    rw [List.count_eq_zero]
    simpa using hl

/-- C9 (amended): a rescan raises `RaiseCurrentObjectiveChanged` exactly once when the current
objective index after it differs from the index before it and the rescan ends in the status
`Incomplete` (whether or not the status was `Incomplete` before); in every other case, in
particular in a rescan that ends in `Completed` or `Failed`, it does not raise it. -/
theorem C9_objective_changed_only_when_incomplete (P : USuqsProgression)
    (q : USuqsQuestState) :
    (NewCalls q (NotifyObjectiveStatusChanged P q)).count
        ProgressionCall.RaiseCurrentObjectiveChanged =
      if (NotifyObjectiveStatusChanged P q).CurrentObjectiveIndex ≠ q.CurrentObjectiveIndex ∧
          (NotifyObjectiveStatusChanged P q).Status = ESuqsQuestStatus.Incomplete
      then 1 else 0 := by
  obtain ⟨_, _, _, hidx, hst⟩ := NotifyObjectiveStatusChanged_frame P q
  rw [hidx, hst, NotifyObjectiveStatusChanged_eq]
  have hcs : ∀ t : ESuqsQuestStatus, ∃ l : List ProgressionCall,
      (ChangeStatus P
        { q with CurrentObjectiveIndex := (ScanObjectives q q.Objectives 0 false).1 }
        t).ProgressionCalls = q.ProgressionCalls ++ l ∧
      l.count ProgressionCall.RaiseCurrentObjectiveChanged = 0 := fun t =>
    ChangeStatus_appends P
      { q with CurrentObjectiveIndex := (ScanObjectives q q.Objectives 0 false).1 } t
  by_cases hf : (ScanObjectives q q.Objectives 0 false).2 = true
  · rw [if_pos hf, if_pos hf]
    obtain ⟨l, h1, h2⟩ := hcs ESuqsQuestStatus.Failed
    rw [NewCalls_of_append _ _ l h1, h2]
    simp
  · rw [if_neg hf, if_neg hf]
    by_cases hm : (ScanObjectives q q.Objectives 0 false).1 = -1
    · rw [if_pos hm, if_pos hm]
      obtain ⟨l, h1, h2⟩ := hcs ESuqsQuestStatus.Completed
      rw [NewCalls_of_append _ _ l h1, h2]
      simp
    · rw [if_neg hm, if_neg hm]
      obtain ⟨l, h1, h2⟩ := hcs ESuqsQuestStatus.Incomplete
      by_cases hne : q.CurrentObjectiveIndex = (ScanObjectives q q.Objectives 0 false).1
      · rw [if_neg (fun h => h hne), NewCalls_of_append _ _ l h1, h2]
        rw [if_neg (fun h => h.1 hne.symm)]
      · rw [if_pos hne]
        have h3 : (Raise (ChangeStatus P
            { q with CurrentObjectiveIndex := (ScanObjectives q q.Objectives 0 false).1 }
            ESuqsQuestStatus.Incomplete)
            ProgressionCall.RaiseCurrentObjectiveChanged).ProgressionCalls =
            q.ProgressionCalls ++ (l ++ [ProgressionCall.RaiseCurrentObjectiveChanged]) := by
          simp [Raise, h1]
        rw [NewCalls_of_append _ _ _ h3, List.count_append, h2]
        rw [if_pos ⟨fun h => hne h.symm, rfl⟩]
        simp

/-! ## Reset -/

theorem NotifyObjectiveStatusChanged_status (P : USuqsProgression) (q : USuqsQuestState) :
    (NotifyObjectiveStatusChanged P q).Status = DerivedStatus q :=
  (NotifyObjectiveStatusChanged_frame P q).2.2.2.2

theorem ScanObjectives_congr (q r : USuqsQuestState) (h : r.ActiveBranches = q.ActiveBranches) :
    ∀ (Objs : List USuqsObjectiveState) (i : Nat) (f : Bool),
      ScanObjectives r Objs i f = ScanObjectives q Objs i f := by
  intro Objs
  induction Objs with
  | nil => intro i f; rfl
  | cons Obj Objs ih =>
    intro i f
    simp only [ScanObjectives, IsBranchActive_congr q r h, ih]

/-- The derived status only depends on the objectives and the active branches. -/
theorem DerivedStatus_congr (q r : USuqsQuestState) (h : r.ActiveBranches = q.ActiveBranches)
    (ho : r.Objectives = q.Objectives) : DerivedStatus r = DerivedStatus q := by
  simp only [DerivedStatus, ho, ScanObjectives_congr q r h]

/-- After a rescan the stored status is the derived one. -/
theorem NotifyObjectiveStatusChanged_consistent (P : USuqsProgression) (q : USuqsQuestState) :
    (NotifyObjectiveStatusChanged P q).Status =
      DerivedStatus (NotifyObjectiveStatusChanged P q) := by
  obtain ⟨ho, hb, _, _, hst⟩ := NotifyObjectiveStatusChanged_frame P q
  rw [DerivedStatus_congr q _ hb ho]
  exact hst

/-- With every objective incomplete the derived status is `Incomplete` when some objective
is on an active branch and `Completed` otherwise. -/
theorem DerivedStatus_all_incomplete (q : USuqsQuestState)
    (hall : ∀ Obj ∈ q.Objectives, Obj.Status = ESuqsObjectiveStatus.Incomplete) :
    ((∃ Obj ∈ q.Objectives, IsBranchActive q Obj.GetBranch = true) →
      DerivedStatus q = ESuqsQuestStatus.Incomplete) ∧
    ((¬ ∃ Obj ∈ q.Objectives, IsBranchActive q Obj.GetBranch = true) →
      DerivedStatus q = ESuqsQuestStatus.Completed) := by
  have hnf : ¬ (ScanObjectives q q.Objectives 0 false).2 = true := by
    rw [scan_failed_iff]
    rintro ⟨j, h1, _⟩
    rw [ActiveFailedAt_eq_true] at h1
    obtain ⟨Obj, h2, _, h4⟩ := h1
    have := hall Obj (List.getElem?_mem h2)
    simp [USuqsObjectiveState.IsFailed, this] at h4
  constructor
  · rintro ⟨Obj, hmem, hact⟩
    have hm : ¬ (ScanObjectives q q.Objectives 0 false).1 = -1 := by
      rcases scan_index_cases q with ⟨_, h2⟩ | ⟨i, h1, _, _⟩
      · exfalso
        obtain ⟨j, hj⟩ := List.mem_iff_getElem?.1 hmem
        have h3 := h2 j
        rw [ActiveIncompleteAt_eq_false] at h3
        have h4 := h3 Obj hj hact
        simp [USuqsObjectiveState.IsIncomplete, hall Obj hmem] at h4
      · rw [h1]
        omega
    simp [DerivedStatus, hnf, hm]
  · intro hnone
    have hm : (ScanObjectives q q.Objectives 0 false).1 = -1 := by
      rcases scan_index_cases q with ⟨h1, _⟩ | ⟨i, _, h2, _⟩
      · exact h1
      · exfalso
        rw [ActiveIncompleteAt_eq_true] at h2
        obtain ⟨Obj, h3, h4, _⟩ := h2
        exact hnone ⟨Obj, List.getElem?_mem h3, h4⟩
    simp [DerivedStatus, hnf, hm]

/-- A status change only appends calls; if it ends in `Incomplete`, either the status was
`Incomplete` already and barrier and calls are untouched, or the reset event and the barrier
query for `Incomplete` were made and the record returned for `Incomplete` is stored. -/
theorem ChangeStatus_trace (P : USuqsProgression) (q : USuqsQuestState)
    (t : ESuqsQuestStatus) :
    ∃ l : List ProgressionCall,
      (ChangeStatus P q t).ProgressionCalls = q.ProgressionCalls ++ l ∧
      ((ChangeStatus P q t).Status = ESuqsQuestStatus.Incomplete →
        (q.Status = ESuqsQuestStatus.Incomplete ∧ l = [] ∧
          (ChangeStatus P q t).ResolveBarrier = q.ResolveBarrier) ∨
        (ProgressionCall.RaiseQuestReset ∈ l ∧
          ProgressionCall.GetResolveBarrierForQuest ESuqsQuestStatus.Incomplete ∈ l ∧
          (ChangeStatus P q t).ResolveBarrier =
            P.GetResolveBarrierForQuest q.QuestDefinition ESuqsQuestStatus.Incomplete)) := by
  have hst := (ChangeStatus_frame P q t).2.2.2.1
  by_cases h : q.Status = t
  · refine ⟨[], ?_, ?_⟩
    · rw [ChangeStatus_eq, if_pos h]
      simp
    · intro hinc
      left
      rw [hst] at hinc
      rw [ChangeStatus_eq, if_pos h]
      exact ⟨h.trans hinc, rfl, rfl⟩
  · rw [hst]
    rw [ChangeStatus_eq, if_neg h, MaybeNotifyStatusChange_eq]
    by_cases hcl :
        (P.GetResolveBarrierForQuest q.QuestDefinition t).bPending = true ∧
        (t = ESuqsQuestStatus.Completed ∨ t = ESuqsQuestStatus.Failed) ∧
        bCleared P
          { q with
            Status := t,
            ResolveBarrier := P.GetResolveBarrierForQuest q.QuestDefinition t,
            ProgressionCalls := q.ProgressionCalls ++ LifecycleCalls t ++
              [ProgressionCall.GetResolveBarrierForQuest t] } = true
    · rw [if_pos hcl]
      refine ⟨LifecycleCalls t ++ [ProgressionCall.GetResolveBarrierForQuest t,
        ProgressionCall.ProcessQuestStatusChange], by simp [Cleared], ?_⟩
      intro hinc
      rcases hcl.2.1 with h2 | h2 <;> rw [h2] at hinc <;> exact absurd hinc (by decide)
    · rw [if_neg hcl]
      refine ⟨LifecycleCalls t ++ [ProgressionCall.GetResolveBarrierForQuest t],
        by simp, ?_⟩
      intro hinc
      right
      subst hinc
      simp [LifecycleCalls]

/-- The same for a whole rescan. -/
theorem NotifyObjectiveStatusChanged_trace (P : USuqsProgression) (q : USuqsQuestState) :
    ∃ l : List ProgressionCall,
      (NotifyObjectiveStatusChanged P q).ProgressionCalls = q.ProgressionCalls ++ l ∧
      ((NotifyObjectiveStatusChanged P q).Status = ESuqsQuestStatus.Incomplete →
        (q.Status = ESuqsQuestStatus.Incomplete ∧
          (NotifyObjectiveStatusChanged P q).ResolveBarrier = q.ResolveBarrier) ∨
        (ProgressionCall.RaiseQuestReset ∈ l ∧
          ProgressionCall.GetResolveBarrierForQuest ESuqsQuestStatus.Incomplete ∈ l ∧
          (NotifyObjectiveStatusChanged P q).ResolveBarrier =
            P.GetResolveBarrierForQuest q.QuestDefinition ESuqsQuestStatus.Incomplete)) := by
  have hcs : ∀ t : ESuqsQuestStatus, _ := fun t => ChangeStatus_trace P
    { q with CurrentObjectiveIndex := (ScanObjectives q q.Objectives 0 false).1 } t
  rw [NotifyObjectiveStatusChanged_eq]
  split_ifs with h1 h2 h3
  · obtain ⟨l, hl, hi⟩ := hcs ESuqsQuestStatus.Failed
    refine ⟨l, hl, fun hinc => ?_⟩
    rcases hi hinc with ⟨a, _, c⟩ | ⟨a, b, c⟩
    · exact Or.inl ⟨a, c⟩
    · exact Or.inr ⟨a, b, c⟩
  · obtain ⟨l, hl, hi⟩ := hcs ESuqsQuestStatus.Completed
    refine ⟨l, hl, fun hinc => ?_⟩
    rcases hi hinc with ⟨a, _, c⟩ | ⟨a, b, c⟩
    · exact Or.inl ⟨a, c⟩
    · exact Or.inr ⟨a, b, c⟩
  · obtain ⟨l, hl, hi⟩ := hcs ESuqsQuestStatus.Incomplete
    refine ⟨l ++ [ProgressionCall.RaiseCurrentObjectiveChanged], by simp [Raise, hl],
      fun hinc => ?_⟩
    rcases hi hinc with ⟨a, _, c⟩ | ⟨a, b, c⟩
    · exact Or.inl ⟨a, c⟩
    · exact Or.inr ⟨by simp [a], by simp [b], c⟩
  · obtain ⟨l, hl, hi⟩ := hcs ESuqsQuestStatus.Incomplete
    refine ⟨l, hl, fun hinc => ?_⟩
    rcases hi hinc with ⟨a, _, c⟩ | ⟨a, b, c⟩
    · exact Or.inl ⟨a, c⟩
    · exact Or.inr ⟨a, b, c⟩

/-- A rescan run on a state `x` that differs from `s` in objectives and branches only keeps the
trace relation with the quest before the reset. -/
theorem ReturnTrace_rescan (P : USuqsProgression) (q s x : USuqsQuestState)
    (hs : ReturnTrace P q s) (hdef : s.QuestDefinition = q.QuestDefinition)
    (h1 : x.Status = s.Status) (h2 : x.ResolveBarrier = s.ResolveBarrier)
    (h3 : x.ProgressionCalls = s.ProgressionCalls)
    (h4 : x.QuestDefinition = s.QuestDefinition) :
    ReturnTrace P q (NotifyObjectiveStatusChanged P x) := by
  obtain ⟨l, hl, hi⟩ := hs
  obtain ⟨l2, hl2, hi2⟩ := NotifyObjectiveStatusChanged_trace P x
  refine ⟨l ++ l2, by rw [hl2, h3, hl, List.append_assoc], ?_⟩
  intro hq hinc
  rcases hi2 hinc with ⟨a, c⟩ | ⟨a, b, c⟩
  · obtain ⟨r1, r2, r3⟩ := hi hq (h1 ▸ a)
    exact ⟨by simp [r1], by simp [r2], by rw [c, h2, r3]⟩
  · exact ⟨by simp [a], by simp [b], by rw [c, h4, hdef]⟩

theorem ResetPrefix_zero (P : USuqsProgression) (q : USuqsQuestState) :
    ResetPrefix P q 0 q := by
  refine ⟨fun j => ?_, rfl, rfl, fun h => h, ⟨[], by simp, fun h1 h2 => absurd h2 h1⟩⟩
  cases q.Objectives[j]? <;> simp

theorem ResetPrefix_step (P : USuqsProgression) (q s : USuqsQuestState) (k : Nat)
    (h : ResetPrefix P q k s) : ResetPrefix P q (k + 1) (ObjectiveReset P s k) := by
  obtain ⟨hobj, hbr, hdef, hcons, htr⟩ := h
  unfold ObjectiveReset ObjectiveChangeStatus
  cases hk : s.Objectives[k]? with
  | none =>
    simp only []
    refine ⟨fun j => ?_, hbr, hdef, hcons, htr⟩
    rw [hobj j]
    by_cases hjk : j = k
    · subst hjk
      have := hobj j
      rw [hk] at this
      cases hq : q.Objectives[j]? with
      | none => rfl
      | some Obj => rw [hq] at this; simp at this
    · have : (j < k + 1) = (j < k) := by
        apply propext
        omega
      simp only [this]
  | some Obj =>
    simp only []
    by_cases hst : Obj.Status = ESuqsObjectiveStatus.Incomplete
    · rw [if_neg (fun hne => hne hst)]
      refine ⟨fun j => ?_, hbr, hdef, hcons, htr⟩
      rw [hobj j]
      by_cases hjk : j = k
      · subst hjk
        have := hobj j
        rw [hk] at this
        cases hq : q.Objectives[j]? with
        | none => rfl
        | some Obj2 =>
          rw [hq] at this
          simp only [Option.map_some', lt_self_iff_false, if_false, Option.some.injEq] at this
          subst this
          simp only [Option.map_some', Nat.lt_succ_self, if_true, lt_self_iff_false, if_false]
          congr 1
          cases Obj
          simp only [USuqsObjectiveState.mk.injEq, true_and]
          exact hst
      · have : (j < k + 1) = (j < k) := by
          apply propext
          omega
        simp only [this]
    · rw [if_pos hst]
      obtain ⟨ho, hb, hd, _, _⟩ := NotifyObjectiveStatusChanged_frame P
        { s with Objectives :=
            s.Objectives.set k { Obj with Status := ESuqsObjectiveStatus.Incomplete } }
      refine ⟨fun j => ?_, by rw [hb]; exact hbr, by rw [hd]; exact hdef,
        fun _ => NotifyObjectiveStatusChanged_consistent P _,
        ReturnTrace_rescan P q s _ htr hdef rfl rfl rfl rfl⟩
      rw [ho]
      simp only []
      by_cases hjk : j = k
      · subst hjk
        have hlt : j < s.Objectives.length := by
          rcases List.getElem?_eq_some_iff.1 hk with ⟨h1, _⟩
          exact h1
        rw [List.getElem?_set_self hlt]
        have := hobj j
        rw [hk] at this
        cases hq : q.Objectives[j]? with
        | none => rw [hq] at this; simp at this
        | some Obj2 =>
          rw [hq] at this
          simp only [Option.map_some', lt_self_iff_false, if_false, Option.some.injEq] at this
          subst this
          simp
      · rw [List.getElem?_set_ne (fun h => hjk h.symm), hobj j]
        have : (j < k + 1) = (j < k) := by
          apply propext
          omega
        simp only [this]

/-- The loop of `Reset` over the first `k` objectives. -/
theorem ResetPrefix_fold (P : USuqsProgression) (q : USuqsQuestState) :
    ∀ k : Nat, ResetPrefix P q k
      ((List.range k).foldl (fun s i => ObjectiveReset P s i) q) := by
  intro k
  induction k with
  | zero => exact ResetPrefix_zero P q
  | succ k ih =>
    rw [List.range_succ, List.foldl_append]
    exact ResetPrefix_step P q _ k ih

/-- C8 as stated fails.  Resetting a failed quest under a policy that demands an explicit
resolve does ask the controller for a barrier record, for the status `Incomplete`, and stores
it, pending.  And a quest without objectives stays `Completed` through a reset. -/
theorem C8_reset_fetches_and_stores_a_barrier :
    FailedQuest.Status = DerivedStatus FailedQuest ∧
    (Reset ExplicitProgression FailedQuest).Status = ESuqsQuestStatus.Incomplete ∧
    NewCalls FailedQuest (Reset ExplicitProgression FailedQuest) =
      [ProgressionCall.RaiseQuestReset,
        ProgressionCall.GetResolveBarrierForQuest ESuqsQuestStatus.Incomplete,
        ProgressionCall.RaiseCurrentObjectiveChanged] ∧
    (Reset ExplicitProgression FailedQuest).ResolveBarrier.bPending = true ∧
    (Reset PlainProgression
      { FreshQuest [] with Status := ESuqsQuestStatus.Completed }).Status
      = ESuqsQuestStatus.Completed := by
  decide

/-- C8 (amended): after `Reset` the active branches are the default ones of the definition and
every objective is incomplete.  If the stored status was the derived one, the status after the
reset is `Incomplete` when some objective is unbranched or on a default branch, and `Completed`
when there is none.  A return from another status to `Incomplete` is a genuine transition:
`RaiseQuestReset` is raised, the controller is asked for the barrier record for `Incomplete`
and the record it returns is stored as it is.  In the status `Incomplete` the quest is not
resolve-blocked. -/
theorem C8_reset_restores_defaults_and_fetches_barrier (P : USuqsProgression)
    (q : USuqsQuestState) :
    (Reset P q).ActiveBranches = q.QuestDefinition.DefaultActiveBranches ∧
    (Reset P q).Objectives =
      q.Objectives.map (fun Obj => { Obj with Status := ESuqsObjectiveStatus.Incomplete }) ∧
    (q.Status = DerivedStatus q →
      ((∃ Obj ∈ q.Objectives, OnDefaultBranch q Obj = true) →
        (Reset P q).Status = ESuqsQuestStatus.Incomplete) ∧
      ((¬ ∃ Obj ∈ q.Objectives, OnDefaultBranch q Obj = true) →
        (Reset P q).Status = ESuqsQuestStatus.Completed)) ∧
    (q.Status ≠ ESuqsQuestStatus.Incomplete →
      (Reset P q).Status = ESuqsQuestStatus.Incomplete →
      ProgressionCall.RaiseQuestReset ∈ NewCalls q (Reset P q) ∧
      ProgressionCall.GetResolveBarrierForQuest ESuqsQuestStatus.Incomplete ∈
        NewCalls q (Reset P q) ∧
      (Reset P q).ResolveBarrier =
        P.GetResolveBarrierForQuest q.QuestDefinition ESuqsQuestStatus.Incomplete) ∧
    ((Reset P q).Status = ESuqsQuestStatus.Incomplete → IsResolveBlocked (Reset P q) = false) := by
  obtain ⟨hobj, hbr, hdef, hcons, htr⟩ := ResetPrefix_fold P q q.Objectives.length
  -- the objectives once the loop has run
  have hobjs : ((List.range q.Objectives.length).foldl
      (fun s i => ObjectiveReset P s i) q).Objectives =
      q.Objectives.map (fun Obj => { Obj with Status := ESuqsObjectiveStatus.Incomplete }) := by
    apply List.ext_getElem?
    intro j
    rw [hobj j, List.getElem?_map]
    cases hq : q.Objectives[j]? with
    | none => rfl
    | some Obj =>
      have hlt : j < q.Objectives.length := by
        rcases List.getElem?_eq_some_iff.1 hq with ⟨h1, _⟩
        exact h1
      simp [hlt]
  -- the five facts about the final state
  have key : (Reset P q).ActiveBranches = q.QuestDefinition.DefaultActiveBranches ∧
      (Reset P q).Objectives =
        q.Objectives.map (fun Obj => { Obj with Status := ESuqsObjectiveStatus.Incomplete }) ∧
      (q.Status = DerivedStatus q → (Reset P q).Status = DerivedStatus (Reset P q)) ∧
      ReturnTrace P q (Reset P q) := by
    unfold Reset ResetBranches
    simp only []
    split_ifs with hne
    · obtain ⟨ho, hb, _, _, _⟩ := NotifyObjectiveStatusChanged_frame P
        { (List.range q.Objectives.length).foldl (fun s i => ObjectiveReset P s i) q with
          ActiveBranches := ((List.range q.Objectives.length).foldl
            (fun s i => ObjectiveReset P s i) q).QuestDefinition.DefaultActiveBranches }
      refine ⟨by rw [hb]; simp only []; rw [hdef], by rw [ho]; exact hobjs,
        fun _ => NotifyObjectiveStatusChanged_consistent P _,
        ReturnTrace_rescan P q _ _ htr hdef rfl rfl rfl rfl⟩
    · refine ⟨?_, hobjs, hcons, htr⟩
      rw [← hdef]
      exact not_not.1 hne
  obtain ⟨k1, k2, k3, k4⟩ := key
  have hall : ∀ Obj ∈ (Reset P q).Objectives, Obj.Status = ESuqsObjectiveStatus.Incomplete := by
    rw [k2]
    intro Obj hmem
    rw [List.mem_map] at hmem
    obtain ⟨Obj2, _, h2⟩ := hmem
    rw [← h2]
  have hex : (∃ Obj ∈ (Reset P q).Objectives, IsBranchActive (Reset P q) Obj.GetBranch = true) ↔
      (∃ Obj ∈ q.Objectives, OnDefaultBranch q Obj = true) := by
    rw [k2]
    constructor
    · rintro ⟨Obj, hmem, hact⟩
      rw [List.mem_map] at hmem
      obtain ⟨Obj2, h1, h2⟩ := hmem
      refine ⟨Obj2, h1, ?_⟩
      rw [← h2] at hact
      simp only [IsBranchActive, k1, USuqsObjectiveState.GetBranch] at hact
      simp only [OnDefaultBranch, USuqsObjectiveState.GetBranch]
      by_cases hn : IsNone Obj2.Branch = true
      · simp [hn]
      · simpa [hn] using hact
    · rintro ⟨Obj, hmem, hact⟩
      refine ⟨{ Obj with Status := ESuqsObjectiveStatus.Incomplete },
        List.mem_map.2 ⟨Obj, hmem, rfl⟩, ?_⟩
      simp only [IsBranchActive, k1, USuqsObjectiveState.GetBranch]
      simp only [OnDefaultBranch, USuqsObjectiveState.GetBranch] at hact
      by_cases hn : IsNone Obj.Branch = true
      · simp [hn]
      · simpa [hn] using hact
  refine ⟨k1, k2, ?_, ?_, ?_⟩
  · intro hd
    obtain ⟨d1, d2⟩ := DerivedStatus_all_incomplete (Reset P q) hall
    rw [k3 hd]
    exact ⟨fun h => d1 (hex.2 h), fun h => d2 (fun h2 => h (hex.1 h2))⟩
  · intro hq hinc
    obtain ⟨l, hl, hi⟩ := k4
    rw [NewCalls_of_append q _ l hl]
    exact hi hq hinc
  · intro hinc
    simp [IsResolveBlocked, IsCompleted, IsFailed, hinc]

/-- The facts of C8 on the failed quest `FailedQuest`, reset under a policy that demands an
explicit resolve. -/
theorem C8_reset_restores_defaults_and_fetches_barrier_witness :
    (Reset ExplicitProgression FailedQuest).Status = ESuqsQuestStatus.Incomplete ∧
    (ProgressionCall.RaiseQuestReset ∈
        NewCalls FailedQuest (Reset ExplicitProgression FailedQuest) ∧
      ProgressionCall.GetResolveBarrierForQuest ESuqsQuestStatus.Incomplete ∈
        NewCalls FailedQuest (Reset ExplicitProgression FailedQuest) ∧
      (Reset ExplicitProgression FailedQuest).ResolveBarrier =
        ExplicitProgression.GetResolveBarrierForQuest FailedQuest.QuestDefinition
          ESuqsQuestStatus.Incomplete) :=
  have h := C8_reset_restores_defaults_and_fetches_barrier ExplicitProgression FailedQuest
  have hinc := (h.2.2.1 (by decide)).1 (by decide)
  ⟨hinc, h.2.2.2.1 (by decide) hinc⟩

/-! ## Branch control -/

/-- C11: `SetBranchActive` with the name `None`, activating a branch that is active and
deactivating a branch that is not active leave the quest exactly as it is, calls on the
controller included, and so does `ResetBranches` when the active set is the default set.  When
the membership changes, the result is one rescan run on the quest with the branch added, the
branch removed, or the default set installed. -/
theorem C11_branch_noops_and_single_rescan (P : USuqsProgression) (q : USuqsQuestState)
    (Branch : FName) :
    (∀ bActive : Bool, IsNone Branch = true → SetBranchActive P q Branch bActive = q) ∧
    (Branch ∈ q.ActiveBranches → SetBranchActive P q Branch true = q) ∧
    (Branch ∉ q.ActiveBranches → SetBranchActive P q Branch false = q) ∧
    (q.ActiveBranches = q.QuestDefinition.DefaultActiveBranches → ResetBranches P q = q) ∧
    (IsNone Branch = false → Branch ∉ q.ActiveBranches →
      SetBranchActive P q Branch true =
        NotifyObjectiveStatusChanged P
          { q with ActiveBranches := insert Branch q.ActiveBranches }) ∧
    (IsNone Branch = false → Branch ∈ q.ActiveBranches →
      SetBranchActive P q Branch false =
        NotifyObjectiveStatusChanged P
          { q with ActiveBranches := q.ActiveBranches.erase Branch }) ∧
    (q.ActiveBranches ≠ q.QuestDefinition.DefaultActiveBranches →
      ResetBranches P q =
        NotifyObjectiveStatusChanged P
          { q with ActiveBranches := q.QuestDefinition.DefaultActiveBranches }) := by
  refine ⟨?_, ?_, ?_, ?_, ?_, ?_, ?_⟩
  · intro bActive hn
    simp [SetBranchActive, hn]
  · intro hmem
    by_cases hn : IsNone Branch = true
    · simp [SetBranchActive, hn]
    · simp [SetBranchActive, hn, hmem]
  · intro hmem
    by_cases hn : IsNone Branch = true
    · simp [SetBranchActive, hn]
    · simp [SetBranchActive, hn, hmem, Finset.erase_eq_of_not_mem hmem]
  · intro h
    simp [ResetBranches, h]
  · intro hn hmem
    simp [SetBranchActive, hn, hmem]
  · intro hn hmem
    simp [SetBranchActive, hn, hmem]
  · intro h
    simp [ResetBranches, h]

/-- The cases of C11 on a quest whose active branches are 5 and 6 although the definition has
no default branch: branch 5 is active, branch 7 is not. -/
theorem C11_branch_noops_and_single_rescan_witness :
    SetBranchActive PlainProgression
        { FreshQuest [] with ActiveBranches := {5, 6} } 5 true =
      { FreshQuest [] with ActiveBranches := {5, 6} } ∧
    SetBranchActive PlainProgression
        { FreshQuest [] with ActiveBranches := {5, 6} } 5 false =
      NotifyObjectiveStatusChanged PlainProgression
        { FreshQuest [] with ActiveBranches := ({5, 6} : Finset FName).erase 5 } ∧
    ResetBranches PlainProgression { FreshQuest [] with ActiveBranches := {5, 6} } =
      NotifyObjectiveStatusChanged PlainProgression
        { FreshQuest [] with ActiveBranches := ∅ } :=
  have h := C11_branch_noops_and_single_rescan PlainProgression
    { FreshQuest [] with ActiveBranches := {5, 6} } 5
  ⟨h.2.1 (by decide), h.2.2.2.2.2.1 (by decide) (by decide), h.2.2.2.2.2.2 (by decide)⟩

/-! ## Idempotence of the rescan -/

/-- A rescan run on the result of a rescan changes nothing. -/
theorem NotifyObjectiveStatusChanged_idem (P P2 : USuqsProgression) (q : USuqsQuestState) :
    NotifyObjectiveStatusChanged P2 (NotifyObjectiveStatusChanged P q) =
      NotifyObjectiveStatusChanged P q := by
  obtain ⟨ho, hb, _, hidx, hst⟩ := NotifyObjectiveStatusChanged_frame P q
  have hscan : ScanObjectives (NotifyObjectiveStatusChanged P q)
      (NotifyObjectiveStatusChanged P q).Objectives 0 false =
      ScanObjectives q q.Objectives 0 false := by
    rw [ho, ScanObjectives_congr q _ hb]
  have hself : { NotifyObjectiveStatusChanged P q with
      CurrentObjectiveIndex := (ScanObjectives q q.Objectives 0 false).1 } =
      NotifyObjectiveStatusChanged P q := by
    rw [← hidx]
  rw [NotifyObjectiveStatusChanged_eq P2, hscan, hself]
  by_cases hf : (ScanObjectives q q.Objectives 0 false).2 = true
  · rw [if_pos hf, ChangeStatus_eq, if_pos (by rw [hst, if_pos hf])]
  · rw [if_neg hf]
    by_cases hm : (ScanObjectives q q.Objectives 0 false).1 = -1
    · rw [if_pos hm, ChangeStatus_eq, if_pos (by rw [hst, if_neg hf, if_pos hm])]
    · rw [if_neg hm, if_neg (fun h => h hidx),
        ChangeStatus_eq, if_pos (by rw [hst, if_neg hf, if_neg hm])]

/-- A rescan changes nothing in a quest whose stored status and index are the derived ones. -/
theorem NotifyObjectiveStatusChanged_fixed (P : USuqsProgression) (r : USuqsQuestState)
    (hst : r.Status = DerivedStatus r)
    (hidx : r.CurrentObjectiveIndex = (ScanObjectives r r.Objectives 0 false).1) :
    NotifyObjectiveStatusChanged P r = r := by
  have hself : { r with
      CurrentObjectiveIndex := (ScanObjectives r r.Objectives 0 false).1 } = r := by
    rw [← hidx]
  unfold DerivedStatus at hst
  rw [NotifyObjectiveStatusChanged_eq P, hself]
  by_cases hf : (ScanObjectives r r.Objectives 0 false).2 = true
  · rw [if_pos hf] at hst
    rw [if_pos hf, ChangeStatus_eq, if_pos hst]
  · rw [if_neg hf] at hst
    rw [if_neg hf]
    by_cases hm : (ScanObjectives r r.Objectives 0 false).1 = -1
    · rw [if_pos hm] at hst
      rw [if_pos hm, ChangeStatus_eq, if_pos hst]
    · rw [if_neg hm] at hst
      rw [if_neg hm, if_neg (fun h => h hidx), ChangeStatus_eq, if_pos hst]

/-- C18: a second rescan, with objectives and active branches as the first left them, returns
the quest exactly as the first left it: status, current index, barrier record and the calls
made on the controller; the same holds of a rescan of any quest whose stored status and index
are the derived ones, whatever its barrier record.  Status and index after a rescan are the
same for any two quests with the same objectives and the same active branches, whatever their
stored status and index; in particular a status set by `OverrideStatus` is replaced by the
derived one. -/
theorem C18_rescan_idempotent_history_free (P P2 : USuqsProgression) (q : USuqsQuestState) :
    NotifyObjectiveStatusChanged P2 (NotifyObjectiveStatusChanged P q) =
      NotifyObjectiveStatusChanged P q ∧
    (q.Status = DerivedStatus q →
      q.CurrentObjectiveIndex = (ScanObjectives q q.Objectives 0 false).1 →
      NotifyObjectiveStatusChanged P q = q) ∧
    (∀ r : USuqsQuestState, r.Objectives = q.Objectives →
      r.ActiveBranches = q.ActiveBranches →
      (NotifyObjectiveStatusChanged P2 r).Status = (NotifyObjectiveStatusChanged P q).Status ∧
      (NotifyObjectiveStatusChanged P2 r).CurrentObjectiveIndex =
        (NotifyObjectiveStatusChanged P q).CurrentObjectiveIndex) ∧
    (∀ t : ESuqsQuestStatus,
      (NotifyObjectiveStatusChanged P2 (OverrideStatus P q t)).Status = DerivedStatus q ∧
      (NotifyObjectiveStatusChanged P q).Status = DerivedStatus q) := by
  have hpair : ∀ r : USuqsQuestState, r.Objectives = q.Objectives →
      r.ActiveBranches = q.ActiveBranches →
      (NotifyObjectiveStatusChanged P2 r).Status = (NotifyObjectiveStatusChanged P q).Status ∧
      (NotifyObjectiveStatusChanged P2 r).CurrentObjectiveIndex =
        (NotifyObjectiveStatusChanged P q).CurrentObjectiveIndex := by
    intro r ho hb
    obtain ⟨_, _, _, hidx, _⟩ := NotifyObjectiveStatusChanged_frame P q
    obtain ⟨_, _, _, hidx2, _⟩ := NotifyObjectiveStatusChanged_frame P2 r
    refine ⟨?_, ?_⟩
    · rw [NotifyObjectiveStatusChanged_status, NotifyObjectiveStatusChanged_status,
        DerivedStatus_congr q r hb ho]
    · rw [hidx, hidx2, ho, ScanObjectives_congr q r hb]
  refine ⟨NotifyObjectiveStatusChanged_idem P P2 q,
    NotifyObjectiveStatusChanged_fixed P q, hpair, ?_⟩
  intro t
  refine ⟨?_, NotifyObjectiveStatusChanged_status P q⟩
  rw [(hpair (OverrideStatus P q t) (ChangeStatus_frame P q t).1
    (ChangeStatus_frame P q t).2.1).1]
  exact NotifyObjectiveStatusChanged_status P q

/-- Two quests with the same single failed objective, one stored as `Incomplete` with index 0
and one stored as `Completed` with index -1, come out of the rescan with the same status
and index. -/
theorem C18_rescan_idempotent_history_free_witness :
    (NotifyObjectiveStatusChanged ExplicitProgression
      { FailedQuest with Status := ESuqsQuestStatus.Completed }).Status =
      (NotifyObjectiveStatusChanged PlainProgression
        { FailedQuest with
          Status := ESuqsQuestStatus.Incomplete, CurrentObjectiveIndex := 0 }).Status ∧
    (NotifyObjectiveStatusChanged ExplicitProgression
      { FailedQuest with Status := ESuqsQuestStatus.Completed }).CurrentObjectiveIndex =
      (NotifyObjectiveStatusChanged PlainProgression
        { FailedQuest with
          Status := ESuqsQuestStatus.Incomplete,
          CurrentObjectiveIndex := 0 }).CurrentObjectiveIndex :=
  (C18_rescan_idempotent_history_free PlainProgression ExplicitProgression
    { FailedQuest with
      Status := ESuqsQuestStatus.Incomplete, CurrentObjectiveIndex := 0 }).2.2.1
    { FailedQuest with Status := ESuqsQuestStatus.Completed } rfl rfl

/-! ## The description -/

/-- C20: `GetDescription` returns the completed description exactly when the status is
`Completed` and that text is not empty; in every other case it returns the active
description. -/
theorem C20_description_by_status (q : USuqsQuestState) :
    (GetDescriptionMember q = DescriptionMember.DescriptionWhenCompleted ↔
      (q.Status = ESuqsQuestStatus.Completed ∧
        q.QuestDefinition.DescriptionWhenCompleted.isEmpty = false)) ∧
    (GetDescriptionMember q = DescriptionMember.DescriptionWhenActive ↔
      ¬ (q.Status = ESuqsQuestStatus.Completed ∧
        q.QuestDefinition.DescriptionWhenCompleted.isEmpty = false)) ∧
    GetDescription q =
      (if q.Status = ESuqsQuestStatus.Completed ∧
          q.QuestDefinition.DescriptionWhenCompleted.isEmpty = false
        then q.QuestDefinition.DescriptionWhenCompleted
        else q.QuestDefinition.DescriptionWhenActive) := by
  unfold GetDescription GetDescriptionMember
  cases hs : q.Status <;>
    cases he : q.QuestDefinition.DescriptionWhenCompleted.isEmpty <;>
    simp [FSuqsQuest.Text]

/-! ## The current-index invariant -/

theorem IndexValid_congr (q r : USuqsQuestState)
    (hi : r.CurrentObjectiveIndex = q.CurrentObjectiveIndex)
    (hl : r.Objectives.length = q.Objectives.length) (h : IndexValid q) : IndexValid r := by
  unfold IndexValid at h ⊢
  rw [hi, hl]
  exact h

/-- The index a rescan stores is -1 or the index of an objective. -/
theorem IndexValid_rescan (P : USuqsProgression) (q : USuqsQuestState) :
    IndexValid (NotifyObjectiveStatusChanged P q) := by
  obtain ⟨ho, _, _, hidx, _⟩ := NotifyObjectiveStatusChanged_frame P q
  unfold IndexValid
  rw [hidx, ho]
  rcases scan_index_cases q with ⟨h1, _⟩ | ⟨i, h1, h2, _⟩
  · exact Or.inl h1
  · right
    rw [h1]
    have hlt : i < q.Objectives.length := by
      by_contra hge
      rw [ActiveIncompleteAt_of_length_le q i (by omega)] at h2
      exact absurd h2 (by simp)
    omega

theorem IndexValid_MaybeNotifyStatusChange (P : USuqsProgression) (q : USuqsQuestState)
    (h : IndexValid q) : IndexValid (MaybeNotifyStatusChange P q) := by
  obtain ⟨ho, _, hi, _, _⟩ := MaybeNotifyStatusChange_frame P q
  exact IndexValid_congr q _ hi (by rw [ho]) h

theorem IndexValid_ObjectiveChangeStatus (P : USuqsProgression) (q : USuqsQuestState)
    (i : Nat) (NewStatus : ESuqsObjectiveStatus) (h : IndexValid q) :
    IndexValid (ObjectiveChangeStatus P q i NewStatus) := by
  unfold ObjectiveChangeStatus
  split
  · exact h
  · split_ifs
    · exact IndexValid_rescan P _
    · exact h

theorem foldl_invariant {α β : Type} (Inv : α → Prop) (f : α → β → α)
    (hstep : ∀ a b, Inv a → Inv (f a b)) :
    ∀ (l : List β) (a : α), Inv a → Inv (l.foldl f a) := by
  intro l
  induction l with
  | nil => intro a h; exact h
  | cons b l ih => intro a h; exact ih (f a b) (hstep a b h)

/-- C19: the index stored by a rescan, and so the index after `Initialise`, is -1 or the
index of an objective; with such an index `GetCurrentObjective` returns no objective exactly
when the index is -1 and otherwise the objective at that index; every operation keeps the
index -1 or the index of an objective; the barrier evaluation, `Resolve`, `SetResolveBarrier`
and `OverrideStatus` leave the index as it is, and so do `Tick` and `NotifyGateOpened` when the
objective collaborator changes no objective state. -/
theorem C19_current_index_invariant (P : USuqsProgression) (O : ObjectiveCollaborator)
    (q : USuqsQuestState) :
    IndexValid (NotifyObjectiveStatusChanged P q) ∧
    (∀ Def : FSuqsQuest, IndexValid (Initialise P q Def)) ∧
    (IndexValid q →
      (GetCurrentObjective q = none ↔ q.CurrentObjectiveIndex = -1) ∧
      (q.CurrentObjectiveIndex ≠ -1 →
        ∃ Obj : USuqsObjectiveState, GetCurrentObjective q = some Obj ∧
          q.Objectives[q.CurrentObjectiveIndex.toNat]? = some Obj)) ∧
    (IndexValid q →
      ∀ (Branch : FName) (bActive : Bool) (DeltaTime : Int) (GateName : FName),
        IndexValid (SetBranchActive P q Branch bActive) ∧
        IndexValid (ResetBranches P q) ∧
        IndexValid (Reset P q) ∧
        IndexValid (Tick P O q DeltaTime) ∧
        IndexValid (NotifyGateOpened P O q GateName)) ∧
    ((MaybeNotifyStatusChange P q).CurrentObjectiveIndex = q.CurrentObjectiveIndex ∧
      (Resolve P q).CurrentObjectiveIndex = q.CurrentObjectiveIndex ∧
      (∀ Barrier : FSuqsResolveBarrierStateData,
        (SetResolveBarrier P q Barrier).CurrentObjectiveIndex = q.CurrentObjectiveIndex) ∧
      (∀ t : ESuqsQuestStatus,
        (OverrideStatus P q t).CurrentObjectiveIndex = q.CurrentObjectiveIndex)) ∧
    (Quiet O q → ∀ (DeltaTime : Int) (GateName : FName),
      (Tick P O q DeltaTime).CurrentObjectiveIndex = q.CurrentObjectiveIndex ∧
      (NotifyGateOpened P O q GateName).CurrentObjectiveIndex = q.CurrentObjectiveIndex) := by
  refine ⟨IndexValid_rescan P q, fun Def => IndexValid_rescan P _, ?_, ?_, ?_, ?_⟩
  · intro h
    unfold GetCurrentObjective
    rcases h with h | ⟨h1, h2⟩
    · refine ⟨?_, fun hne => absurd h hne⟩
      rw [h]
      simp
    · have hlt : q.CurrentObjectiveIndex.toNat < q.Objectives.length := by omega
      rw [if_pos ⟨h1, h2⟩]
      refine ⟨?_, fun _ => ⟨q.Objectives[q.CurrentObjectiveIndex.toNat],
        List.getElem?_eq_getElem hlt, List.getElem?_eq_getElem hlt⟩⟩
      constructor
      · intro hnone
        rw [List.getElem?_eq_getElem hlt] at hnone
        exact absurd hnone (by simp)
      · intro hm
        omega
  · intro h Branch bActive DeltaTime GateName
    refine ⟨?_, ?_, ?_, ?_, ?_⟩
    · unfold SetBranchActive
      simp only []
      split_ifs <;>
        first
        | exact h
        | exact IndexValid_rescan P _
    · unfold ResetBranches
      split_ifs
      · exact IndexValid_rescan P _
      · exact h
    · unfold Reset ResetBranches
      simp only []
      split_ifs
      · exact IndexValid_rescan P _
      · exact foldl_invariant IndexValid _
          (fun s i hs => IndexValid_ObjectiveChangeStatus P s i _ hs) _ q h
    · unfold Tick
      simp only []
      apply IndexValid_MaybeNotifyStatusChange
      have h1 : IndexValid
          (if IsResolveBlockedOn q ESuqsResolveBarrierCondition.Time = true then
            { q with ResolveBarrier :=
                { q.ResolveBarrier with
                  TimeRemaining := max (q.ResolveBarrier.TimeRemaining - DeltaTime) 0 } }
          else q) := by
        split_ifs
        · exact IndexValid_congr q _ rfl rfl h
        · exact h
      split
      · unfold ObjectiveTick
        split
        · exact h1
        · exact IndexValid_ObjectiveChangeStatus P _ _ _ h1
      · exact h1
    · unfold NotifyGateOpened
      simp only []
      have h1 : IndexValid ((List.range q.Objectives.length).foldl
          (fun s i => ObjectiveNotifyGateOpened P O s i GateName) q) := by
        apply foldl_invariant IndexValid _ _ _ q h
        intro s i hs
        unfold ObjectiveNotifyGateOpened
        split
        · exact hs
        · exact IndexValid_ObjectiveChangeStatus P _ _ _ hs
      split_ifs
      · exact IndexValid_MaybeNotifyStatusChange P _ h1
      · exact h1
  · refine ⟨(MaybeNotifyStatusChange_frame P q).2.2.1, ?_, ?_, ?_⟩
    · unfold Resolve
      rw [(MaybeNotifyStatusChange_frame P _).2.2.1]
    · intro Barrier
      unfold SetResolveBarrier
      rw [(MaybeNotifyStatusChange_frame P _).2.2.1]
    · intro t
      exact (ChangeStatus_frame P q t).2.2.1
  · intro hO DeltaTime GateName
    refine ⟨?_, ?_⟩
    · rw [Tick_quiet P O q hO, (MaybeNotifyStatusChange_frame P _).2.2.1]
      split_ifs <;> rfl
    · rw [NotifyGateOpened_quiet P O q hO]
      split_ifs
      · exact (MaybeNotifyStatusChange_frame P q).2.2.1
      · rfl

/-- The facts of C19 on the quest left by the initialisation of `TwoObjectives`: its index is
valid, so `GetCurrentObjective` returns nothing exactly if the index is -1. -/
theorem C19_current_index_invariant_witness :
    GetCurrentObjective TwoObjectivesStarted = none ↔
      TwoObjectivesStarted.CurrentObjectiveIndex = -1 :=
  ((C19_current_index_invariant PlainProgression QuietCollaborator
    TwoObjectivesStarted).2.2.1 (Or.inr (by decide))).1

/-! ## Completion without a barrier -/

/-- With the exact subtraction `TickWith` is `Tick`. -/
theorem TickWith_exact (P : USuqsProgression) (O : ObjectiveCollaborator)
    (q : USuqsQuestState) (DeltaTime : Int) :
    TickWith (fun a b => a - b) P O q DeltaTime = Tick P O q DeltaTime := rfl

/-- With a quiet collaborator a tick only updates the barrier time and evaluates the
barrier, whatever the subtraction. -/
theorem TickWith_quiet (Sub : Int → Int → Int) (P : USuqsProgression)
    (O : ObjectiveCollaborator) (q : USuqsQuestState) (hO : Quiet O q) (DeltaTime : Int) :
    TickWith Sub P O q DeltaTime =
      MaybeNotifyStatusChange P
        (if IsResolveBlockedOn q ESuqsResolveBarrierCondition.Time = true then
          { q with ResolveBarrier :=
              { q.ResolveBarrier with
                TimeRemaining := max (Sub q.ResolveBarrier.TimeRemaining DeltaTime) 0 } }
        else q) := by
  unfold TickWith
  simp only []
  congr 1
  split
  · apply ObjectiveTick_quiet
    intro Obj hObj
    apply hO
    split_ifs at hObj <;> simpa using hObj
  · rfl

/-- Once the pending flag is down a tick with a quiet collaborator changes nothing. -/
theorem TickWith_not_pending (Sub : Int → Int → Int) (P : USuqsProgression)
    (O : ObjectiveCollaborator) (q : USuqsQuestState)
    (hp : q.ResolveBarrier.bPending = false) (hO : Quiet O q) (DeltaTime : Int) :
    TickWith Sub P O q DeltaTime = q := by
  have hblock : ∀ b, IsResolveBlockedOn q b = false := by
    intro b
    simp [IsResolveBlockedOn, hp]
  rw [TickWith_quiet Sub P O q hO, MaybeNotifyStatusChange_eq]
  simp [hblock, hp]

theorem RunTicksWith_not_pending (Sub : Int → Int → Int) (P : USuqsProgression)
    (O : ObjectiveCollaborator) (q : USuqsQuestState)
    (hp : q.ResolveBarrier.bPending = false) (hO : Quiet O q) (Deltas : List Int) :
    RunTicksWith Sub P O q Deltas = q :=
  foldl_fixed _ q (fun d => TickWith_not_pending Sub P O q hp hO d) Deltas

theorem sum_nonneg_of_all_nonneg (Deltas : List Int) (h : ∀ d ∈ Deltas, 0 ≤ d) :
    0 ≤ Deltas.sum := by
  induction Deltas with
  | nil => simp
  | cons d ds ih =>
    have h1 := h d (List.mem_cons_self d ds)
    have h2 := ih (fun x hx => h x (List.mem_cons_of_mem d hx))
    simp only [List.sum_cons]
    omega

/-- One tick on a pending time-only barrier: if the subtraction leaves a positive time, that
time is stored and nothing else happens; otherwise the time becomes zero and the barrier
clears. -/
theorem TickWith_time_barrier (Sub : Int → Int → Int) (P : USuqsProgression)
    (O : ObjectiveCollaborator) (q : USuqsQuestState)
    (hs : q.Status = ESuqsQuestStatus.Completed ∨ q.Status = ESuqsQuestStatus.Failed)
    (hp : q.ResolveBarrier.bPending = true)
    (hc : q.ResolveBarrier.Conditions = ESuqsResolveBarrierCondition.Time.mask)
    (hO : Quiet O q) (d : Int) :
    (0 < Sub q.ResolveBarrier.TimeRemaining d →
      TickWith Sub P O q d =
        { q with ResolveBarrier :=
            { q.ResolveBarrier with TimeRemaining := Sub q.ResolveBarrier.TimeRemaining d } }) ∧
    (Sub q.ResolveBarrier.TimeRemaining d ≤ 0 →
      TickWith Sub P O q d =
        Cleared { q with ResolveBarrier := { q.ResolveBarrier with TimeRemaining := 0 } }) := by
  have htime : IsResolveBlockedOn q ESuqsResolveBarrierCondition.Time = true := by
    simp only [IsResolveBlockedOn, hp, hc, ESuqsResolveBarrierCondition.mask]
    decide
  have hgate : IsResolveBlockedOn q ESuqsResolveBarrierCondition.Gate = false := by
    simp only [IsResolveBlockedOn, hp, hc, ESuqsResolveBarrierCondition.mask]
    decide
  have hexp : IsResolveBlockedOn q ESuqsResolveBarrierCondition.Explicit = false := by
    simp only [IsResolveBlockedOn, hp, hc, ESuqsResolveBarrierCondition.mask]
    decide
  have hblocked : ∀ t : Int, ∀ c : ESuqsResolveBarrierCondition,
      IsResolveBlockedOn
        { q with ResolveBarrier := { q.ResolveBarrier with TimeRemaining := t } } c =
      IsResolveBlockedOn q c := by
    intro t c
    simp [IsResolveBlockedOn]
  constructor
  · intro hpos
    have hmax : max (Sub q.ResolveBarrier.TimeRemaining d) 0 =
        Sub q.ResolveBarrier.TimeRemaining d := by
      apply max_eq_left
      omega
    have hnot : ¬ Sub q.ResolveBarrier.TimeRemaining d ≤ 0 := by omega
    rw [TickWith_quiet Sub P O q hO, if_pos htime, hmax, MaybeNotifyStatusChange_eq,
      bCleared_eq]
    simp only [hblocked, htime, hgate, hexp]
    simp [hnot]
  · intro hle
    have hmax : max (Sub q.ResolveBarrier.TimeRemaining d) 0 = 0 := by
      apply max_eq_right
      omega
    rw [TickWith_quiet Sub P O q hO, if_pos htime, hmax, MaybeNotifyStatusChange_eq,
      bCleared_eq]
    simp only [hblocked, htime, hgate, hexp]
    simp [hp, hs]

/-- The quest after a sequence of ticks on a pending time-only barrier: while every tick has
left a positive remaining time only the remaining time has changed; once a tick has brought it
to zero the barrier has cleared, once. -/
theorem RunTicksWith_time_barrier (Sub : Int → Int → Int) (P : USuqsProgression)
    (O : ObjectiveCollaborator) :
    ∀ (Deltas : List Int) (q : USuqsQuestState),
      (q.Status = ESuqsQuestStatus.Completed ∨ q.Status = ESuqsQuestStatus.Failed) →
      q.ResolveBarrier.bPending = true →
      q.ResolveBarrier.Conditions = ESuqsResolveBarrierCondition.Time.mask →
      Quiet O q →
      RunTicksWith Sub P O q Deltas =
        match RemainingWhileBlocked Sub q.ResolveBarrier.TimeRemaining Deltas with
        | some r => { q with ResolveBarrier := { q.ResolveBarrier with TimeRemaining := r } }
        | none =>
          Cleared { q with ResolveBarrier := { q.ResolveBarrier with TimeRemaining := 0 } } := by
  intro Deltas
  induction Deltas with
  | nil =>
    intro q _ _ _ _
    simp [RunTicksWith, RemainingWhileBlocked]
  | cons d ds ih =>
    intro q hs hp hc hO
    obtain ⟨hkeep, hreach⟩ := TickWith_time_barrier Sub P O q hs hp hc hO d
    have hstep : RunTicksWith Sub P O q (d :: ds) =
        RunTicksWith Sub P O (TickWith Sub P O q d) ds := rfl
    rw [hstep]
    by_cases hpos : 0 < Sub q.ResolveBarrier.TimeRemaining d
    · rw [hkeep hpos]
      have hnext := ih
        { q with ResolveBarrier :=
            { q.ResolveBarrier with TimeRemaining := Sub q.ResolveBarrier.TimeRemaining d } }
        hs hp hc (fun Obj hObj => hO Obj hObj)
      rw [hnext]
      simp only [RemainingWhileBlocked, if_pos hpos]
    · rw [hreach (by omega),
        RunTicksWith_not_pending Sub P O
          (Cleared { q with ResolveBarrier := { q.ResolveBarrier with TimeRemaining := 0 } })
          rfl (fun Obj hObj => hO Obj hObj)]
      simp only [RemainingWhileBlocked, if_neg hpos]

/-- The remaining time stays positive as long as the barrier is blocked. -/
theorem RemainingWhileBlocked_pos (Sub : Int → Int → Int) :
    ∀ (Deltas : List Int) (T r : Int), 0 < T →
      RemainingWhileBlocked Sub T Deltas = some r → 0 < r := by
  intro Deltas
  induction Deltas with
  | nil =>
    intro T r hT h
    simp only [RemainingWhileBlocked, Option.some.injEq] at h
    omega
  | cons d ds ih =>
    intro T r _ h
    simp only [RemainingWhileBlocked] at h
    split_ifs at h with hpos
    exact ih (Sub T d) r hpos h

/-- One more tick after a blocked sequence. -/
theorem RemainingWhileBlocked_append (Sub : Int → Int → Int) :
    ∀ (Deltas : List Int) (T r d : Int), RemainingWhileBlocked Sub T Deltas = some r →
      RemainingWhileBlocked Sub T (Deltas ++ [d]) =
        if 0 < Sub r d then some (Sub r d) else none := by
  intro Deltas
  induction Deltas with
  | nil =>
    intro T r d h
    simp only [RemainingWhileBlocked, Option.some.injEq] at h
    subst h
    simp [RemainingWhileBlocked]
  | cons x xs ih =>
    intro T r d h
    simp only [RemainingWhileBlocked] at h
    split_ifs at h with hpos
    simp only [List.cons_append, RemainingWhileBlocked, if_pos hpos]
    exact ih (Sub T x) r d h

/-- When no subtraction on the way rounds and no time step is negative, the barrier is
blocked exactly while the time steps sum to less than the initial time, and the remaining time
is the initial time less that sum. -/
theorem RemainingWhileBlocked_of_exact (Sub : Int → Int → Int) :
    ∀ (Deltas : List Int) (T : Int), 0 < T → (∀ d ∈ Deltas, 0 ≤ d) →
      (∀ k ∈ List.range Deltas.length,
        Sub (T - (Deltas.take k).sum) (Deltas.getD k 0) =
          T - (Deltas.take k).sum - Deltas.getD k 0) →
      RemainingWhileBlocked Sub T Deltas =
        if Deltas.sum < T then some (T - Deltas.sum) else none := by
  intro Deltas
  induction Deltas with
  | nil =>
    intro T hT _ _
    simp [RemainingWhileBlocked, hT]
  | cons d ds ih =>
    intro T hT hd hex
    have hd0 : 0 ≤ d := hd d (List.mem_cons_self d ds)
    have hds : ∀ x ∈ ds, 0 ≤ x := fun x hx => hd x (List.mem_cons_of_mem d hx)
    have hsum := sum_nonneg_of_all_nonneg ds hds
    have hfirst : Sub T d = T - d := by
      have h0 := hex 0 (by simp)
      simpa using h0
    have hrest : ∀ k ∈ List.range ds.length,
        Sub (T - d - (ds.take k).sum) (ds.getD k 0) =
          T - d - (ds.take k).sum - ds.getD k 0 := by
      intro k hk
      have hk1 : k + 1 ∈ List.range (d :: ds).length := by
        simp only [List.mem_range, List.length_cons] at hk ⊢
        omega
      have h1 := hex (k + 1) hk1
      simp only [List.take_succ_cons, List.sum_cons, List.getD_cons_succ] at h1
      have e : T - (d + (ds.take k).sum) = T - d - (ds.take k).sum := by omega
      rw [e] at h1
      exact h1
    simp only [RemainingWhileBlocked, List.sum_cons, hfirst]
    by_cases hpos : 0 < T - d
    · rw [if_pos hpos, ih (T - d) hpos hds hrest]
      by_cases h2 : ds.sum < T - d
      · rw [if_pos h2, if_pos (by omega)]
        congr 1
        omega
      · rw [if_neg h2, if_neg (by omega)]
    · rw [if_neg hpos, if_neg (by omega)]

/-- C13 as stated fails on the machine's floats.  One second remains and the quest is ticked
five times with the binary32 value nearest to 0.2 s, which is a little above 0.2 s: the time
steps add up to more than one second, yet every subtraction rounds and 2^-25 s still remain.
The quest is still resolve-blocked and `ProcessQuestStatusChange` has not been called. -/
theorem C13_rounding_keeps_barrier_blocked :
    Seconds 1 ≤
      ([FifthOfSecond, FifthOfSecond, FifthOfSecond, FifthOfSecond, FifthOfSecond] :
        List Int).sum ∧
    (RunTicksWith Binary32Sub PlainProgression QuietCollaborator (TimeQuest (Seconds 1))
      [FifthOfSecond, FifthOfSecond, FifthOfSecond, FifthOfSecond, FifthOfSecond]
      ).ResolveBarrier.TimeRemaining = 2 ^ 124 ∧
    IsResolveBlocked
      (RunTicksWith Binary32Sub PlainProgression QuietCollaborator (TimeQuest (Seconds 1))
        [FifthOfSecond, FifthOfSecond, FifthOfSecond, FifthOfSecond, FifthOfSecond]) = true ∧
    NewCalls (TimeQuest (Seconds 1))
      (RunTicksWith Binary32Sub PlainProgression QuietCollaborator (TimeQuest (Seconds 1))
        [FifthOfSecond, FifthOfSecond, FifthOfSecond, FifthOfSecond, FifthOfSecond]) = [] := by
  set_option maxRecDepth 8192 in decide

/-- C13 (amended): a quest in Completed or Failed status with a pending barrier that requires
only Time, a positive remaining time, and any sequence of ticks during which the objective
ticks change no objective state.  Each tick replaces the remaining time `r` by
`max (Binary32Sub r d) 0`, with the rounding subtraction of the machine.  As long as every tick
so far has left a positive remaining time, only the remaining time has changed: the quest is
resolve-blocked and nothing has been called.  The first tick that brings the remaining time to
zero calls `ProcessQuestStatusChange`, once, and the quest is not resolve-blocked any more;
further ticks change nothing, so over the whole sequence there is exactly one call.  When no
subtraction on the way rounds and no time step is negative, the quest is blocked exactly while
the time steps sum to less than the initial time, and the remaining time is the initial time
less that sum. -/
theorem C13_time_barrier_clears_once (P : USuqsProgression) (O : ObjectiveCollaborator)
    (q : USuqsQuestState)
    (hs : q.Status = ESuqsQuestStatus.Completed ∨ q.Status = ESuqsQuestStatus.Failed)
    (hp : q.ResolveBarrier.bPending = true)
    (hc : q.ResolveBarrier.Conditions = ESuqsResolveBarrierCondition.Time.mask)
    (hT : 0 < q.ResolveBarrier.TimeRemaining)
    (hO : Quiet O q) (Deltas : List Int) :
    (∀ r : Int,
      RemainingWhileBlocked Binary32Sub q.ResolveBarrier.TimeRemaining Deltas = some r →
      0 < r ∧
      RunTicksWith Binary32Sub P O q Deltas =
        { q with ResolveBarrier := { q.ResolveBarrier with TimeRemaining := r } } ∧
      IsResolveBlocked (RunTicksWith Binary32Sub P O q Deltas) = true ∧
      NewCalls q (RunTicksWith Binary32Sub P O q Deltas) = [] ∧
      ∀ d : Int,
        (RunTicksWith Binary32Sub P O q (Deltas ++ [d])).ResolveBarrier.TimeRemaining =
          max (Binary32Sub r d) 0 ∧
        (Binary32Sub r d ≤ 0 →
          IsResolveBlocked (RunTicksWith Binary32Sub P O q (Deltas ++ [d])) = false ∧
          NewCalls (RunTicksWith Binary32Sub P O q Deltas)
            (RunTicksWith Binary32Sub P O q (Deltas ++ [d])) =
              [ProgressionCall.ProcessQuestStatusChange])) ∧
    (RemainingWhileBlocked Binary32Sub q.ResolveBarrier.TimeRemaining Deltas = none →
      RunTicksWith Binary32Sub P O q Deltas =
        Cleared { q with ResolveBarrier := { q.ResolveBarrier with TimeRemaining := 0 } } ∧
      IsResolveBlocked (RunTicksWith Binary32Sub P O q Deltas) = false ∧
      NewCalls q (RunTicksWith Binary32Sub P O q Deltas) =
        [ProgressionCall.ProcessQuestStatusChange] ∧
      ∀ More : List Int,
        RunTicksWith Binary32Sub P O q (Deltas ++ More) =
          RunTicksWith Binary32Sub P O q Deltas) ∧
    ((∀ d ∈ Deltas, 0 ≤ d) →
      (∀ k ∈ List.range Deltas.length,
        Binary32Sub (q.ResolveBarrier.TimeRemaining - (Deltas.take k).sum) (Deltas.getD k 0) =
          q.ResolveBarrier.TimeRemaining - (Deltas.take k).sum - Deltas.getD k 0) →
      RemainingWhileBlocked Binary32Sub q.ResolveBarrier.TimeRemaining Deltas =
        if Deltas.sum < q.ResolveBarrier.TimeRemaining
        then some (q.ResolveBarrier.TimeRemaining - Deltas.sum) else none) := by
  have hrun := RunTicksWith_time_barrier Binary32Sub P O Deltas q hs hp hc hO
  refine ⟨?_, ?_, ?_⟩
  · intro r hr
    have hpos := RemainingWhileBlocked_pos Binary32Sub Deltas _ r hT hr
    rw [hr] at hrun
    have hblocked : IsResolveBlocked
        { q with ResolveBarrier := { q.ResolveBarrier with TimeRemaining := r } } = true := by
      rcases hs with hs | hs <;>
        simp [IsResolveBlocked, IsCompleted, IsFailed, hs, hp, hc,
          ESuqsResolveBarrierCondition.mask]
    refine ⟨hpos, hrun, ?_, ?_, ?_⟩
    · rw [hrun]
      exact hblocked
    · rw [hrun]
      apply NewCalls_of_append
      simp
    · intro d
      have hrun2 := RunTicksWith_time_barrier Binary32Sub P O (Deltas ++ [d]) q hs hp hc hO
      rw [RemainingWhileBlocked_append Binary32Sub Deltas _ r d hr] at hrun2
      by_cases hd : 0 < Binary32Sub r d
      · rw [if_pos hd] at hrun2
        rw [hrun2]
        refine ⟨?_, fun hle => absurd hle (by omega)⟩
        simp only []
        rw [max_eq_left (by omega)]
      · rw [if_neg hd] at hrun2
        rw [hrun2, hrun]
        refine ⟨?_, fun _ => ⟨?_, ?_⟩⟩
        · simp only [Cleared]
          rw [max_eq_right (by omega)]
        · simp [IsResolveBlocked, Cleared]
        · apply NewCalls_of_append
          simp [Cleared]
  · intro hnone
    rw [hnone] at hrun
    refine ⟨hrun, ?_, ?_, ?_⟩
    · rw [hrun]
      simp [IsResolveBlocked, Cleared]
    · rw [hrun]
      apply NewCalls_of_append
      simp [Cleared]
    · intro More
      have happ : RunTicksWith Binary32Sub P O q (Deltas ++ More) =
          RunTicksWith Binary32Sub P O (RunTicksWith Binary32Sub P O q Deltas) More := by
        simp [RunTicksWith, List.foldl_append]
      rw [happ, hrun]
      exact RunTicksWith_not_pending Binary32Sub P O
        (Cleared { q with ResolveBarrier := { q.ResolveBarrier with TimeRemaining := 0 } })
        rfl (fun Obj hObj => hO Obj hObj) More
  · intro hd hex
    exact RemainingWhileBlocked_of_exact Binary32Sub Deltas _ hT hd hex

/-- The scenario of C13 on `TimeQuest` with the subtraction of the machine: five seconds
remain; after two ticks of two seconds one second remains, the quest is still resolve-blocked
and nothing has been called; the third tick of two seconds brings the remaining time to zero
and calls `ProcessQuestStatusChange`.  No subtraction rounds here, and the quest is blocked
because the four seconds elapsed are less than the five. -/
theorem C13_time_barrier_clears_once_witness :
    (0 < Seconds 1 ∧
      RunTicksWith Binary32Sub PlainProgression QuietCollaborator (TimeQuest (Seconds 5))
        [Seconds 2, Seconds 2] = TimeQuest (Seconds 1) ∧
      IsResolveBlocked
        (RunTicksWith Binary32Sub PlainProgression QuietCollaborator (TimeQuest (Seconds 5))
          [Seconds 2, Seconds 2]) = true ∧
      NewCalls (TimeQuest (Seconds 5))
        (RunTicksWith Binary32Sub PlainProgression QuietCollaborator (TimeQuest (Seconds 5))
          [Seconds 2, Seconds 2]) = []) ∧
    ((RunTicksWith Binary32Sub PlainProgression QuietCollaborator (TimeQuest (Seconds 5))
        ([Seconds 2, Seconds 2] ++ [Seconds 2])).ResolveBarrier.TimeRemaining =
        max (Binary32Sub (Seconds 1) (Seconds 2)) 0 ∧
      IsResolveBlocked
        (RunTicksWith Binary32Sub PlainProgression QuietCollaborator (TimeQuest (Seconds 5))
          ([Seconds 2, Seconds 2] ++ [Seconds 2])) = false ∧
      NewCalls
        (RunTicksWith Binary32Sub PlainProgression QuietCollaborator (TimeQuest (Seconds 5))
          [Seconds 2, Seconds 2])
        (RunTicksWith Binary32Sub PlainProgression QuietCollaborator (TimeQuest (Seconds 5))
          ([Seconds 2, Seconds 2] ++ [Seconds 2])) =
        [ProgressionCall.ProcessQuestStatusChange]) ∧
    RemainingWhileBlocked Binary32Sub (TimeQuest (Seconds 5)).ResolveBarrier.TimeRemaining
        [Seconds 2, Seconds 2] =
      (if ([Seconds 2, Seconds 2] : List Int).sum
          < (TimeQuest (Seconds 5)).ResolveBarrier.TimeRemaining
        then some ((TimeQuest (Seconds 5)).ResolveBarrier.TimeRemaining
          - ([Seconds 2, Seconds 2] : List Int).sum)
        else none) :=
  have h := C13_time_barrier_clears_once PlainProgression QuietCollaborator
    (TimeQuest (Seconds 5)) (by decide) (by decide) (by decide)
    (by set_option maxRecDepth 8192 in decide)
    (fun _ _ => ⟨fun _ => rfl, fun _ => rfl⟩) [Seconds 2, Seconds 2]
  have h1 := h.1 (Seconds 1) (by set_option maxRecDepth 8192 in decide)
  have h2 := h1.2.2.2.2 (Seconds 2)
  ⟨⟨h1.1, h1.2.1, h1.2.2.1, h1.2.2.2.1⟩,
    ⟨h2.1, h2.2 (by set_option maxRecDepth 8192 in decide)⟩,
    h.2.2 (by decide) (by set_option maxRecDepth 8192 in decide)⟩

/-! ## Activating a branch -/

theorem ActiveFailedAt_congr (q r : USuqsQuestState)
    (h : r.ActiveBranches = q.ActiveBranches) (ho : r.Objectives = q.Objectives) (i : Nat) :
    ActiveFailedAt r i = ActiveFailedAt q i := by
  simp only [ActiveFailedAt, ho]
  cases q.Objectives[i]? with
  | none => rfl
  | some Obj => simp [IsBranchActive_congr q r h]

/-- The scanning loop finds the first active incomplete objective. -/
theorem scan_index_eq (q : USuqsQuestState) (i : Nat) (hi : ActiveIncompleteAt q i = true)
    (hfirst : ∀ k : Nat, k < i → ActiveIncompleteAt q k = false) :
    (ScanObjectives q q.Objectives 0 false).1 = (i : Int) := by
  rcases scan_index_cases q with ⟨_, h2⟩ | ⟨i2, h1, h2, h3⟩
  · rw [h2 i] at hi
    exact absurd hi (by simp)
  · rw [h1]
    rcases Nat.lt_trichotomy i2 i with h | h | h
    · rw [hfirst i2 h] at h2
      exact absurd h2 (by simp)
    · rw [h]
    · rw [h3 i h] at hi
      exact absurd hi (by simp)

/-- The failure flag stays down when no active objective before the first active incomplete
one is failed. -/
theorem scan_flag_down (q : USuqsQuestState) (i : Nat) (hi : ActiveIncompleteAt q i = true)
    (hnf : ∀ k : Nat, k < i → ActiveFailedAt q k = false) :
    ¬ (ScanObjectives q q.Objectives 0 false).2 = true := by
  rw [scan_failed_iff]
  rintro ⟨j, h1, h2⟩
  rcases Nat.lt_trichotomy j i with h | h | h
  · rw [hnf j h] at h1
    exact absurd h1 (by simp)
  · subst h
    rw [ActiveIncompleteAt_eq_true] at hi
    rw [ActiveFailedAt_eq_true] at h1
    obtain ⟨Obj, a1, _, a3⟩ := hi
    obtain ⟨Obj2, b1, _, b3⟩ := h1
    rw [a1] at b1
    cases b1
    simp only [USuqsObjectiveState.IsIncomplete, USuqsObjectiveState.IsFailed,
      beq_iff_eq] at a3 b3
    rw [a3] at b3
    exact absurd b3 (by decide)
  · rw [h2 i h] at hi
    exact absurd hi (by simp)

/-- Adding a branch to the active set keeps every active objective active. -/
theorem ActiveAt_mono (q : USuqsQuestState) (X : FName) (j : Nat) :
    (ActiveIncompleteAt q j = true →
      ActiveIncompleteAt { q with ActiveBranches := insert X q.ActiveBranches } j = true) ∧
    (ActiveFailedAt q j = true →
      ActiveFailedAt { q with ActiveBranches := insert X q.ActiveBranches } j = true) := by
  unfold ActiveIncompleteAt ActiveFailedAt
  cases q.Objectives[j]? with
  | none => simp
  | some Obj =>
    simp only [IsBranchActive, Bool.and_eq_true]
    constructor
    · rintro ⟨h1, h2⟩
      refine ⟨?_, h2⟩
      split_ifs at h1 ⊢
      · rfl
      · simp only [decide_eq_true_eq] at h1 ⊢
        exact Finset.mem_insert_of_mem h1
    · rintro ⟨h1, h2⟩
      refine ⟨?_, h2⟩
      split_ifs at h1 ⊢
      · rfl
      · simp only [decide_eq_true_eq] at h1 ⊢
        exact Finset.mem_insert_of_mem h1

/-- C14: an incomplete objective C (index `c`) on a named branch `X` that is not active comes
before an incomplete unbranched objective D (index `d`), and apart from C no objective before D
is active and incomplete or active and failed, also counting branch `X` as active.  Then the
rescan makes D the current objective with status `Incomplete`; `SetBranchActive(X, true)` run
after it makes C the current objective, the status is still `Incomplete`, and the one call made
on the controller is `RaiseCurrentObjectiveChanged`. -/
theorem C14_branch_activation_moves_back (P : USuqsProgression) (q : USuqsQuestState)
    (X : FName) (c d : Nat)
    (hX : IsNone X = false) (hXout : X ∉ q.ActiveBranches) (hcd : c < d)
    (hC : q.Objectives[c]? = some { Branch := X, Status := ESuqsObjectiveStatus.Incomplete })
    (hD : q.Objectives[d]? =
      some { Branch := NAME_None, Status := ESuqsObjectiveStatus.Incomplete })
    (hothers : ∀ j : Nat, j < d → j ≠ c →
      ActiveIncompleteAt { q with ActiveBranches := insert X q.ActiveBranches } j = false ∧
      ActiveFailedAt { q with ActiveBranches := insert X q.ActiveBranches } j = false) :
    (NotifyObjectiveStatusChanged P q).CurrentObjectiveIndex = (d : Int) ∧
    (NotifyObjectiveStatusChanged P q).Status = ESuqsQuestStatus.Incomplete ∧
    (SetBranchActive P (NotifyObjectiveStatusChanged P q) X true).CurrentObjectiveIndex
      = (c : Int) ∧
    (SetBranchActive P (NotifyObjectiveStatusChanged P q) X true).Status
      = ESuqsQuestStatus.Incomplete ∧
    NewCalls (NotifyObjectiveStatusChanged P q)
        (SetBranchActive P (NotifyObjectiveStatusChanged P q) X true) =
      [ProgressionCall.RaiseCurrentObjectiveChanged] := by
  -- before the activation
  have hXnot : ¬ IsNone X = true := by simp [hX]
  have hCq : ActiveIncompleteAt q c = false ∧ ActiveFailedAt q c = false := by
    simp [ActiveIncompleteAt, ActiveFailedAt, hC, IsBranchActive,
      USuqsObjectiveState.GetBranch, hX, hXout, USuqsObjectiveState.IsFailed]
  have hDq : ActiveIncompleteAt q d = true := by
    simp [ActiveIncompleteAt, hD, IsBranchActive, USuqsObjectiveState.GetBranch, IsNone,
      USuqsObjectiveState.IsIncomplete]
  have hbelow : ∀ j : Nat, j < d →
      ActiveIncompleteAt q j = false ∧ ActiveFailedAt q j = false := by
    intro j hj
    by_cases hjc : j = c
    · rw [hjc]
      exact hCq
    · obtain ⟨h1, h2⟩ := hothers j hj hjc
      obtain ⟨m1, m2⟩ := ActiveAt_mono q X j
      constructor
      · cases h : ActiveIncompleteAt q j with
        | false => rfl
        | true => rw [m1 h] at h1; exact absurd h1 (by simp)
      · cases h : ActiveFailedAt q j with
        | false => rfl
        | true => rw [m2 h] at h2; exact absurd h2 (by simp)
  obtain ⟨ho, hb, _, hidx, hst⟩ := NotifyObjectiveStatusChanged_frame P q
  have hscan1 := scan_index_eq q d hDq (fun k hk => (hbelow k hk).1)
  have hflag1 := scan_flag_down q d hDq (fun k hk => (hbelow k hk).2)
  have hidx1 : (NotifyObjectiveStatusChanged P q).CurrentObjectiveIndex = (d : Int) := by
    rw [hidx, hscan1]
  have hst1 : (NotifyObjectiveStatusChanged P q).Status = ESuqsQuestStatus.Incomplete := by
    rw [hst, if_neg hflag1, hscan1, if_neg (by omega)]
  -- after the activation
  have hXout1 : X ∉ (NotifyObjectiveStatusChanged P q).ActiveBranches := by
    rw [hb]
    exact hXout
  have hset : SetBranchActive P (NotifyObjectiveStatusChanged P q) X true =
      NotifyObjectiveStatusChanged P
        { NotifyObjectiveStatusChanged P q with
          ActiveBranches := insert X (NotifyObjectiveStatusChanged P q).ActiveBranches } := by
    simp [SetBranchActive, hX, hXout1]
  have hcongr : ∀ j : Nat,
      ActiveIncompleteAt
        { NotifyObjectiveStatusChanged P q with
          ActiveBranches := insert X (NotifyObjectiveStatusChanged P q).ActiveBranches } j =
        ActiveIncompleteAt { q with ActiveBranches := insert X q.ActiveBranches } j ∧
      ActiveFailedAt
        { NotifyObjectiveStatusChanged P q with
          ActiveBranches := insert X (NotifyObjectiveStatusChanged P q).ActiveBranches } j =
        ActiveFailedAt { q with ActiveBranches := insert X q.ActiveBranches } j := by
    intro j
    exact ⟨ActiveIncompleteAt_congr { q with ActiveBranches := insert X q.ActiveBranches }
        { NotifyObjectiveStatusChanged P q with
          ActiveBranches := insert X (NotifyObjectiveStatusChanged P q).ActiveBranches }
        (by simp [hb]) ho j,
      ActiveFailedAt_congr { q with ActiveBranches := insert X q.ActiveBranches }
        { NotifyObjectiveStatusChanged P q with
          ActiveBranches := insert X (NotifyObjectiveStatusChanged P q).ActiveBranches }
        (by simp [hb]) ho j⟩
  have hCx : ActiveIncompleteAt { q with ActiveBranches := insert X q.ActiveBranches } c
      = true := by
    simp [ActiveIncompleteAt, hC, IsBranchActive, USuqsObjectiveState.GetBranch, hX,
      USuqsObjectiveState.IsIncomplete]
  have hscan2 := scan_index_eq _ c (by rw [(hcongr c).1]; exact hCx)
    (fun k hk => by rw [(hcongr k).1]; exact (hothers k (by omega) (by omega)).1)
  have hflag2 := scan_flag_down _ c (by rw [(hcongr c).1]; exact hCx)
    (fun k hk => by rw [(hcongr k).2]; exact (hothers k (by omega) (by omega)).2)
  have hne : (NotifyObjectiveStatusChanged P q).CurrentObjectiveIndex ≠ (c : Int) := by
    rw [hidx1]
    omega
  have hq2 : SetBranchActive P (NotifyObjectiveStatusChanged P q) X true =
      Raise
        { NotifyObjectiveStatusChanged P q with
          ActiveBranches := insert X (NotifyObjectiveStatusChanged P q).ActiveBranches,
          CurrentObjectiveIndex := (c : Int) }
        ProgressionCall.RaiseCurrentObjectiveChanged := by
    rw [hset, NotifyObjectiveStatusChanged_eq, if_neg hflag2, hscan2, if_neg (by omega),
      if_pos hne, ChangeStatus_eq, if_pos hst1]
  rw [hq2]
  refine ⟨hidx1, hst1, rfl, hst1, ?_⟩
  apply NewCalls_of_append
  simp [Raise]

/-- The scenario of C14 on `BranchedQuest`: after the initialisation the unbranched second
objective is current; activating branch 7 makes the first objective current. -/
theorem C14_branch_activation_moves_back_witness :
    (Initialise PlainProgression (FreshQuest []) BranchedQuest).CurrentObjectiveIndex = 1 ∧
    ((NotifyObjectiveStatusChanged PlainProgression
        (Initialise PlainProgression (FreshQuest []) BranchedQuest)).CurrentObjectiveIndex
        = ((1 : Nat) : Int) ∧
      (NotifyObjectiveStatusChanged PlainProgression
        (Initialise PlainProgression (FreshQuest []) BranchedQuest)).Status
        = ESuqsQuestStatus.Incomplete ∧
      (SetBranchActive PlainProgression
        (NotifyObjectiveStatusChanged PlainProgression
          (Initialise PlainProgression (FreshQuest []) BranchedQuest)) 7
        true).CurrentObjectiveIndex = ((0 : Nat) : Int) ∧
      (SetBranchActive PlainProgression
        (NotifyObjectiveStatusChanged PlainProgression
          (Initialise PlainProgression (FreshQuest []) BranchedQuest)) 7 true).Status
        = ESuqsQuestStatus.Incomplete ∧
      NewCalls
          (NotifyObjectiveStatusChanged PlainProgression
            (Initialise PlainProgression (FreshQuest []) BranchedQuest))
          (SetBranchActive PlainProgression
            (NotifyObjectiveStatusChanged PlainProgression
              (Initialise PlainProgression (FreshQuest []) BranchedQuest)) 7 true) =
        [ProgressionCall.RaiseCurrentObjectiveChanged]) :=
  ⟨by decide,
    C14_branch_activation_moves_back PlainProgression
      (Initialise PlainProgression (FreshQuest []) BranchedQuest) 7 0 1
      (by decide) (by decide) (by decide) (by decide) (by decide) (by decide)⟩

/-! ## Gate notifications -/

/-- An explicit-only barrier that has not been granted: ticks, gate notifications and direct
evaluations change nothing. -/
theorem RunCalls_explicit_waiting (O : ObjectiveCollaborator) (q : USuqsQuestState)
    (hp : q.ResolveBarrier.bPending = true)
    (hc : q.ResolveBarrier.Conditions = ESuqsResolveBarrierCondition.Explicit.mask)
    (hg : q.ResolveBarrier.bGrantedExplicitly = false) (hO : Quiet O q) :
    ∀ cs : List (USuqsProgression × BarrierCall), (∀ c ∈ cs, c.2.isResolve = false) →
      RunCalls O q cs = q := by
  have htime : IsResolveBlockedOn q ESuqsResolveBarrierCondition.Time = false := by
    simp only [IsResolveBlockedOn, hp, hc, ESuqsResolveBarrierCondition.mask]
    decide
  have hgate : IsResolveBlockedOn q ESuqsResolveBarrierCondition.Gate = false := by
    simp only [IsResolveBlockedOn, hp, hc, ESuqsResolveBarrierCondition.mask]
    decide
  have hexp : IsResolveBlockedOn q ESuqsResolveBarrierCondition.Explicit = true := by
    simp only [IsResolveBlockedOn, hp, hc, ESuqsResolveBarrierCondition.mask]
    decide
  have hidle : ∀ P : USuqsProgression, MaybeNotifyStatusChange P q = q := by
    intro P
    rw [MaybeNotifyStatusChange_eq, bCleared_eq]
    simp [hexp, hg]
  intro cs
  induction cs with
  | nil => intro _; rfl
  | cons c cs ih =>
    intro hcs
    have hc1 := hcs c (List.mem_cons_self c cs)
    have hrest : ∀ x ∈ cs, x.2.isResolve = false :=
      fun x hx => hcs x (List.mem_cons_of_mem c hx)
    have hstep : RunCall O q c = q := by
      obtain ⟨P, call⟩ := c
      cases call with
      | Tick DeltaTime =>
        simp only [RunCall]
        rw [Tick_quiet P O q hO]
        simp [htime, hidle]
      | Resolve => simp [BarrierCall.isResolve] at hc1
      | NotifyGateOpened GateName =>
        simp only [RunCall]
        rw [NotifyGateOpened_quiet P O q hO]
        simp [hgate]
      | MaybeNotifyStatusChange =>
        simp only [RunCall]
        exact hidle P
    have hfold : RunCalls O q (c :: cs) = RunCalls O (RunCall O q c) cs := rfl
    rw [hfold, hstep]
    exact ih hrest

/-- A gate-only barrier whose gate is reported closed at every call: no call clears it; only
the explicit-grant flag changes, when `Resolve` is among the calls. -/
theorem RunCalls_gate_closed (O : ObjectiveCollaborator) :
    ∀ (cs : List (USuqsProgression × BarrierCall)) (q : USuqsQuestState),
      q.ResolveBarrier.bPending = true →
      q.ResolveBarrier.Conditions = ESuqsResolveBarrierCondition.Gate.mask →
      Quiet O q →
      (∀ c ∈ cs, c.1.IsGateOpen q.ResolveBarrier.Gate = false) →
      RunCalls O q cs =
        { q with ResolveBarrier :=
            { q.ResolveBarrier with
              bGrantedExplicitly :=
                q.ResolveBarrier.bGrantedExplicitly || cs.any (fun c => c.2.isResolve) } } := by
  intro cs
  induction cs with
  | nil =>
    intro q _ _ _ _
    simp [RunCalls]
  | cons c cs ih =>
    intro q hp hc hO hcs
    have hclosed := hcs c (List.mem_cons_self c cs)
    have hrest : ∀ x ∈ cs, x.1.IsGateOpen q.ResolveBarrier.Gate = false :=
      fun x hx => hcs x (List.mem_cons_of_mem c hx)
    have hblock : ∀ (b : Bool) (cond : ESuqsResolveBarrierCondition),
        IsResolveBlockedOn
          { q with ResolveBarrier := { q.ResolveBarrier with bGrantedExplicitly := b } } cond =
        IsResolveBlockedOn q cond := by
      intro b cond
      simp [IsResolveBlockedOn]
    have htime : IsResolveBlockedOn q ESuqsResolveBarrierCondition.Time = false := by
      simp only [IsResolveBlockedOn, hp, hc, ESuqsResolveBarrierCondition.mask]
      decide
    have hgate : IsResolveBlockedOn q ESuqsResolveBarrierCondition.Gate = true := by
      simp only [IsResolveBlockedOn, hp, hc, ESuqsResolveBarrierCondition.mask]
      decide
    have hexp : IsResolveBlockedOn q ESuqsResolveBarrierCondition.Explicit = false := by
      simp only [IsResolveBlockedOn, hp, hc, ESuqsResolveBarrierCondition.mask]
      decide
    have hidle : ∀ b : Bool, MaybeNotifyStatusChange c.1
        { q with ResolveBarrier := { q.ResolveBarrier with bGrantedExplicitly := b } } =
        { q with ResolveBarrier := { q.ResolveBarrier with bGrantedExplicitly := b } } := by
      intro b
      rw [MaybeNotifyStatusChange_eq, bCleared_eq]
      simp only [hblock, hexp, hgate, htime]
      simp [hclosed]
    have hself : { q with ResolveBarrier :=
        { q.ResolveBarrier with bGrantedExplicitly := q.ResolveBarrier.bGrantedExplicitly } }
        = q := rfl
    have hidle0 : MaybeNotifyStatusChange c.1 q = q := by
      have := hidle q.ResolveBarrier.bGrantedExplicitly
      rwa [hself] at this
    have hfold : RunCalls O q (c :: cs) = RunCalls O (RunCall O q c) cs := rfl
    obtain ⟨P, call⟩ := c
    cases call with
    | Tick DeltaTime =>
      have hstep : RunCall O q (P, BarrierCall.Tick DeltaTime) = q := by
        simp only [RunCall]
        rw [Tick_quiet P O q hO]
        simp only [htime, Bool.false_eq_true, if_false]
        exact hidle0
      rw [hfold, hstep, ih q hp hc hO hrest]
      simp [BarrierCall.isResolve]
    | Resolve =>
      have hstep : RunCall O q (P, BarrierCall.Resolve) =
          { q with ResolveBarrier := { q.ResolveBarrier with bGrantedExplicitly := true } } := by
        simp only [RunCall, Resolve]
        exact hidle true
      rw [hfold, hstep,
        ih { q with ResolveBarrier := { q.ResolveBarrier with bGrantedExplicitly := true } }
          hp hc (fun Obj hObj => hO Obj hObj) hrest]
      simp [BarrierCall.isResolve]
    | NotifyGateOpened GateName =>
      have hstep : RunCall O q (P, BarrierCall.NotifyGateOpened GateName) = q := by
        simp only [RunCall]
        rw [NotifyGateOpened_quiet P O q hO]
        split_ifs
        · exact hidle0
        · rfl
      rw [hfold, hstep, ih q hp hc hO hrest]
      simp [BarrierCall.isResolve]
    | MaybeNotifyStatusChange =>
      have hstep : RunCall O q (P, BarrierCall.MaybeNotifyStatusChange) = q := by
        simp only [RunCall]
        exact hidle0
      rw [hfold, hstep, ih q hp hc hO hrest]
      simp [BarrierCall.isResolve]

/-- C17: a quest in `Completed` or `Failed` status with a pending barrier, and a collaborator
that changes no objective state.  If the barrier requires Explicit only and no grant has been
given, every sequence of calls without `Resolve` leaves the quest exactly as it is, so it stays
resolve-blocked and nothing is called on the controller; the `Resolve` that follows calls
`ProcessQuestStatusChange` once and ends the blocking.  If the barrier requires Gate only and
the controller reports the gate closed at every call, every sequence of ticks, resolves, gate
notifications and evaluations leaves the quest resolve-blocked and calls nothing. -/
theorem C17_barrier_blocks_until_condition (O : ObjectiveCollaborator) (q : USuqsQuestState)
    (hs : q.Status = ESuqsQuestStatus.Completed ∨ q.Status = ESuqsQuestStatus.Failed)
    (hp : q.ResolveBarrier.bPending = true) (hO : Quiet O q)
    (cs : List (USuqsProgression × BarrierCall)) :
    (q.ResolveBarrier.Conditions = ESuqsResolveBarrierCondition.Explicit.mask →
      q.ResolveBarrier.bGrantedExplicitly = false →
      (∀ c ∈ cs, c.2.isResolve = false) →
      RunCalls O q cs = q ∧
      IsResolveBlocked (RunCalls O q cs) = true ∧
      ∀ P : USuqsProgression,
        NewCalls q (Resolve P (RunCalls O q cs)) = [ProgressionCall.ProcessQuestStatusChange] ∧
        IsResolveBlocked (Resolve P (RunCalls O q cs)) = false ∧
        (Resolve P (RunCalls O q cs)).ResolveBarrier.bPending = false) ∧
    (q.ResolveBarrier.Conditions = ESuqsResolveBarrierCondition.Gate.mask →
      (∀ c ∈ cs, c.1.IsGateOpen q.ResolveBarrier.Gate = false) →
      IsResolveBlocked (RunCalls O q cs) = true ∧
      (RunCalls O q cs).ProgressionCalls = q.ProgressionCalls ∧
      (RunCalls O q cs).ResolveBarrier.bPending = true) := by
  have hterm : (IsCompleted q || IsFailed q) = true := by
    rcases hs with h | h <;> simp [IsCompleted, IsFailed, h]
  constructor
  · intro hc hg hcs
    have hrun := RunCalls_explicit_waiting O q hp hc hg hO cs hcs
    have hcond : decide (q.ResolveBarrier.Conditions > 0) = true := by
      rw [hc]
      decide
    have hblocked : IsResolveBlocked q = true := by
      simp only [IsResolveBlocked, hterm, hcond, hp, Bool.and_self]
    rw [hrun]
    refine ⟨rfl, hblocked, fun P => ?_⟩
    have hres : Resolve P q =
        Cleared
          { q with ResolveBarrier := { q.ResolveBarrier with bGrantedExplicitly := true } } := by
      have hexp : IsResolveBlockedOn
          { q with ResolveBarrier := { q.ResolveBarrier with bGrantedExplicitly := true } }
          ESuqsResolveBarrierCondition.Explicit = true := by
        simp only [IsResolveBlockedOn, hp, hc, ESuqsResolveBarrierCondition.mask]
        decide
      unfold Resolve
      rw [MaybeNotifyStatusChange_eq, bCleared_eq, if_pos]
      refine ⟨hp, hs, ?_⟩
      rw [if_pos hexp]
    rw [hres]
    refine ⟨?_, ?_, rfl⟩
    · apply NewCalls_of_append
      simp [Cleared]
    · simp [IsResolveBlocked, Cleared]
  · intro hc hcs
    have hrun := RunCalls_gate_closed O cs q hp hc hO hcs
    have hcond : decide (q.ResolveBarrier.Conditions > 0) = true := by
      rw [hc]
      decide
    rw [hrun]
    refine ⟨?_, rfl, hp⟩
    simp only [IsResolveBlocked, IsCompleted, IsFailed] at hterm ⊢
    simp only [hterm, hcond, hp, Bool.and_self]

/-- The facts of C17 on `ExplicitQuest` and on `GateQuest`: a tick and a gate notification
leave the first blocked, the `Resolve` that follows clears it; a tick, a resolve and the
notification of its own gate, still reported closed, leave the second blocked. -/
theorem C17_barrier_blocks_until_condition_witness :
    (IsResolveBlocked (RunCalls QuietCollaborator ExplicitQuest
        [(PlainProgression, BarrierCall.Tick 3),
          (ProgressionWithGate 3, BarrierCall.NotifyGateOpened 3)]) = true ∧
      NewCalls ExplicitQuest (Resolve PlainProgression (RunCalls QuietCollaborator ExplicitQuest
        [(PlainProgression, BarrierCall.Tick 3),
          (ProgressionWithGate 3, BarrierCall.NotifyGateOpened 3)])) =
        [ProgressionCall.ProcessQuestStatusChange] ∧
      IsResolveBlocked (Resolve PlainProgression (RunCalls QuietCollaborator ExplicitQuest
        [(PlainProgression, BarrierCall.Tick 3),
          (ProgressionWithGate 3, BarrierCall.NotifyGateOpened 3)])) = false) ∧
    (IsResolveBlocked (RunCalls QuietCollaborator GateQuest
        [(PlainProgression, BarrierCall.Tick 3), (PlainProgression, BarrierCall.Resolve),
          (PlainProgression, BarrierCall.NotifyGateOpened 3)]) = true ∧
      (RunCalls QuietCollaborator GateQuest
        [(PlainProgression, BarrierCall.Tick 3), (PlainProgression, BarrierCall.Resolve),
          (PlainProgression, BarrierCall.NotifyGateOpened 3)]).ProgressionCalls =
        GateQuest.ProgressionCalls) :=
  have hE := (C17_barrier_blocks_until_condition QuietCollaborator ExplicitQuest
    (by decide) (by decide) (fun _ _ => ⟨fun _ => rfl, fun _ => rfl⟩)
    [(PlainProgression, BarrierCall.Tick 3),
      (ProgressionWithGate 3, BarrierCall.NotifyGateOpened 3)]).1
    (by decide) (by decide) (by decide)
  have hG := (C17_barrier_blocks_until_condition QuietCollaborator GateQuest
    (by decide) (by decide) (fun _ _ => ⟨fun _ => rfl, fun _ => rfl⟩)
    [(PlainProgression, BarrierCall.Tick 3), (PlainProgression, BarrierCall.Resolve),
      (PlainProgression, BarrierCall.NotifyGateOpened 3)]).2
    (by decide) (by decide)
  ⟨⟨hE.2.1, (hE.2.2 PlainProgression).1, (hE.2.2 PlainProgression).2.1⟩, hG.1, hG.2.1⟩

/-! ## Task lookup -/

theorem TMapFind_TMapAdd (Map : List (FName × Option USuqsTaskState)) (Key : FName)
    (Value : Option USuqsTaskState) (Id : FName) :
    TMapFind (TMapAdd Map Key Value) Id =
      if Key = Id then some Value else TMapFind Map Id := by
  induction Map with
  | nil => simp [TMapAdd, TMapFind]
  | cons Pair Rest ih =>
    by_cases h1 : Pair.1 = Key
    · have hadd : TMapAdd (Pair :: Rest) Key Value = (Key, Value) :: Rest := by
        simp [TMapAdd, h1]
      rw [hadd]
      by_cases h2 : Key = Id
      · simp [TMapFind, h2]
      · have h3 : ¬ Pair.1 = Id := fun h => h2 (h1 ▸ h)
        simp [TMapFind, h2, h3]
    · have hadd : TMapAdd (Pair :: Rest) Key Value = Pair :: TMapAdd Rest Key Value := by
        simp [TMapAdd, h1]
      rw [hadd]
      by_cases h3 : Pair.1 = Id
      · have h2 : ¬ Key = Id := fun h => h1 (h3.trans h.symm)
        simp [TMapFind, h2, h3]
      · have hfind : TMapFind (Pair :: TMapAdd Rest Key Value) Id =
            TMapFind (TMapAdd Rest Key Value) Id := by
          simp [TMapFind, h3]
        have hfind2 : TMapFind (Pair :: Rest) Id = TMapFind Rest Id := by
          simp [TMapFind, h3]
        rw [hfind, hfind2, ih]

/-- An identifier that is not a key of the index is not found. -/
theorem TMapFind_of_not_key (Map : List (FName × Option USuqsTaskState)) (Id : FName)
    (h : Id ∉ Map.map Prod.fst) : TMapFind Map Id = none := by
  induction Map with
  | nil => rfl
  | cons Pair Rest ih =>
    simp only [List.map_cons, List.mem_cons, not_or] at h
    have h1 : ¬ Pair.1 = Id := fun e => h.1 e.symm
    simp [TMapFind, h1, ih h.2]

theorem WellKeyed_add_tasks (Tasks : List USuqsTaskState) :
    ∀ Map : List (FName × Option USuqsTaskState), WellKeyed Map →
      WellKeyed (Tasks.foldl (fun Map Task => TMapAdd Map Task.Identifier (some Task)) Map) := by
  induction Tasks with
  | nil => intro Map h; exact h
  | cons T Tasks ih =>
    intro Map h
    apply ih
    intro Key Value hfind
    rw [TMapFind_TMapAdd] at hfind
    by_cases hk : T.Identifier = Key
    · rw [if_pos hk] at hfind
      exact ⟨T, (Option.some.inj hfind).symm, hk⟩
    · rw [if_neg hk] at hfind
      exact h Key Value hfind

theorem WellKeyed_InitialiseObjectives :
    ∀ (Defs : List FSuqsObjective) (q : USuqsQuestState), WellKeyed q.FastTaskLookup →
      WellKeyed (InitialiseObjectives q Defs).FastTaskLookup := by
  intro Defs
  induction Defs with
  | nil => intro q h; exact h
  | cons ObjDef Rest ih =>
    intro q h
    unfold InitialiseObjectives
    simp only []
    apply ih
    exact WellKeyed_add_tasks _ _ h

theorem MaybeNotifyStatusChange_lookup (P : USuqsProgression) (q : USuqsQuestState) :
    (MaybeNotifyStatusChange P q).FastTaskLookup = q.FastTaskLookup := by
  rw [MaybeNotifyStatusChange_eq]
  split_ifs <;> rfl

theorem ChangeStatus_lookup (P : USuqsProgression) (q : USuqsQuestState)
    (t : ESuqsQuestStatus) : (ChangeStatus P q t).FastTaskLookup = q.FastTaskLookup := by
  rw [ChangeStatus_eq]
  split_ifs
  · rfl
  · rw [MaybeNotifyStatusChange_lookup]

theorem NotifyObjectiveStatusChanged_lookup (P : USuqsProgression) (q : USuqsQuestState) :
    (NotifyObjectiveStatusChanged P q).FastTaskLookup = q.FastTaskLookup := by
  rw [NotifyObjectiveStatusChanged_eq]
  split_ifs <;> simp [Raise, ChangeStatus_lookup]

/-- The task index of an initialised quest holds tasks only, each under its own identifier. -/
theorem WellKeyed_Initialise (P : USuqsProgression) (q : USuqsQuestState) (Def : FSuqsQuest) :
    WellKeyed (Initialise P q Def).FastTaskLookup := by
  unfold Initialise ResetBranches
  simp only []
  rw [NotifyObjectiveStatusChanged_lookup]
  have hbase : WellKeyed (InitialiseObjectives
      { q with
        QuestDefinition := Def,
        Status := ESuqsQuestStatus.Incomplete,
        FastTaskLookup := [],
        ActiveBranches := ∅ } Def.Objectives).FastTaskLookup := by
    apply WellKeyed_InitialiseObjectives
    intro Key Value hfind
    simp [TMapFind] at hfind
  split_ifs
  · rw [NotifyObjectiveStatusChanged_lookup]
    exact hbase
  · exact hbase

/-- C15: for an identifier that is not a key of the task index, `GetTask` and each of the eight
task operations of the quest fail with the contract violation of `FindChecked`; none returns
its default result.  For an identifier under which the task `T` is stored, `GetTask` returns
`T` and each operation returns what the same operation of `T` returns.  In the index of an
initialised quest every key stores a task, under its own identifier. -/
theorem C15_task_lookup_contract (C : TaskCollaborator) (q : USuqsQuestState)
    (TaskID : FName) :
    (TaskID ∉ q.FastTaskLookup.map Prod.fst →
      GetTask q TaskID = Except.error (ContractViolation.FindChecked TaskID) ∧
      CompleteTask C q TaskID = Except.error (ContractViolation.FindChecked TaskID) ∧
      ResolveTask C q TaskID = Except.error (ContractViolation.FindChecked TaskID) ∧
      FailTask C q TaskID = Except.error (ContractViolation.FindChecked TaskID) ∧
      (∀ Delta : Int,
        ProgressTask C q TaskID Delta = Except.error (ContractViolation.FindChecked TaskID)) ∧
      IsTaskIncomplete C q TaskID = Except.error (ContractViolation.FindChecked TaskID) ∧
      IsTaskCompleted C q TaskID = Except.error (ContractViolation.FindChecked TaskID) ∧
      IsTaskFailed C q TaskID = Except.error (ContractViolation.FindChecked TaskID) ∧
      ResetTask C q TaskID = Except.error (ContractViolation.FindChecked TaskID)) ∧
    (∀ T : USuqsTaskState, TMapFind q.FastTaskLookup TaskID = some (some T) →
      GetTask q TaskID = Except.ok (some T) ∧
      CompleteTask C q TaskID = Except.ok (C.Complete T q) ∧
      ResolveTask C q TaskID = Except.ok (C.Resolve T q) ∧
      FailTask C q TaskID = Except.ok (C.Fail T q) ∧
      (∀ Delta : Int, ProgressTask C q TaskID Delta = Except.ok (C.Progress T Delta q)) ∧
      IsTaskIncomplete C q TaskID = Except.ok (C.IsIncomplete T) ∧
      IsTaskCompleted C q TaskID = Except.ok (C.IsCompleted T) ∧
      IsTaskFailed C q TaskID = Except.ok (C.IsFailed T) ∧
      ResetTask C q TaskID = Except.ok (C.Reset T q)) ∧
    (∀ (P : USuqsProgression) (Def : FSuqsQuest), WellKeyed (Initialise P q Def).FastTaskLookup) := by
  refine ⟨?_, ?_, fun P Def => WellKeyed_Initialise P q Def⟩
  · intro hkey
    have hfind := TMapFind_of_not_key q.FastTaskLookup TaskID hkey
    have hget : GetTask q TaskID = Except.error (ContractViolation.FindChecked TaskID) := by
      simp [GetTask, hfind]
    refine ⟨hget, ?_, ?_, ?_, ?_, ?_, ?_, ?_, ?_⟩
    · simp [CompleteTask, hget]
    · simp [ResolveTask, hget]
    · simp [FailTask, hget]
    · intro Delta
      simp [ProgressTask, hget]
    · simp [IsTaskIncomplete, hget]
    · simp [IsTaskCompleted, hget]
    · simp [IsTaskFailed, hget]
    · simp [ResetTask, hget]
  · intro T hfind
    have hget : GetTask q TaskID = Except.ok (some T) := by
      simp [GetTask, hfind]
    refine ⟨hget, ?_, ?_, ?_, ?_, ?_, ?_, ?_, ?_⟩
    · simp [CompleteTask, hget]
    · simp [ResolveTask, hget]
    · simp [FailTask, hget]
    · intro Delta
      simp [ProgressTask, hget]
    · simp [IsTaskIncomplete, hget]
    · simp [IsTaskCompleted, hget]
    · simp [IsTaskFailed, hget]
    · simp [ResetTask, hget]

/-- The facts of C15 on the quest of `TwoObjectives`, whose tasks are 11 and 12: identifier 99
is not a key, so completing it is a contract violation; identifier 12 is the task of the second
objective, and completing it is that task's completion. -/
theorem C15_task_lookup_contract_witness :
    CompleteTask PlainTasks TwoObjectivesStarted 99 =
      Except.error (ContractViolation.FindChecked 99) ∧
    CompleteTask PlainTasks TwoObjectivesStarted 12 =
      Except.ok (PlainTasks.Complete { Identifier := 12, ObjectiveIndex := 1 }
        TwoObjectivesStarted) :=
  ⟨((C15_task_lookup_contract PlainTasks TwoObjectivesStarted 99).1 (by decide)).2.1,
    ((C15_task_lookup_contract PlainTasks TwoObjectivesStarted 12).2.1
      { Identifier := 12, ObjectiveIndex := 1 } (by decide)).2.1⟩

end SUQS
